import Mathlib

/-!
# Nabi input context (src/ic.c): shallow embedding

The embedding follows `src/src/ic.c` function by function.

* Text is kept at the level of Unicode scalars: a `char*` holding UTF-8 and a
  `Nat*` array are both a `List Nat`.  The UTF-8 and Compound Text
  encodings applied on the way to the wire are injective re-encodings of that
  list and are not modelled; `g_utf8_strlen` is `List.length` and
  `strlen(s) > 0` is `s ≠ []`.  The one exception is `nabi_ic_reset`, whose
  reply carries the length of the Compound Text: it takes the conversion as a
  parameter.
* The objects several ICs point to (server, connections, toplevels) are held
  in a `World`; a function of one IC runs on the view `St` of it.
* For the IC list of a connection and the toplevel registry, a pointer to an
  IC is its index in the list and a pointer to a toplevel is the window of
  the toplevel; memory allocation does not fail.
* Of `src/nabi/src/ui.c` the function `load_colors` is embedded.
* Calls that leave the process (IMCommitString, IMCallCallback, window
  mapping) are recorded, in order, in the event trace `St.out`.
* libhangul, the candidate window, the hanja tables and the server helpers are
  not part of `ic.c`; they are the fields of `Deps`.
* Logging (`nabi_log`, `nabi_server_log_key`, `g_print`) and the pixel geometry
  of the server drawn preedit window are left out.
-/

namespace Nabi

/-! ## Scalars, keysyms and X constants -/

/-- A string of Unicode scalars.  Scalars (the C type ucschar) and keysyms are
plain naturals. -/
abbrev Text := List Nat

def XK_space : Nat := 0x20
def XK_exclam : Nat := 0x21
def XK_asciitilde : Nat := 0x7e
def XK_1 : Nat := 0x31
def XK_9 : Nat := 0x39
def XK_h : Nat := 0x68
def XK_j : Nat := 0x6a
def XK_k : Nat := 0x6b
def XK_l : Nat := 0x6c
def XK_BackSpace : Nat := 0xff08
def XK_Tab : Nat := 0xff09
def XK_Return : Nat := 0xff0d
def XK_Escape : Nat := 0xff1b
def XK_Left : Nat := 0xff51
def XK_Up : Nat := 0xff52
def XK_Right : Nat := 0xff53
def XK_Down : Nat := 0xff54
def XK_Page_Up : Nat := 0xff55
def XK_Page_Down : Nat := 0xff56
def XK_KP_Enter : Nat := 0xff8d
def XK_KP_Home : Nat := 0xff95
def XK_KP_Left : Nat := 0xff96
def XK_KP_Up : Nat := 0xff97
def XK_KP_Right : Nat := 0xff98
def XK_KP_Down : Nat := 0xff99
def XK_KP_Prior : Nat := 0xff9a
def XK_KP_Next : Nat := 0xff9b
def XK_KP_End : Nat := 0xff9c
def XK_KP_Begin : Nat := 0xff9d
def XK_KP_Add : Nat := 0xffab
def XK_KP_Subtract : Nat := 0xffad
def XK_KP_1 : Nat := 0xffb1
def XK_KP_9 : Nat := 0xffb9
def XK_Shift_L : Nat := 0xffe1
def XK_Shift_R : Nat := 0xffe2

def ControlMask : Nat := 0x04
def Mod1Mask : Nat := 0x08
def Mod3Mask : Nat := 0x20
def Mod4Mask : Nat := 0x40
def Mod5Mask : Nat := 0x80

def XIMPreeditArea : Nat := 0x0001
def XIMPreeditCallbacks : Nat := 0x0002
def XIMPreeditPosition : Nat := 0x0004
def XIMPreeditNothing : Nat := 0x0008
def XIMStatusCallbacks : Nat := 0x0200

def XIMReverse : Nat := 1
def XIMUnderline : Nat := 2

/-- The C test `(a & mask)` used as a condition. -/
def hasBits (a mask : Nat) : Bool := (a &&& mask) != 0

/-! ## UString -/

/-- Modelled from the spec: the UString of `ustring.c`, which is not among the
sources, "ordered sequence of Unicode scalars with append/erase/iter". -/
abbrev UString := List Nat

/-- Modelled from the spec: `ustring_length`, the number of scalars. -/
def ustring_length (s : UString) : Nat := s.length

/-- Modelled from the spec: `ustring_append` and `ustring_append_ucs4` with
length -1, append a whole scalar string. -/
def ustring_append (s : UString) (t : List Nat) : UString := s ++ t

/-- Modelled from the spec: `ustring_erase(str, pos, len)` removes `len`
scalars starting at index `pos`. -/
def ustring_erase (s : UString) (pos len : Nat) : UString :=
  s.take pos ++ s.drop (pos + len)

/-- Modelled from the spec: `ustring_clear` empties the sequence. -/
def ustring_clear (_s : UString) : UString := []

/-! ## Jamo classes and the syllable iterator -/

/-- The three libhangul class tests used by `ic.c`. -/
structure JamoClass where
  hangul_is_choseong : Nat → Bool
  hangul_is_jungseong : Nat → Bool
  hangul_is_jongseong : Nat → Bool

/-- The Hangul Jamo block U+1100..U+11FF split into leading consonants, vowels
and trailing consonants; the concrete instance used in examples. -/
def unicodeJamo : JamoClass where
  hangul_is_choseong c := decide (0x1100 ≤ c ∧ c ≤ 0x115f)
  hangul_is_jungseong c := decide (0x1160 ≤ c ∧ c ≤ 0x11a7)
  hangul_is_jongseong c := decide (0x11a8 ≤ c ∧ c ≤ 0x11ff)

/-- No scalar belongs to two jamo classes. -/
def JamoClass.Disjoint (J : JamoClass) : Prop :=
  ∀ c, (J.hangul_is_choseong c = true → J.hangul_is_jungseong c = false ∧ J.hangul_is_jongseong c = false)
    ∧ (J.hangul_is_jungseong c = true → J.hangul_is_jongseong c = false)

/-- Function `is_syllable_boundary` (ic.c 52-71). -/
def is_syllable_boundary (J : JamoClass) (prev next : Nat) : Bool :=
  if J.hangul_is_choseong prev then
    if J.hangul_is_choseong next then false
    else if J.hangul_is_jungseong next then false
    else true
  else if J.hangul_is_jungseong prev then
    if J.hangul_is_jungseong next then false
    else if J.hangul_is_jongseong next then false
    else true
  else if J.hangul_is_jongseong prev then
    if J.hangul_is_jongseong next then false
    else true
  else true

/-- The `while (iter > begin)` loop of `ustr_syllable_iter_prev`.  Pointers
are indices into `buf`; the argument is the current value of `iter`. -/
def ustr_syllable_iter_prev_loop (J : JamoClass) (buf : List Nat) (begin : Nat) : Nat → Nat
  | 0 => 0
  | i + 1 =>
    if i + 1 > begin then
      if is_syllable_boundary J (buf.getD i 0) (buf.getD (i + 1) 0) then i + 1
      else ustr_syllable_iter_prev_loop J buf begin i
    else i + 1

/-- Function `ustr_syllable_iter_prev` (ic.c 73-87). -/
def ustr_syllable_iter_prev (J : JamoClass) (buf : List Nat) (iter begin : Nat) : Nat :=
  ustr_syllable_iter_prev_loop J buf begin (if iter > begin then iter - 1 else iter)

/-! ## Data model -/

inductive NabiInputMode where
  | DIRECT
  | COMPOSE
  deriving DecidableEq, Repr

inductive NabiInputModeScope where
  | PER_DESKTOP
  | PER_APPLICATION
  | PER_TOPLEVEL
  | PER_IC
  deriving DecidableEq, Repr

/-- A hanja table entry: `hanja_get_key` and `hanja_get_value` of a non-NULL
entry.  A NULL entry pointer is `none : Option Hanja`. -/
structure Hanja where
  key : Text
  value : Text
  deriving DecidableEq, Repr

/-- What the server sends out or does to its windows, in order. -/
inductive Event where
  /-- IMCommitString with the given text. -/
  | Commit (text : Text)
  /-- IMCallCallback with major code XIM_PREEDIT_START. -/
  | PreeditStart
  /-- IMCallCallback with major code XIM_PREEDIT_DONE. -/
  | PreeditDone
  /-- IMCallCallback with major code XIM_PREEDIT_DRAW; `text = none` is a NULL
  multi_byte string. -/
  | PreeditDraw (caret chg_first chg_length : Nat) (text : Option Text) (feedback : List Nat)
  /-- IMPreeditStart (dynamic event flow). -/
  | StateStart
  /-- IMPreeditEnd (dynamic event flow). -/
  | StateEnd
  /-- String conversion callback, operation Retrieval. -/
  | StrConvRetrieval (factor : Nat)
  /-- String conversion callback, operation Substitution. -/
  | StrConvSubstitution (factor : Nat)
  /-- IMCallCallback with major code XIM_STATUS_DRAW. -/
  | StatusDraw (mode : NabiInputMode)
  /-- The call nabi_server_set_mode_info. -/
  | ModeInfo (mode : NabiInputMode)
  /-- The call gdk_window_show on the preedit window. -/
  | WindowShow
  /-- The call gdk_window_hide on the preedit window. -/
  | WindowHide
  /-- The preedit window is redrawn with the two segments. -/
  | WindowDraw (normal hilight : Text)
  /-- The call nabi_candidate_delete. -/
  | CandidateDelete
  deriving DecidableEq, Repr

/-- The fields of `nabi_server` and of `nabi->config` read or written by the
functions below. -/
structure NabiServer where
  input_mode : NabiInputMode
  input_mode_scope : NabiInputModeScope
  commit_by_word : Bool
  dynamic_event_flow : Bool
  show_status : Bool
  use_simplified_chinese : Bool
  candidate_format : String
  deriving DecidableEq, Repr

/-- A connection; `cd = none` is the converter value `(GIConv)-1`. -/
structure NabiConnection where
  id : Nat
  mode : NabiInputMode
  cd : Option Nat
  deriving DecidableEq, Repr

structure NabiToplevel where
  id : Nat
  mode : NabiInputMode
  ref : Int
  deriving DecidableEq, Repr

/-- The preedit attributes used below.  `window = none` is a NULL preedit
window, `some v` a window whose mapped state is `v`; `font_set = false` is a
zero font set. -/
structure Preedit where
  str : UString
  window : Option Bool
  font_set : Bool
  start : Bool
  prev_length : Nat
  deriving DecidableEq, Repr

/-- An input context over an automaton state `H` and a candidate window `C`.
`preedit.str` and `hic` are allocated by `nabi_ic_init_values` and released
only by `nabi_ic_destroy`, so on a live IC neither is NULL. -/
structure NabiIC (H C : Type) where
  id : Nat
  input_style : Nat
  client_window : Nat
  focus_window : Nat
  mode : NabiInputMode
  preedit : Preedit
  hic : H
  candidate : Option C
  client_text : Option UString

/-- Everything the IC functions read or write: the server, the connection and
toplevel the IC points to, the IC, and the trace of events sent so far. -/
structure St (H C : Type) where
  server : NabiServer
  connection : Option NabiConnection
  toplevel : Option NabiToplevel
  ic : NabiIC H C
  out : List Event

/-- Code called by `ic.c` that lives outside it: libhangul (`hangul_*`,
`hanja_*`), the candidate window (`nabi_candidate_*`), server helpers
(`nabi_server_*`), glib (`g_*`).  `g_iconv_ok cd s` says that `g_iconv` did
not return -1 on `s`. -/
structure Deps (H C : Type) where
  jamo : JamoClass
  hangul_ic_process : H → Nat → Bool × H
  hangul_ic_backspace : H → Bool × H
  hangul_ic_reset : H → H
  hangul_ic_flush : H → List Nat × H
  hangul_ic_get_preedit_string : H → List Nat
  hangul_ic_get_commit_string : H → List Nat
  hangul_ic_is_empty : H → Bool
  nabi_server_is_off_key : Nat → Nat → Bool
  nabi_server_is_candidate_key : Nat → Nat → Bool
  nabi_server_normalize_keysym : Nat → Nat → Nat
  nabi_server_is_valid_ic : Nat → Bool
  nabi_traditional_to_simplified : Text → Text
  g_iconv_ok : Nat → Text → Bool
  g_utf8_normalize : Text → Option Text
  symbol_table_match_suffix : Text → Option (List Hanja)
  hanja_table_match_suffix : Text → Option (List Hanja)
  nabi_candidate_new : Text → Nat → List Hanja → List Hanja → Nat → C
  nabi_candidate_prev : C → C
  nabi_candidate_next : C → C
  nabi_candidate_prev_page : C → C
  nabi_candidate_next_page : C → C
  nabi_candidate_get_current : C → Option Hanja
  nabi_candidate_get_nth : C → Nat → Option Hanja

section Operations

variable {H C : Type}

/-- Append one event to the trace. -/
def St.emit (s : St H C) (e : Event) : St H C :=
  { s with out := s.out ++ [e] }

def St.set_hic (s : St H C) (h : H) : St H C :=
  { s with ic := { s.ic with hic := h } }

def St.set_str (s : St H C) (u : UString) : St H C :=
  { s with ic := { s.ic with preedit := { s.ic.preedit with str := u } } }

def St.set_prev_length (s : St H C) (n : Nat) : St H C :=
  { s with ic := { s.ic with preedit := { s.ic.preedit with prev_length := n } } }

def St.set_start (s : St H C) (b : Bool) : St H C :=
  { s with ic := { s.ic with preedit := { s.ic.preedit with start := b } } }

def St.set_window (s : St H C) (w : Option Bool) : St H C :=
  { s with ic := { s.ic with preedit := { s.ic.preedit with window := w } } }

def St.set_candidate (s : St H C) (c : Option C) : St H C :=
  { s with ic := { s.ic with candidate := c } }

def St.set_client_text (s : St H C) (t : Option UString) : St H C :=
  { s with ic := { s.ic with client_text := t } }

/-- Function `nabi_connection_need_check_charset` (ic.c 207-213). -/
def nabi_connection_need_check_charset (conn : Option NabiConnection) : Bool :=
  match conn with
  | none => false
  | some c => c.cd.isSome

/-- Function `nabi_connection_is_valid_str` (ic.c 215-234). -/
def nabi_connection_is_valid_str (D : Deps H C) (conn : Option NabiConnection) (str : Text) : Bool :=
  match conn with
  | none => true
  | some c =>
    match c.cd with
    | none => true
    | some cd => D.g_iconv_ok cd str

/-- Function `nabi_ic_is_empty` (ic.c 426-433); `none` is a NULL ic. -/
def nabi_ic_is_empty (D : Deps H C) (ic : Option (NabiIC H C)) : Bool :=
  match ic with
  | none => true
  | some ic => D.hangul_ic_is_empty ic.hic

/-- Function `nabi_ic_preedit_show` (ic.c 670-684). -/
def nabi_ic_preedit_show (D : Deps H C) (s : St H C) : St H C :=
  match s.ic.preedit.window with
  | none => s
  | some _ =>
    if !nabi_ic_is_empty D (some s.ic) then (s.set_window (some true)).emit Event.WindowShow
    else s

/-- Function `nabi_ic_preedit_hide` (ic.c 687-698). -/
def nabi_ic_preedit_hide (s : St H C) : St H C :=
  match s.ic.preedit.window with
  | none => s
  | some visible =>
    if visible then (s.set_window (some false)).emit Event.WindowHide else s

/-- Function `nabi_ic_preedit_gdk_draw_string` (ic.c 509-560), without the geometry. -/
def nabi_ic_preedit_gdk_draw_string (s : St H C) (normal hilight : Text) : St H C :=
  match s.ic.preedit.window with
  | none => s
  | some _ => s.emit (Event.WindowDraw normal hilight)

/-- Function `nabi_ic_preedit_draw_string` (ic.c 562-641), without the geometry. -/
def nabi_ic_preedit_draw_string (s : St H C) (normal hilight : Text) : St H C :=
  match s.ic.preedit.window with
  | none => s
  | some _ =>
    if s.ic.preedit.font_set = false then s
    else s.emit (Event.WindowDraw normal hilight)

/-- Function `nabi_ic_get_hic_preedit_string` (ic.c 1344-1349). -/
def nabi_ic_get_hic_preedit_string (D : Deps H C) (s : St H C) : Text :=
  D.hangul_ic_get_preedit_string s.ic.hic

/-- Function `nabi_ic_get_preedit_string` (ic.c 1351-1368). -/
def nabi_ic_get_preedit_string (D : Deps H C) (s : St H C) : Text :=
  ustring_append (ustring_append [] s.ic.preedit.str) (D.hangul_ic_get_preedit_string s.ic.hic)

/-- Function `nabi_ic_get_hic_commit_string` (ic.c 1370-1375). -/
def nabi_ic_get_hic_commit_string (D : Deps H C) (s : St H C) : Text :=
  D.hangul_ic_get_commit_string s.ic.hic

/-- Function `nabi_ic_get_flush_string` (ic.c 1377-1394): the string and the state
after `hangul_ic_flush`. -/
def nabi_ic_get_flush_string (D : Deps H C) (s : St H C) : Text × St H C :=
  (ustring_append (ustring_append [] s.ic.preedit.str) (D.hangul_ic_flush s.ic.hic).1,
   s.set_hic (D.hangul_ic_flush s.ic.hic).2)

/-- Function `nabi_ic_preedit_feedback_new` (ic.c 1396-1413): `len + 1` entries. -/
def nabi_ic_preedit_feedback_new (underline_len reverse_len : Nat) : List Nat :=
  List.replicate underline_len XIMUnderline ++ List.replicate reverse_len XIMReverse ++ [0]

/-- Function `nabi_ic_preedit_clear` (ic.c 1483-1520). -/
def nabi_ic_preedit_clear (s : St H C) : St H C :=
  if s.ic.preedit.prev_length = 0 then s
  else
    let s1 :=
      if hasBits s.ic.input_style XIMPreeditCallbacks then
        s.emit (Event.PreeditDraw 0 0 s.ic.preedit.prev_length none [XIMReverse, 0, 0, 0])
      else if hasBits s.ic.input_style XIMPreeditPosition then nabi_ic_preedit_hide s
      else if hasBits s.ic.input_style XIMPreeditArea then nabi_ic_preedit_hide s
      else if hasBits s.ic.input_style XIMPreeditNothing then nabi_ic_preedit_hide s
      else s
    s1.set_prev_length 0

/-- Function `nabi_ic_preedit_update` (ic.c 1415-1481). -/
def nabi_ic_preedit_update (D : Deps H C) (s : St H C) : St H C :=
  let normal : Text := s.ic.preedit.str
  let hilight : Text := nabi_ic_get_hic_preedit_string D s
  let preedit : Text := normal ++ hilight
  let normal_len := normal.length
  let hilight_len := hilight.length
  let preedit_len := normal_len + hilight_len
  if preedit_len ≤ 0 then nabi_ic_preedit_clear s
  else
    let s1 :=
      if hasBits s.ic.input_style XIMPreeditCallbacks then
        s.emit (Event.PreeditDraw preedit_len 0 s.ic.preedit.prev_length (some preedit)
          (nabi_ic_preedit_feedback_new normal_len hilight_len))
      else if hasBits s.ic.input_style XIMPreeditPosition then
        nabi_ic_preedit_draw_string (nabi_ic_preedit_show D s) normal hilight
      else if hasBits s.ic.input_style XIMPreeditArea then
        nabi_ic_preedit_gdk_draw_string (nabi_ic_preedit_show D s) normal hilight
      else if hasBits s.ic.input_style XIMPreeditNothing then
        nabi_ic_preedit_gdk_draw_string (nabi_ic_preedit_show D s) normal hilight
      else s
    s1.set_prev_length preedit_len

/-- Function `nabi_ic_commit_utf8` (ic.c 1522-1555). -/
def nabi_ic_commit_utf8 (s : St H C) (utf8_str : Text) : St H C :=
  let s1 := if hasBits s.ic.input_style XIMPreeditCallbacks then nabi_ic_preedit_clear s else s
  let s2 := s1.emit (Event.Commit utf8_str)
  if !hasBits s2.ic.input_style XIMPreeditCallbacks then nabi_ic_preedit_clear s2 else s2

/-- Function `nabi_ic_flush` (ic.c 1577-1586). -/
def nabi_ic_flush (D : Deps H C) (s : St H C) : St H C :=
  let str := (nabi_ic_get_flush_string D s).1
  let s1 := (nabi_ic_get_flush_string D s).2
  let s2 := if str.length > 0 then nabi_ic_commit_utf8 s1 str else s1
  s2.set_str (ustring_clear s2.ic.preedit.str)

/-- Function `nabi_ic_commit` (ic.c 1557-1575). -/
def nabi_ic_commit (D : Deps H C) (s : St H C) : Bool × St H C :=
  if s.server.commit_by_word then
    let str := D.hangul_ic_get_commit_string s.ic.hic
    let s1 := s.set_str (ustring_append s.ic.preedit.str str)
    let s2 := if D.hangul_ic_is_empty s1.ic.hic then nabi_ic_flush D s1 else s1
    (true, s2)
  else
    let str := nabi_ic_get_hic_commit_string D s
    let s1 := if str.length > 0 then nabi_ic_commit_utf8 s str else s
    (true, s1)

/-- Function `nabi_ic_preedit_window_new` (ic.c 771-823): a window is created,
unmapped, when the IC has a focus or client window. -/
def nabi_ic_preedit_window_new (s : St H C) : St H C :=
  if s.ic.focus_window ≠ 0 then s.set_window (some false)
  else if s.ic.client_window ≠ 0 then s.set_window (some false)
  else s

/-- Function `nabi_ic_preedit_start` (ic.c 1274-1308). -/
def nabi_ic_preedit_start (s : St H C) : St H C :=
  if s.ic.preedit.start then s
  else
    let s1 := if s.server.dynamic_event_flow then s.emit Event.StateStart else s
    let s2 :=
      if hasBits s1.ic.input_style XIMPreeditCallbacks then s1.emit Event.PreeditStart
      else if hasBits s1.ic.input_style XIMPreeditPosition then
        (if s1.ic.preedit.window = none then nabi_ic_preedit_window_new s1 else s1)
      else if hasBits s1.ic.input_style XIMPreeditArea then
        (if s1.ic.preedit.window = none then nabi_ic_preedit_window_new s1 else s1)
      else if hasBits s1.ic.input_style XIMPreeditNothing then
        (if s1.ic.preedit.window = none then nabi_ic_preedit_window_new s1 else s1)
      else s1
    s2.set_start true

/-- Function `nabi_ic_preedit_done` (ic.c 1310-1342). -/
def nabi_ic_preedit_done (s : St H C) : St H C :=
  if !s.ic.preedit.start then s
  else
    let s1 :=
      if hasBits s.ic.input_style XIMPreeditCallbacks then s.emit Event.PreeditDone
      else if hasBits s.ic.input_style XIMPreeditPosition then nabi_ic_preedit_hide s
      else if hasBits s.ic.input_style XIMPreeditArea then nabi_ic_preedit_hide s
      else if hasBits s.ic.input_style XIMPreeditNothing then nabi_ic_preedit_hide s
      else s
    let s2 := if s1.server.dynamic_event_flow then s1.emit Event.StateEnd else s1
    s2.set_start false

/-- Function `nabi_ic_status_update` (ic.c 1650-1691). -/
def nabi_ic_status_update (s : St H C) : St H C :=
  if !s.server.show_status then s
  else if hasBits s.ic.input_style XIMStatusCallbacks then s.emit (Event.StatusDraw s.ic.mode)
  else s

/-- Function `nabi_ic_set_mode` (ic.c 1235-1272). -/
def nabi_ic_set_mode (D : Deps H C) (s : St H C) (mode : NabiInputMode) : St H C :=
  let s1 : St H C :=
    match s.server.input_mode_scope with
    | .PER_DESKTOP => { s with server := { s.server with input_mode := mode } }
    | .PER_APPLICATION =>
      (match s.connection with
       | some c => { s with connection := some { c with mode := mode } }
       | none => s)
    | .PER_TOPLEVEL =>
      (match s.toplevel with
       | some t => { s with toplevel := some { t with mode := mode } }
       | none => s)
    | .PER_IC => s
  let s2 : St H C := { s1 with ic := { s1.ic with mode := mode } }
  let s3 : St H C :=
    match mode with
    | .DIRECT => (nabi_ic_preedit_done (nabi_ic_flush D s2)).emit (Event.ModeInfo .DIRECT)
    | .COMPOSE => (nabi_ic_preedit_start s2).emit (Event.ModeInfo .COMPOSE)
  nabi_ic_status_update s3

/-- Function `nabi_ic_request_client_text` (ic.c 1792-1807). -/
def nabi_ic_request_client_text (s : St H C) : St H C :=
  s.emit (Event.StrConvRetrieval 10)

/-- Function `nabi_ic_delete_client_text` (ic.c 1809-1824). -/
def nabi_ic_delete_client_text (s : St H C) (len : Nat) : St H C :=
  s.emit (Event.StrConvSubstitution len)

/-- First block of the retraction in `nabi_ic_insert_candidate` (ic.c
2024-2029): the state and the remaining `keylen`. -/
def retract_hic (D : Deps H C) (s : St H C) (keylen : Nat) : St H C × Nat :=
  if keylen > 0 then
    if !D.hangul_ic_is_empty s.ic.hic then (s.set_hic (D.hangul_ic_reset s.ic.hic), keylen - 1)
    else (s, keylen)
  else (s, keylen)

/-- The loop over `ic->preedit.str` (ic.c 2035-2043), by recursion on
`keylen`: the buffer, `iter` (an index from `begin`) and `keylen` at exit. -/
def retract_preedit_loop (J : JamoClass) : Nat → UString → Nat → UString × Nat × Nat
  | 0, str, iter => (str, iter, 0)
  | k + 1, str, iter =>
    if ustring_length str > 0 then
      let iter1 := ustr_syllable_iter_prev J str iter 0
      let pos := iter1
      let n := ustring_length str - pos
      retract_preedit_loop J k (ustring_erase str pos n) iter1
    else (str, iter, k + 1)

/-- The loop over `ic->client_text` (ic.c 2051-2054), by recursion on
`keylen`: `iter` and `keylen` at exit. -/
def retract_client_text_loop (J : JamoClass) (buf : UString) : Nat → Nat → Nat × Nat
  | 0, iter => (iter, 0)
  | k + 1, iter =>
    if iter > 0 then retract_client_text_loop J buf k (ustr_syllable_iter_prev J buf iter 0)
    else (iter, k + 1)

/-- The retraction part of `nabi_ic_insert_candidate` (ic.c 2024-2056) for a
key of `keylen` scalars: the state reached and the remaining `keylen`. -/
def nabi_ic_insert_candidate_retract (D : Deps H C) (s : St H C) (keylen : Nat) : St H C × Nat :=
  let s1 := (retract_hic D s keylen).1
  let k1 := (retract_hic D s keylen).2
  let r2 := retract_preedit_loop D.jamo k1 s1.ic.preedit.str (ustring_length s1.ic.preedit.str)
  let s2 := s1.set_str r2.1
  let k2 := r2.2.2
  match s2.ic.client_text with
  | none => (s2, k2)
  | some ct =>
    let r3 := retract_client_text_loop D.jamo ct k2 (ustring_length ct)
    (nabi_ic_delete_client_text s2 (ustring_length ct - r3.1), r3.2)

/-- The text committed by `nabi_ic_insert_candidate` (ic.c 2082-2087). -/
def candidate_text (format : String) (preedit_left modified_value key : Text) : Text :=
  if format = "hanja(hangul)" then preedit_left ++ modified_value ++ [0x28] ++ key ++ [0x29]
  else if format = "hangul(hanja)" then preedit_left ++ key ++ [0x28] ++ modified_value ++ [0x29]
  else preedit_left ++ modified_value

/-- Function `nabi_ic_insert_candidate` (ic.c 1995-2101).  `hanja = none` is a NULL
entry, for which `hanja_get_value` returns NULL. -/
def nabi_ic_insert_candidate (D : Deps H C) (s : St H C) (hanja : Option Hanja) : St H C :=
  if !D.nabi_server_is_valid_ic s.ic.id then s
  else
    match hanja with
    | none => s
    | some h =>
      let value := h.value
      let key := h.key
      let keylen := key.length
      let s3 := (nabi_ic_insert_candidate_retract D s keylen).1
      let s4 :=
        if value.length > 0 then
          let preedit_left : Text :=
            if ustring_length s3.ic.preedit.str > 0 then s3.ic.preedit.str else []
          let modified_value : Text :=
            if s3.server.use_simplified_chinese then
              (if !nabi_connection_is_valid_str D s3.connection (D.nabi_traditional_to_simplified value)
               then value else D.nabi_traditional_to_simplified value)
            else value
          nabi_ic_commit_utf8 s3 (candidate_text s3.server.candidate_format preedit_left modified_value key)
        else s3
      let s5 := s4.set_str (ustring_clear s4.ic.preedit.str)
      let s6 :=
        match s5.ic.client_text with
        | none => s5
        | some ct => s5.set_client_text (some (ustring_clear ct))
      nabi_ic_preedit_update D s6

/-- The `switch (keyval)` of `nabi_ic_candidate_process` (ic.c 1698-1781) on
the candidate window `c = ic->candidate`: `none` is the `default: return
False`, otherwise the state and the value of `hanja` after the switch. -/
def nabi_ic_candidate_switch (D : Deps H C) (s : St H C) (c : C) (keyval : Nat) :
    Option (St H C × Option Hanja) :=
  if keyval = XK_Up ∨ keyval = XK_k then
    some (s.set_candidate (some (D.nabi_candidate_prev c)), none)
  else if keyval = XK_Down ∨ keyval = XK_j then
    some (s.set_candidate (some (D.nabi_candidate_next c)), none)
  else if keyval = XK_Left ∨ keyval = XK_h ∨ keyval = XK_Page_Up ∨ keyval = XK_BackSpace
      ∨ keyval = XK_KP_Subtract then
    some (s.set_candidate (some (D.nabi_candidate_prev_page c)), none)
  else if keyval = XK_Right ∨ keyval = XK_l ∨ keyval = XK_space ∨ keyval = XK_Page_Down
      ∨ keyval = XK_KP_Add ∨ keyval = XK_Tab then
    some (s.set_candidate (some (D.nabi_candidate_next_page c)), none)
  else if keyval = XK_Escape then
    some ((s.emit Event.CandidateDelete).set_candidate none, none)
  else if keyval = XK_Return ∨ keyval = XK_KP_Enter then
    some (s, D.nabi_candidate_get_current c)
  else if XK_1 ≤ keyval ∧ keyval ≤ XK_9 then
    some (s, D.nabi_candidate_get_nth c (keyval - XK_1))
  else if XK_KP_1 ≤ keyval ∧ keyval ≤ XK_KP_9 then
    some (s, D.nabi_candidate_get_nth c (keyval - XK_KP_1))
  else if keyval = XK_KP_End then some (s, D.nabi_candidate_get_nth c 0)
  else if keyval = XK_KP_Down then some (s, D.nabi_candidate_get_nth c 1)
  else if keyval = XK_KP_Next then some (s, D.nabi_candidate_get_nth c 2)
  else if keyval = XK_KP_Left then some (s, D.nabi_candidate_get_nth c 3)
  else if keyval = XK_KP_Begin then some (s, D.nabi_candidate_get_nth c 4)
  else if keyval = XK_KP_Right then some (s, D.nabi_candidate_get_nth c 5)
  else if keyval = XK_KP_Home then some (s, D.nabi_candidate_get_nth c 6)
  else if keyval = XK_KP_Up then some (s, D.nabi_candidate_get_nth c 7)
  else if keyval = XK_KP_Prior then some (s, D.nabi_candidate_get_nth c 8)
  else none

/-- Function `nabi_ic_candidate_process` (ic.c 1693-1790), called with
`c = ic->candidate`. -/
def nabi_ic_candidate_process (D : Deps H C) (s : St H C) (c : C) (keyval : Nat) :
    Bool × St H C :=
  match nabi_ic_candidate_switch D s c keyval with
  | none => (false, s)
  | some (s1, hanja) =>
    match hanja with
    | some h =>
      (true, ((nabi_ic_insert_candidate D s1 (some h)).emit Event.CandidateDelete).set_candidate none)
    | none => (true, s1)

/-- The C locale `isspace` on an ASCII code; false above 0x7f. -/
def c_isspace (c : Nat) : Bool := decide (c = 0x20 ∨ (0x09 ≤ c ∧ c ≤ 0x0d))

/-- The C locale `ispunct` on an ASCII code; false above 0x7f. -/
def c_ispunct (c : Nat) : Bool :=
  decide ((0x21 ≤ c ∧ c ≤ 0x2f) ∨ (0x3a ≤ c ∧ c ≤ 0x40) ∨ (0x5b ≤ c ∧ c ≤ 0x60)
    ∨ (0x7b ≤ c ∧ c ≤ 0x7e))

/-- The libc `strrchr(s, ch)`: the suffix of `s` starting at the last `ch`. -/
def strrchr (s : Text) (ch : Nat) : Option Text :=
  match s with
  | [] => none
  | c :: rest =>
    match strrchr rest ch with
    | some p => some p
    | none => if c = ch then some (c :: rest) else none

/-- Function `nabi_ic_popup_candidate_window` (ic.c 1920-1993).  The deleted candidate
pointer is left in `ic->candidate`, as in the source. -/
def nabi_ic_popup_candidate_window (D : Deps H C) (s : St H C) (key : Text) : Bool × St H C :=
  let parent : Nat :=
    if s.ic.focus_window ≠ 0 then s.ic.focus_window
    else if s.ic.client_window ≠ 0 then s.ic.client_window
    else 0
  let s1 := if s.ic.candidate.isSome then s.emit Event.CandidateDelete else s
  let key1 : Text := match strrchr key 0x20 with
    | some p => p
    | none => key
  let key2 : Text := key1.dropWhile (fun c => c_isspace c || c_ispunct c)
  if key2 = [] then (true, s1)
  else
    match D.g_utf8_normalize key2 with
    | none => (true, s1)
    | some normalized =>
      let list : Option (List Hanja) :=
        match D.symbol_table_match_suffix normalized with
        | some l => some l
        | none => D.hanja_table_match_suffix normalized
      match list with
      | none => (true, s1)
      | some l =>
        let valid_list : List Hanja :=
          if nabi_connection_need_check_charset s1.connection then
            l.filter (fun hanja => nabi_connection_is_valid_str D s1.connection hanja.value)
          else l
        if valid_list.length > 0 then
          (true, s1.set_candidate (some (D.nabi_candidate_new key2 9 l valid_list parent)))
        else (true, s1)

/-- Function `nabi_ic_process_keyevent` (ic.c 1826-1903). -/
def nabi_ic_process_keyevent (D : Deps H C) (s : St H C) (keysym : Nat) (state : Nat) :
    Bool × St H C :=
  match s.ic.candidate with
  | some c => nabi_ic_candidate_process D s c keysym
  | none =>
    if keysym = XK_Shift_L ∨ keysym = XK_Shift_R then (false, s)
    else if D.nabi_server_is_off_key keysym state then
      (false, nabi_ic_set_mode D s .DIRECT)
    else if D.nabi_server_is_candidate_key keysym state then
      nabi_ic_popup_candidate_window D (nabi_ic_request_client_text s)
        (nabi_ic_get_preedit_string D (nabi_ic_request_client_text s))
    else if hasBits state (ControlMask ||| Mod1Mask ||| Mod3Mask ||| Mod4Mask ||| Mod5Mask) then
      (false, if !nabi_ic_is_empty D (some s.ic) then nabi_ic_flush D s else s)
    else if keysym = XK_BackSpace then
      let ret := (D.hangul_ic_backspace s.ic.hic).1
      let s1 := s.set_hic (D.hangul_ic_backspace s.ic.hic).2
      if ret then (ret, nabi_ic_preedit_update D s1)
      else
        let len := ustring_length s1.ic.preedit.str
        if len > 0 then
          (true, nabi_ic_preedit_update D (s1.set_str (ustring_erase s1.ic.preedit.str (len - 1) 1)))
        else (ret, s1)
    else
      let keysym1 := D.nabi_server_normalize_keysym keysym state
      if keysym1 ≥ XK_exclam ∧ keysym1 ≤ XK_asciitilde then
        let ret := (D.hangul_ic_process s.ic.hic keysym1).1
        let s1 := s.set_hic (D.hangul_ic_process s.ic.hic keysym1).2
        let s2 := (nabi_ic_commit D s1).2
        (ret, nabi_ic_preedit_update D s2)
      else (false, nabi_ic_flush D s)

end Operations

/-! ## Vocabulary of the specification -/

section Vocabulary

variable {H C : Type}

/-- The contract of the automaton as §4.1 of the specification words it:
`flush()` returns the preedit as commit and leaves the automaton empty,
`reset()` drops the preedit, and the automaton is empty exactly when its
preedit string is.  libhangul is an external library, so the theorems that
depend on its behaviour take this contract as a hypothesis. -/
structure HicContract (D : Deps H C) : Prop where
  flush_preedit : ∀ h, (D.hangul_ic_flush h).1 = D.hangul_ic_get_preedit_string h
  flush_empty : ∀ h, D.hangul_ic_is_empty (D.hangul_ic_flush h).2 = true
  reset_empty : ∀ h, D.hangul_ic_is_empty (D.hangul_ic_reset h) = true
  empty_iff : ∀ h, D.hangul_ic_is_empty h = true ↔ D.hangul_ic_get_preedit_string h = []

/-- The text of a Commit event. -/
def Event.commit_text : Event → Option Text
  | Event.Commit t => some t
  | _ => none

/-- The `chg_length` of a PreeditDraw event. -/
def Event.chg_length : Event → Option Nat
  | Event.PreeditDraw _ _ n _ _ => some n
  | _ => none

/-- The length given to a Substitution string conversion. -/
def Event.substitution_length : Event → Option Nat
  | Event.StrConvSubstitution n => some n
  | _ => none

/-- The texts of the Commit events of a trace, in order. -/
def commit_texts (es : List Event) : List Text := es.filterMap Event.commit_text

/-- The `chg_length` fields of the PreeditDraw events of a trace, in order. -/
def preedit_draw_chg_lengths (es : List Event) : List Nat := es.filterMap Event.chg_length

/-- The lengths given to the Substitution string conversions of a trace. -/
def substitution_lengths (es : List Event) : List Nat :=
  es.filterMap Event.substitution_length

/-- The step from `s` to `s1` only touches the display: the preedit window,
`prev_length` and the trace, to which it adds neither a Commit nor a
Substitution. -/
structure DisplayStep (s s1 : St H C) : Prop where
  hic : s1.ic.hic = s.ic.hic
  str : s1.ic.preedit.str = s.ic.preedit.str
  input_style : s1.ic.input_style = s.ic.input_style
  candidate : s1.ic.candidate = s.ic.candidate
  client_text : s1.ic.client_text = s.ic.client_text
  id : s1.ic.id = s.ic.id
  server : s1.server = s.server
  connection : s1.connection = s.connection
  commits : commit_texts s1.out = commit_texts s.out
  substitutions : substitution_lengths s1.out = substitution_lengths s.out
  out : ∃ evs, s1.out = s.out ++ evs

/-- The navigation keymap of §4.6, every row but "other". -/
def is_navigation_key (k : Nat) : Bool :=
  decide (k = XK_Up ∨ k = XK_k ∨ k = XK_Down ∨ k = XK_j
    ∨ k = XK_Left ∨ k = XK_h ∨ k = XK_Page_Up ∨ k = XK_BackSpace ∨ k = XK_KP_Subtract
    ∨ k = XK_Right ∨ k = XK_l ∨ k = XK_space ∨ k = XK_Page_Down ∨ k = XK_KP_Add ∨ k = XK_Tab
    ∨ k = XK_Escape ∨ k = XK_Return ∨ k = XK_KP_Enter
    ∨ (XK_1 ≤ k ∧ k ≤ XK_9) ∨ (XK_KP_1 ≤ k ∧ k ≤ XK_KP_9)
    ∨ k = XK_KP_End ∨ k = XK_KP_Down ∨ k = XK_KP_Next ∨ k = XK_KP_Left ∨ k = XK_KP_Begin
    ∨ k = XK_KP_Right ∨ k = XK_KP_Home ∨ k = XK_KP_Up ∨ k = XK_KP_Prior)

/-- A syllable of a well-formed jamo sequence: choseong+ jungseong+
jongseong*. -/
def WellFormedSyllable (J : JamoClass) (s : List Nat) : Prop :=
  ∃ ls vs ts, s = ls ++ vs ++ ts ∧ ls ≠ [] ∧ vs ≠ []
    ∧ (∀ c ∈ ls, J.hangul_is_choseong c = true)
    ∧ (∀ c ∈ vs, J.hangul_is_jungseong c = true)
    ∧ (∀ c ∈ ts, J.hangul_is_jongseong c = true)

/-- The offsets at which the syllables of a sequence start. -/
def syllable_starts : List (List Nat) → List Nat
  | [] => []
  | s :: rest => 0 :: (syllable_starts rest).map (fun p => s.length + p)

/-- The positions returned by calling `ustr_syllable_iter_prev` again and
again, from `iter` until `begin = 0` is reached; `fuel ≥ iter` calls are
enough because every call moves the iterator. -/
def syllable_iter_positions (J : JamoClass) (buf : List Nat) : Nat → Nat → List Nat
  | 0, _ => []
  | fuel + 1, iter =>
    if iter > 0 then
      ustr_syllable_iter_prev J buf iter 0
        :: syllable_iter_positions J buf fuel (ustr_syllable_iter_prev J buf iter 0)
    else []

/-- The segments of `buf` between consecutive iterator positions, in buffer
order: `hi` is where the iteration started and the list holds the positions
reached, last first. -/
def iter_segments (buf : List Nat) : Nat → List Nat → List (List Nat)
  | _, [] => []
  | hi, p :: ps => iter_segments buf p ps ++ [(buf.drop p).take (hi - p)]

/-- Dispatch a list of key presses `(keysym, state)` in order: the values
returned by `nabi_ic_process_keyevent` and the final state. -/
def dispatch_keys (D : Deps H C) : St H C → List (Nat × Nat) → List Bool × St H C
  | s, [] => ([], s)
  | s, (keysym, state) :: rest =>
    ((nabi_ic_process_keyevent D s keysym state).1
        :: (dispatch_keys D (nabi_ic_process_keyevent D s keysym state).2 rest).1,
      (dispatch_keys D (nabi_ic_process_keyevent D s keysym state).2 rest).2)

end Vocabulary

/-! ## A small concrete instance -/

/-- A toy automaton: every key starts a new one-scalar syllable and commits
the one composed before. -/
structure ToyHic where
  preedit : List Nat
  commit : List Nat
  deriving DecidableEq, Repr

def toyDeps : Deps ToyHic (List Hanja) where
  jamo := unicodeJamo
  hangul_ic_process h k := (true, ⟨[k], h.preedit⟩)
  hangul_ic_backspace h :=
    if h.preedit = [] then (false, ⟨[], []⟩) else (true, ⟨h.preedit.dropLast, []⟩)
  hangul_ic_reset _ := ⟨[], []⟩
  hangul_ic_flush h := (h.preedit, ⟨[], []⟩)
  hangul_ic_get_preedit_string h := h.preedit
  hangul_ic_get_commit_string h := h.commit
  hangul_ic_is_empty h := h.preedit.isEmpty
  nabi_server_is_off_key k _ := k == XK_Escape
  nabi_server_is_candidate_key k _ := k == 0xffc6
  nabi_server_normalize_keysym k _ := k
  nabi_server_is_valid_ic _ := true
  nabi_traditional_to_simplified t := t
  g_iconv_ok _ _ := true
  g_utf8_normalize t := some t
  symbol_table_match_suffix _ := none
  hanja_table_match_suffix t := if t = [0xac00] then some [⟨[0xac00], [0x5bb6]⟩] else none
  nabi_candidate_new _ _ _ valid _ := valid
  nabi_candidate_prev c := c
  nabi_candidate_next c := c
  nabi_candidate_prev_page c := c
  nabi_candidate_next_page c := c
  nabi_candidate_get_current c := c.head?
  nabi_candidate_get_nth c n := c.get? n

/-- A Callbacks style IC in Compose mode holding the given automaton state,
preedit buffer, candidate window and client text; word commit is on and the
candidate format is the given one. -/
def toySt (hic : ToyHic) (buf : UString) (cand : Option (List Hanja))
    (client_text : Option UString) (format : String) : St ToyHic (List Hanja) where
  server :=
    { input_mode := .COMPOSE, input_mode_scope := .PER_IC, commit_by_word := true,
      dynamic_event_flow := false, show_status := false, use_simplified_chinese := false,
      candidate_format := format }
  connection := some { id := 1, mode := .COMPOSE, cd := none }
  toplevel := none
  ic :=
    { id := 1, input_style := XIMPreeditCallbacks, client_window := 0, focus_window := 0,
      mode := .COMPOSE,
      preedit := { str := buf, window := none, font_set := false, start := true, prev_length := 0 },
      hic := hic, candidate := cand, client_text := client_text }
  out := []

/-! ## Reset, focus, transition callback and the multi-IC world -/

section Operations2

variable {H C : Type}

/-- The two fields of `IMResetICStruct` written by `nabi_ic_reset`;
`commit_string = none` is a NULL pointer. -/
structure IMResetICStruct where
  commit_string : Option (List Nat)
  length : Nat
  deriving DecidableEq, Repr

/-- Function `nabi_ic_reset` (ic.c 1183-1207).  `compound_text` is
`utf8_to_compound_text` (ic.c 1165-1181), the Xlib conversion of the text to
the bytes of a Compound Text; `strlen` of it is its length.  The result is the
reply and the state. -/
def nabi_ic_reset (D : Deps H C) (compound_text : Text → List Nat) (s : St H C) :
    IMResetICStruct × St H C :=
  let preedit := (nabi_ic_get_flush_string D s).1
  let s1 := (nabi_ic_get_flush_string D s).2
  let data : IMResetICStruct :=
    if preedit.length > 0 then
      { commit_string := some (compound_text preedit), length := (compound_text preedit).length }
    else { commit_string := none, length := 0 }
  let s2 := (s1.set_str (ustring_clear s1.ic.preedit.str)).set_prev_length 0
  let s3 :=
    if hasBits s2.ic.input_style XIMPreeditPosition then nabi_ic_preedit_hide s2
    else if hasBits s2.ic.input_style XIMPreeditArea then nabi_ic_preedit_hide s2
    else if hasBits s2.ic.input_style XIMPreeditNothing then nabi_ic_preedit_hide s2
    else s2
  (data, s3)

/-- The values of `nabi_server->output_mode`. -/
inductive NabiOutputMode where
  | SYLLABLE
  | JAMO
  deriving DecidableEq, Repr

/-- What `nabi_ic_set_hangul_keyboard` uses and `Deps` does not hold: two
libhangul calls and the server fields `hangul_keyboard` and `output_mode`. -/
structure KeyboardDeps (H : Type) where
  hangul_ic_select_keyboard : H → String → H
  hangul_ic_set_output_mode : H → NabiOutputMode → H
  hangul_keyboard : String
  output_mode : NabiOutputMode

/-- Function `nabi_ic_set_hangul_keyboard` (ic.c 435-448). -/
def nabi_ic_set_hangul_keyboard (K : KeyboardDeps H) (s : St H C) (hangul_keyboard : String) :
    St H C :=
  let h1 := K.hangul_ic_select_keyboard s.ic.hic hangul_keyboard
  if K.output_mode = NabiOutputMode.JAMO then
    s.set_hic (K.hangul_ic_set_output_mode h1 NabiOutputMode.JAMO)
  else s.set_hic (K.hangul_ic_set_output_mode h1 NabiOutputMode.SYLLABLE)

/-- Function `nabi_ic_set_focus` (ic.c 1209-1233). -/
def nabi_ic_set_focus (D : Deps H C) (K : KeyboardDeps H) (s : St H C) : St H C :=
  let mode : NabiInputMode :=
    match s.server.input_mode_scope with
    | .PER_DESKTOP => s.server.input_mode
    | .PER_APPLICATION =>
      (match s.connection with
       | some c => c.mode
       | none => s.ic.mode)
    | .PER_TOPLEVEL =>
      (match s.toplevel with
       | some t => t.mode
       | none => s.ic.mode)
    | .PER_IC => s.ic.mode
  nabi_ic_set_hangul_keyboard K (nabi_ic_set_mode D s mode) K.hangul_keyboard

/-- What `nabi_ic_hic_on_transition` uses and `Deps` does not hold: the server
flag `auto_reorder` and two libhangul queries. -/
structure TransitionDeps (H : Type) where
  auto_reorder : Bool
  hangul_ic_has_jungseong : H → Bool
  hangul_ic_has_jongseong : H → Bool

/-- The tail of `nabi_ic_hic_on_transition` (ic.c 478-485): the charset check
of the preedit; `data = none` is a NULL `data` pointer. -/
def transition_charset_check (D : Deps H C) (preedit : Text) (data : Option (St H C)) : Bool :=
  match data with
  | none => true
  | some s => nabi_connection_is_valid_str D s.connection preedit

/-- Function `nabi_ic_hic_on_transition` (ic.c 457-486) for the jamo `c`, the
automaton `hic`, the preedit after the transition and `data`, the IC the
callback was connected with. -/
def nabi_ic_hic_on_transition (D : Deps H C) (T : TransitionDeps H) (hic : H) (c : Nat)
    (preedit : Text) (data : Option (St H C)) : Bool :=
  if !T.auto_reorder then
    if D.jamo.hangul_is_choseong c
        ∧ (T.hangul_ic_has_jungseong hic ∨ T.hangul_ic_has_jongseong hic) then false
    else if D.jamo.hangul_is_jungseong c ∧ T.hangul_ic_has_jongseong hic then false
    else transition_charset_check D preedit data
  else transition_charset_check D preedit data

/-- An IC together with its two pointers: `connection` and `toplevel` are the
handles of the objects `ic->connection` and `ic->toplevel` point to, `none`
for NULL. -/
structure ICRef (H C : Type) where
  ic : NabiIC H C
  connection : Option Nat
  toplevel : Option Nat

/-- The objects shared by the ICs of a server: the server itself, the
connections and the toplevels by handle, and the trace. -/
structure World where
  server : NabiServer
  connections : Nat → NabiConnection
  toplevels : Nat → NabiToplevel
  out : List Event

/-- What an IC function sees when it runs on the IC `r` in the world `w`. -/
def World.view (w : World) (r : ICRef H C) : St H C where
  server := w.server
  connection := r.connection.map w.connections
  toplevel := r.toplevel.map w.toplevels
  ic := r.ic
  out := w.out

/-- Write the state `s`, reached by an IC function run on `r`, back to the
world: the objects behind the pointers of `r` take their new values. -/
def World.store (w : World) (r : ICRef H C) (s : St H C) : World × ICRef H C :=
  ({ server := s.server
     connections :=
       match r.connection, s.connection with
       | some c, some obj => Function.update w.connections c obj
       | _, _ => w.connections
     toplevels :=
       match r.toplevel, s.toplevel with
       | some t, some obj => Function.update w.toplevels t obj
       | _, _ => w.toplevels
     out := s.out },
   { r with ic := s.ic })

/-- Run an IC function on the IC `r` of the world `w`. -/
def World.run (f : St H C → St H C) (w : World) (r : ICRef H C) : World × ICRef H C :=
  w.store r (f (w.view r))

end Operations2

section Vocabulary2

variable {H C : Type}

/-- A key press `(keysym, state)` that the dispatcher feeds to
`hangul_ic_process`: a printable keysym, printable after normalisation, with
none of Ctrl/Alt/Mod3/Mod4/Mod5 held, that is neither off-key nor candidate
key. -/
def printable_key (D : Deps H C) (key : Nat × Nat) : Bool :=
  decide (XK_exclam ≤ key.1) && decide (key.1 ≤ XK_asciitilde)
    && decide (XK_exclam ≤ D.nabi_server_normalize_keysym key.1 key.2)
    && decide (D.nabi_server_normalize_keysym key.1 key.2 ≤ XK_asciitilde)
    && !D.nabi_server_is_off_key key.1 key.2
    && !D.nabi_server_is_candidate_key key.1 key.2
    && !hasBits key.2 (ControlMask ||| Mod1Mask ||| Mod3Mask ||| Mod4Mask ||| Mod5Mask)

/-- The hic commit strings produced by the `hangul_ic_process` calls made while
the key presses are dispatched in order. -/
def process_commit_strings (D : Deps H C) : St H C → List (Nat × Nat) → List Text
  | _, [] => []
  | s, (keysym, state) :: rest =>
    D.hangul_ic_get_commit_string
        (D.hangul_ic_process s.ic.hic (D.nabi_server_normalize_keysym keysym state)).2
      :: process_commit_strings D (nabi_ic_process_keyevent D s keysym state).2 rest

/-- The assumption of backspace ordering, for a count of the jamo held by the
automaton: the automaton is empty exactly when the count is zero, a backspace
on a non-empty automaton succeeds and removes one jamo, and a backspace on an
empty automaton is rejected and leaves it empty. -/
structure BackspaceContract (D : Deps H C) (jamo_count : H → Nat) : Prop where
  empty_iff : ∀ h, D.hangul_ic_is_empty h = true ↔ jamo_count h = 0
  removes_one : ∀ h, 0 < jamo_count h →
    (D.hangul_ic_backspace h).1 = true ∧ jamo_count (D.hangul_ic_backspace h).2 + 1 = jamo_count h
  rejects_empty : ∀ h, jamo_count h = 0 →
    (D.hangul_ic_backspace h).1 = false ∧ jamo_count (D.hangul_ic_backspace h).2 = 0

/-- The preedit lifecycle callback carried by an event: `true` for
PreeditStart, `false` for PreeditDone. -/
def Event.lifecycle : Event → Option Bool
  | Event.PreeditStart => some true
  | Event.PreeditDone => some false
  | _ => none

/-- The PreeditStart (`true`) and PreeditDone (`false`) callbacks of a trace,
in order. -/
def lifecycle_events (es : List Event) : List Bool := es.filterMap Event.lifecycle

/-- The list alternates, starting with `b`. -/
def alternates : Bool → List Bool → Bool
  | _, [] => true
  | b, x :: xs => (x == b) && alternates (!b) xs

/-- The calls of the preedit lifecycle. -/
inductive PreeditCall where
  | set_mode (mode : NabiInputMode)
  | preedit_start
  | preedit_done
  deriving DecidableEq, Repr

/-- Make one lifecycle call. -/
def PreeditCall.run (D : Deps H C) (s : St H C) : PreeditCall → St H C
  | PreeditCall.set_mode mode => nabi_ic_set_mode D s mode
  | PreeditCall.preedit_start => nabi_ic_preedit_start s
  | PreeditCall.preedit_done => nabi_ic_preedit_done s

/-- Make a sequence of lifecycle calls, in order. -/
def run_preedit_calls (D : Deps H C) : St H C → List PreeditCall → St H C
  | s, [] => s
  | s, call :: rest => run_preedit_calls D (call.run D s) rest

end Vocabulary2

/-! ## More of the small concrete instance -/

/-- The number of jamo of the toy automaton: the scalars it is composing. -/
def toy_jamo_count (h : ToyHic) : Nat := h.preedit.length

/-- A keyboard for the toy automaton: selecting a keyboard or an output mode
does not touch the composition. -/
def toyKeyboard : KeyboardDeps ToyHic where
  hangul_ic_select_keyboard h _ := h
  hangul_ic_set_output_mode h _ := h
  hangul_keyboard := "2"
  output_mode := NabiOutputMode.SYLLABLE

/-- The toy automaton holds a vowel when it composes U+1161 and a final when
it composes U+11A8; the server does not reorder. -/
def toyTransition : TransitionDeps ToyHic where
  auto_reorder := false
  hangul_ic_has_jungseong h := decide (0x1161 ∈ h.preedit)
  hangul_ic_has_jongseong h := decide (0x11a8 ∈ h.preedit)

/-- A world with two connections and two toplevels, all in Direct mode, and
the given scope. -/
def toyWorld (scope : NabiInputModeScope) : World where
  server :=
    { input_mode := .DIRECT, input_mode_scope := scope, commit_by_word := true,
      dynamic_event_flow := false, show_status := false, use_simplified_chinese := false,
      candidate_format := "hanja" }
  connections id := { id := id, mode := .DIRECT, cd := none }
  toplevels id := { id := id, mode := .DIRECT, ref := 1 }
  out := []

/-- An IC of the toy world in Direct mode with the given pointers. -/
def toyRef (id : Nat) (connection toplevel : Option Nat) : ICRef ToyHic (List Hanja) where
  ic :=
    { id := id, input_style := XIMPreeditCallbacks, client_window := 0, focus_window := 0,
      mode := .DIRECT,
      preedit := { str := [], window := none, font_set := false, start := false, prev_length := 0 },
      hic := ⟨[], []⟩, candidate := none, client_text := none }
  connection := connection
  toplevel := toplevel

section Frames

variable {H C : Type}

/-- The step from `s` to `s1` touches neither the modes nor the shared
objects: server, connection, toplevel, `ic.mode` and the input style are the
same. -/
structure ModeStep (s s1 : St H C) : Prop where
  server : s1.server = s.server
  connection : s1.connection = s.connection
  toplevel : s1.toplevel = s.toplevel
  mode : s1.ic.mode = s.ic.mode
  input_style : s1.ic.input_style = s.ic.input_style

/-- The step from `s` to `s1` appends events whose Commit texts are `commits`
and whose PreeditStart/PreeditDone callbacks are `lifecycle`. -/
def TraceStep (s s1 : St H C) (commits : List Text) (lifecycle : List Bool) : Prop :=
  ∃ evs, s1.out = s.out ++ evs ∧ commit_texts evs = commits ∧ lifecycle_events evs = lifecycle

/-- The first half of `nabi_ic_set_mode` (ic.c 1238-1255): the mode is written
to the scope source and to the IC. -/
def set_mode_write (s : St H C) (mode : NabiInputMode) : St H C :=
  let s1 : St H C :=
    match s.server.input_mode_scope with
    | .PER_DESKTOP => { s with server := { s.server with input_mode := mode } }
    | .PER_APPLICATION =>
      (match s.connection with
       | some c => { s with connection := some { c with mode := mode } }
       | none => s)
    | .PER_TOPLEVEL =>
      (match s.toplevel with
       | some t => { s with toplevel := some { t with mode := mode } }
       | none => s)
    | .PER_IC => s
  { s1 with ic := { s1.ic with mode := mode } }

end Frames

/-! ## Connections, the lookup key, colours and the instrumented iterator -/

section Operations3

variable {H C : Type}

/-- The glib `g_ascii_tolower` on a byte. -/
def g_ascii_tolower (c : Nat) : Nat := if 0x41 ≤ c ∧ c ≤ 0x5a then c + 0x20 else c

/-- Function `strniequal` (ic.c 106-110): `g_ascii_strncasecmp(a, b, n) == 0`.
The strings are the bytes before the NUL, so the first `n` bytes of both are
compared up to ASCII case, and a string that ends earlier differs. -/
def strniequal (a b : Text) (n : Nat) : Bool :=
  decide ((a.take n).map g_ascii_tolower = (b.take n).map g_ascii_tolower)

/-- The libc `strchr(s, ch)`: the part of `s` starting at the first `ch`. -/
def strchr (s : Text) (ch : Nat) : Option Text :=
  match s with
  | [] => none
  | c :: rest => if c = ch then some (c :: rest) else strchr rest ch

/-- The string literal "UTF-8". -/
def str_UTF_8 : Text := [0x55, 0x54, 0x46, 0x2d, 0x38]

/-- The string literal "UTF8". -/
def str_UTF8 : Text := [0x55, 0x54, 0x46, 0x38]

/-- A connection with the two fields the IC functions do not touch: the
counter `next_new_ic_id`, a CARD16, and `ic_list`, most recent IC first. -/
structure NabiConnectionObj (H C : Type) extends NabiConnection where
  next_new_ic_id : Nat
  ic_list : List (ICRef H C)

/-- Function `nabi_connection_create` (ic.c 113-140).  `g_iconv_open encoding`
is `g_iconv_open(encoding, "UTF-8")`, `none` for `(GIConv)-1`;
`default_input_mode` is the server field; `locale = none` is a NULL locale. -/
def nabi_connection_create (g_iconv_open : Text → Option Nat)
    (default_input_mode : NabiInputMode) (id : Nat) (locale : Option Text) :
    NabiConnectionObj H C :=
  let cd : Option Nat :=
    match locale with
    | none => none
    | some l =>
      match strchr l 0x2e with
      | none => none
      | some p =>
        let encoding := p.drop 1
        if !strniequal encoding str_UTF_8 5 || !strniequal encoding str_UTF8 4 then
          g_iconv_open encoding
        else none
  { id := id, mode := default_input_mode, cd := cd, next_new_ic_id := 1, ic_list := [] }

/-- The key that `nabi_ic_popup_candidate_window` looks up (ic.c 1937-1942):
`key` is moved to the last space when there is one, then past every leading
space or punctuation character. -/
def popup_lookup_key (key : Text) : Text :=
  let key1 : Text := match strrchr key 0x20 with
    | some p => p
    | none => key
  key1.dropWhile (fun c => c_isspace c || c_ispunct c)

/-- Function `nabi_ic_process_string_conversion_reply` (ic.c 2103-2125);
`text = none` is a NULL text.  The UTF-8 text is appended to the cleared
client text as scalars. -/
def nabi_ic_process_string_conversion_reply (D : Deps H C) (s : St H C) (text : Option Text) :
    St H C :=
  match text with
  | none => s
  | some t =>
    let s1 := match s.ic.client_text with
      | none => s.set_client_text (some [])
      | some _ => s
    let s2 := s1.set_client_text (some (ustring_append (ustring_clear (s1.ic.client_text.getD [])) t))
    let preedit := nabi_ic_get_preedit_string D s2
    let key := t ++ preedit
    (nabi_ic_popup_candidate_window D s2 key).2

/-- The GdkColor fields. -/
structure GdkColor where
  pixel : Nat
  red : Nat
  green : Nat
  blue : Nat
  deriving DecidableEq, Repr

/-- The gdk calls of `load_colors` over a colormap state `M`.
`gdk_color_parse spec color` is the colour after the call (the old one when
the text does not parse); `gdk_colormap_alloc_color` returns whether the
allocation succeeded, the colour with its pixel, and the colormap. -/
structure ColorDeps (M : Type) where
  gdk_color_parse : String → GdkColor → GdkColor
  gdk_colormap_alloc_color : M → GdkColor → Bool × GdkColor × M

/-- The two fields of `server` that `load_colors` writes. -/
structure ServerColors where
  preedit_fg : Nat
  preedit_bg : Nat
  deriving DecidableEq, Repr

/-- A line that `load_colors` prints on stderr. -/
inductive ColorMessage where
  | CantAllocate (color : String)
  | UseDefault (color : String)
  deriving DecidableEq, Repr

/-- Function `load_colors` (ui.c 473-515).  `nabi_preedit_fg` and
`nabi_preedit_bg` are the configured colour names, `color` is the local
variable as it is on entry, not initialised.  The result is the server fields,
the colormap and the lines printed. -/
def load_colors {M : Type} (G : ColorDeps M) (nabi_preedit_fg nabi_preedit_bg : String)
    (colormap : M) (color : GdkColor) (server : ServerColors) :
    ServerColors × M × List ColorMessage :=
  -- preedit foreground
  let c1 := G.gdk_color_parse nabi_preedit_fg color
  let a1 := G.gdk_colormap_alloc_color colormap c1
  let fg : ServerColors × GdkColor × M × List ColorMessage :=
    if a1.1 then ({ server with preedit_fg := a1.2.1.pixel }, a1.2.1, a1.2.2, [])
    else
      let white : GdkColor := { pixel := 1, red := 0xffff, green := 0xffff, blue := 0xffff }
      let a2 := G.gdk_colormap_alloc_color a1.2.2 white
      ({ server with preedit_fg := a2.2.1.pixel }, a2.2.1, a2.2.2,
        [ColorMessage.CantAllocate nabi_preedit_fg, ColorMessage.UseDefault "#FFFFFF"])
  -- preedit background
  let c2 := G.gdk_color_parse nabi_preedit_bg fg.2.1
  let a3 := G.gdk_colormap_alloc_color fg.2.2.1 c2
  if a3.1 then ({ fg.1 with preedit_bg := a3.2.1.pixel }, a3.2.2, fg.2.2.2)
  else
    let black : GdkColor := { pixel := 0, red := 0, green := 0, blue := 0 }
    let a4 := G.gdk_colormap_alloc_color a3.2.2 black
    ({ fg.1 with preedit_fg := a4.2.1.pixel }, a4.2.2,
      fg.2.2.2 ++ [ColorMessage.CantAllocate nabi_preedit_fg, ColorMessage.UseDefault "#000000"])

/-- The loop of `ustr_syllable_iter_prev` (ic.c 79-85) together with the
indices it reads, in order: `*(iter - 1)` and `*iter` in every round. -/
def ustr_syllable_iter_prev_loop_reads (J : JamoClass) (buf : List Nat) (begin : Nat) :
    Nat → Nat × List Nat
  | 0 => (0, [])
  | i + 1 =>
    if i + 1 > begin then
      if is_syllable_boundary J (buf.getD i 0) (buf.getD (i + 1) 0) then (i + 1, [i, i + 1])
      else
        ((ustr_syllable_iter_prev_loop_reads J buf begin i).1,
          i :: (i + 1) :: (ustr_syllable_iter_prev_loop_reads J buf begin i).2)
    else (i + 1, [])

/-- Function `ustr_syllable_iter_prev` (ic.c 73-87) together with the indices
it reads. -/
def ustr_syllable_iter_prev_reads (J : JamoClass) (buf : List Nat) (iter begin : Nat) :
    Nat × List Nat :=
  ustr_syllable_iter_prev_loop_reads J buf begin (if iter > begin then iter - 1 else iter)

end Operations3

section Vocabulary3

variable {H C : Type}

/-- The substring after the last space of the key, the whole key when it has
no space. -/
def after_last_space (key : Text) : Text :=
  (key.reverse.takeWhile (fun c => c != 0x20)).reverse

/-- The lookup key as the specification words it: the substring after the last
space, without its leading whitespace and punctuation. -/
def lookup_key_spec (key : Text) : Text :=
  (after_last_space key).dropWhile (fun c => c_isspace c || c_ispunct c)

/-- The candidate lookup as the specification words it, for an assembled key:
the key is trimmed to the lookup key; it is normalised; the symbol table is
queried first and, with no hits, the hanja table; the results are filtered by
the connection charset if applicable; if any remain they make a candidate
window of 9 to a page, over the focus window or else the client window.  The
result is the window to show, or nothing when the trimmed key is empty, the
normalisation fails, no table has a hit or no hit remains. -/
def candidate_lookup_spec (D : Deps H C) (s : St H C) (key : Text) : Option C :=
  if lookup_key_spec key = [] then none
  else
    match D.g_utf8_normalize (lookup_key_spec key) with
    | none => none
    | some normalized =>
      match (D.symbol_table_match_suffix normalized).orElse
          (fun _ => D.hanja_table_match_suffix normalized) with
      | none => none
      | some hits =>
        let remaining :=
          if nabi_connection_need_check_charset s.connection then
            hits.filter (fun hanja => nabi_connection_is_valid_str D s.connection hanja.value)
          else hits
        if remaining = [] then none
        else
          some (D.nabi_candidate_new (lookup_key_spec key) 9 hits remaining
            (if s.ic.focus_window ≠ 0 then s.ic.focus_window else s.ic.client_window))

/-- A syllable starts at index `i` of the buffer: `i` is the first index, or
there is a syllable boundary between the scalars at `i - 1` and `i`. -/
def is_syllable_start (J : JamoClass) (buf : List Nat) (i : Nat) : Bool :=
  i == 0 || is_syllable_boundary J (buf.getD (i - 1) 0) (buf.getD i 0)

/-- The number of syllables, as delimited by `is_syllable_boundary`, that start
before index `p` of the buffer. -/
def syllables_before (J : JamoClass) (buf : List Nat) (p : Nat) : Nat :=
  ((List.range p).filter (is_syllable_start J buf)).length

end Vocabulary3

/-! ## More of the small concrete instance: connections and colours -/

/-- The locale "ko_KR.UTF-8". -/
def locale_ko_KR_UTF_8 : Text :=
  [0x6b, 0x6f, 0x5f, 0x4b, 0x52, 0x2e, 0x55, 0x54, 0x46, 0x2d, 0x38]

/-- The locale "ko_KR.eucKR". -/
def locale_ko_KR_eucKR : Text :=
  [0x6b, 0x6f, 0x5f, 0x4b, 0x52, 0x2e, 0x65, 0x75, 0x63, 0x4b, 0x52]

/-- An iconv that has a converter, number 7, from UTF-8 to every encoding. -/
def toy_g_iconv_open (_encoding : Text) : Option Nat := some 7

/-- A colormap with `free` cells left: parsing gives grey for every name but
"red", an allocation takes one cell and gives the pixel `100 + free`, and
fails when no cell is left. -/
def toyColors : ColorDeps Nat where
  gdk_color_parse spec color :=
    if spec = "red" then { color with red := 0xffff, green := 0, blue := 0 }
    else { color with red := 0x8000, green := 0x8000, blue := 0x8000 }
  gdk_colormap_alloc_color free color :=
    if color.red = 0 ∧ color.green = 0 ∧ color.blue = 0 then (true, { color with pixel := 0 }, free)
    else if color.red = 0xffff ∧ color.green = 0xffff ∧ color.blue = 0xffff then
      (true, { color with pixel := 0xffffff }, free)
    else if free = 0 then (false, color, free)
    else (true, { color with pixel := 100 + free }, free - 1)

/-! ## IC creation, the IC list of a connection and the toplevel registry -/

section Operations4

variable {H C : Type}

/-- An entry of `IMChangeICStruct.ic_attr` as `nabi_ic_set_values` reads it:
the three names it knows, each with its value, and any other name. -/
inductive ICAttribute where
  | InputStyle (value : Nat)
  | ClientWindow (value : Nat)
  | FocusWindow (value : Nat)
  | Other
  deriving DecidableEq, Repr

/-- What IC creation uses from outside `ic.c`: `hangul_ic_new`, the server
fields `hangul_keyboard` and `default_input_mode`, and the X server: `XQueryTree
w` is `none` when the call fails and otherwise the root and the parent of
`w`; `tree_depth` bounds the height of the window tree. -/
structure ServerDeps (H : Type) where
  hangul_ic_new : String → H
  hangul_keyboard : String
  default_input_mode : NabiInputMode
  XQueryTree : Nat → Option (Nat × Nat)
  tree_depth : Nat

/-- Function `nabi_toplevel_new` (ic.c 236-246). -/
def nabi_toplevel_new (default_input_mode : NabiInputMode) (id : Nat) : NabiToplevel :=
  { id := id, mode := default_input_mode, ref := 1 }

/-- The first toplevel of the registry with the window `id`.  A toplevel
pointer is modelled by the window of the toplevel it points to. -/
def toplevel_find (toplevels : List NabiToplevel) (id : Nat) : Option NabiToplevel :=
  toplevels.find? (fun t => t.id == id)

/-- Write `f t` over the first toplevel `t` of the registry with the window
`id`. -/
def toplevel_update (f : NabiToplevel → NabiToplevel) (id : Nat) :
    List NabiToplevel → List NabiToplevel
  | [] => []
  | t :: rest => if t.id = id then f t :: rest else t :: toplevel_update f id rest

/-- Modelled from the spec: `nabi_server_remove_toplevel` (server.c) evicts
the toplevel from the registry. -/
def nabi_server_remove_toplevel (id : Nat) : List NabiToplevel → List NabiToplevel
  | [] => []
  | t :: rest => if t.id = id then rest else t :: nabi_server_remove_toplevel id rest

/-- Function `nabi_toplevel_ref` (ic.c 248-253); `none` is a NULL pointer. -/
def nabi_toplevel_ref (toplevels : List NabiToplevel) (toplevel : Option Nat) :
    List NabiToplevel :=
  match toplevel with
  | none => toplevels
  | some id => toplevel_update (fun t => { t with ref := t.ref + 1 }) id toplevels

/-- Function `nabi_toplevel_unref` (ic.c 255-265); `none` is a NULL pointer.
A pointer to a toplevel that is not in the registry, which would be a pointer
to freed memory, changes nothing here. -/
def nabi_toplevel_unref (toplevels : List NabiToplevel) (toplevel : Option Nat) :
    List NabiToplevel :=
  match toplevel with
  | none => toplevels
  | some id =>
    match toplevel_find toplevels id with
    | none => toplevels
    | some t =>
      if t.ref - 1 ≤ 0 then nabi_server_remove_toplevel id toplevels
      else toplevel_update (fun t => { t with ref := t.ref - 1 }) id toplevels

/-- Modelled from the spec: `nabi_server_get_toplevel` (server.c) returns the
existing registry entry for the window with its refcount incremented, or
creates one with refcount 1.  The result is the registry and the pointer. -/
def nabi_server_get_toplevel (default_input_mode : NabiInputMode)
    (toplevels : List NabiToplevel) (id : Nat) : List NabiToplevel × Nat :=
  match toplevel_find toplevels id with
  | some _ => (nabi_toplevel_ref toplevels (some id), id)
  | none => (nabi_toplevel_new default_input_mode id :: toplevels, id)

/-- The climb of `nabi_ic_set_client_window` (ic.c 838-857) from the window
`w`: up the tree while the parent is not the root and `XQueryTree` succeeds. -/
def toplevel_climb (XQueryTree : Nat → Option (Nat × Nat)) : Nat → Nat → Nat
  | 0, w => w
  | fuel + 1, w =>
    match XQueryTree w with
    | none => w
    | some (root, parent) =>
      if parent ≠ root then toplevel_climb XQueryTree fuel parent else w

/-- Function `nabi_ic_set_client_window` (ic.c 825-865) on the registry and
the IC. -/
def nabi_ic_set_client_window (X : ServerDeps H) (toplevels : List NabiToplevel)
    (r : ICRef H C) (client_window : Nat) : List NabiToplevel × ICRef H C :=
  let r1 : ICRef H C := { r with ic := { r.ic with client_window := client_window } }
  let w := toplevel_climb X.XQueryTree X.tree_depth client_window
  let toplevels1 :=
    if r1.toplevel ≠ none then nabi_toplevel_unref toplevels r1.toplevel else toplevels
  let got := nabi_server_get_toplevel X.default_input_mode toplevels1 w
  (got.1, { r1 with toplevel := some got.2 })

/-- Function `nabi_ic_set_focus_window` (ic.c 867-871). -/
def nabi_ic_set_focus_window (r : ICRef H C) (focus_window : Nat) : ICRef H C :=
  { r with ic := { r.ic with focus_window := focus_window } }

/-- Function `nabi_ic_set_values` (ic.c 974-1003) over the entries of
`data->ic_attr`; the spot location of `data->preedit_attr` is geometry. -/
def nabi_ic_set_values (X : ServerDeps H) :
    List NabiToplevel → ICRef H C → List ICAttribute → List NabiToplevel × ICRef H C
  | toplevels, r, [] => (toplevels, r)
  | toplevels, r, attr :: rest =>
    match attr with
    | .InputStyle v =>
      nabi_ic_set_values X toplevels { r with ic := { r.ic with input_style := v } } rest
    | .ClientWindow w =>
      nabi_ic_set_values X (nabi_ic_set_client_window X toplevels r w).1
        (nabi_ic_set_client_window X toplevels r w).2 rest
    | .FocusWindow w => nabi_ic_set_values X toplevels (nabi_ic_set_focus_window r w) rest
    | .Other => nabi_ic_set_values X toplevels r rest

/-- Function `nabi_ic_init_values` (ic.c 266-339) on the fields of the model.
The id is not written here; it holds 0 until `nabi_connection_create_ic`
writes it. -/
def nabi_ic_init_values (X : ServerDeps H) (connection : Option Nat) : ICRef H C :=
  { ic :=
      { id := 0, input_style := 0, client_window := 0, focus_window := 0,
        mode := X.default_input_mode,
        preedit := { str := [], window := none, font_set := false, start := false, prev_length := 0 },
        hic := X.hangul_ic_new X.hangul_keyboard, candidate := none, client_text := none }
    connection := connection
    toplevel := none }

/-- Function `nabi_ic_create` (ic.c 341-352). -/
def nabi_ic_create (X : ServerDeps H) (connection : Option Nat) (toplevels : List NabiToplevel)
    (data : List ICAttribute) : List NabiToplevel × ICRef H C :=
  nabi_ic_set_values X toplevels (nabi_ic_init_values X connection) data

/-- Function `nabi_ic_destroy` (ic.c 354-413) on the registry: the toplevel
is released, everything else is freed memory of the IC. -/
def nabi_ic_destroy (toplevels : List NabiToplevel) (r : ICRef H C) : List NabiToplevel :=
  if r.toplevel ≠ none then nabi_toplevel_unref toplevels r.toplevel else toplevels

/-- The increment of a CARD16. -/
def card16_incr (n : Nat) : Nat := (n + 1) % 65536

/-- Function `nabi_connection_create_ic` (ic.c 161-178) for a connection that
is not NULL: the connection, the registry and the IC. -/
def nabi_connection_create_ic (X : ServerDeps H) (conn : NabiConnectionObj H C)
    (toplevels : List NabiToplevel) (data : List ICAttribute) :
    NabiConnectionObj H C × List NabiToplevel × ICRef H C :=
  let created := nabi_ic_create X (some conn.id) toplevels data
  let ic : ICRef H C := { created.2 with ic := { created.2.ic with id := conn.next_new_ic_id } }
  let next1 := card16_incr conn.next_new_ic_id
  let next2 := if next1 = 0 then card16_incr next1 else next1
  ({ conn with next_new_ic_id := next2, ic_list := ic :: conn.ic_list }, created.1, ic)

/-- Function `nabi_connection_destroy_ic` (ic.c 180-188) for a connection that
is not NULL and the IC at index `i` of its list; an index past the end is a
NULL IC. -/
def nabi_connection_destroy_ic (conn : NabiConnectionObj H C) (toplevels : List NabiToplevel)
    (i : Nat) : NabiConnectionObj H C × List NabiToplevel :=
  match conn.ic_list.get? i with
  | none => (conn, toplevels)
  | some ic => ({ conn with ic_list := conn.ic_list.eraseIdx i }, nabi_ic_destroy toplevels ic)

/-- The loop of `nabi_connection_get_ic` (ic.c 196-202). -/
def ic_list_find (id : Nat) : List (ICRef H C) → Option (ICRef H C)
  | [] => none
  | ic :: rest => if ic.ic.id = id then some ic else ic_list_find id rest

/-- Function `nabi_connection_get_ic` (ic.c 190-205); `none` is NULL, for the
connection and for the result. -/
def nabi_connection_get_ic (conn : Option (NabiConnectionObj H C)) (id : Nat) :
    Option (ICRef H C) :=
  match conn with
  | none => none
  | some c => if id = 0 then none else ic_list_find id c.ic_list

end Operations4

section Vocabulary4

variable {H C : Type}

/-- A call on a connection: create an IC, or destroy the IC at an index of
its list. -/
inductive ConnectionCall where
  | create_ic (data : List ICAttribute)
  | destroy_ic (i : Nat)
  deriving DecidableEq, Repr

/-- Make the calls on the connection, in order. -/
def run_connection_calls (X : ServerDeps H) :
    NabiConnectionObj H C × List NabiToplevel → List ConnectionCall →
      NabiConnectionObj H C × List NabiToplevel
  | st, [] => st
  | st, .create_ic data :: rest =>
    run_connection_calls X
      ((nabi_connection_create_ic X st.1 st.2 data).1,
        (nabi_connection_create_ic X st.1 st.2 data).2.1) rest
  | st, .destroy_ic i :: rest =>
    run_connection_calls X (nabi_connection_destroy_ic st.1 st.2 i) rest

/-- The ids of the ICs in the list of a connection. -/
def ic_ids (conn : NabiConnectionObj H C) : List Nat := conn.ic_list.map (fun r => r.ic.id)

/-- The registry and the live ICs of a server. -/
structure ICWorld (H C : Type) where
  toplevels : List NabiToplevel
  ics : List (ICRef H C)

/-- A call that touches the registry: an IC is created, the IC at an index of
the live ICs is destroyed, or its values are set (a ClientWindow among them is
a window change). -/
inductive ICCall where
  | create (connection : Option Nat) (data : List ICAttribute)
  | destroy (i : Nat)
  | set_values (i : Nat) (data : List ICAttribute)
  deriving DecidableEq, Repr

/-- Make one call on the world. -/
def ICCall.run (X : ServerDeps H) (w : ICWorld H C) : ICCall → ICWorld H C
  | .create connection data =>
    let created : List NabiToplevel × ICRef H C := nabi_ic_create X connection w.toplevels data
    { toplevels := created.1, ics := created.2 :: w.ics }
  | .destroy i =>
    match w.ics.get? i with
    | none => w
    | some r => { toplevels := nabi_ic_destroy w.toplevels r, ics := w.ics.eraseIdx i }
  | .set_values i data =>
    match w.ics.get? i with
    | none => w
    | some r =>
      { toplevels := (nabi_ic_set_values X w.toplevels r data).1
        ics := w.ics.set i (nabi_ic_set_values X w.toplevels r data).2 }

/-- Make the calls on the world, in order. -/
def run_ic_calls (X : ServerDeps H) : ICWorld H C → List ICCall → ICWorld H C
  | w, [] => w
  | w, call :: rest => run_ic_calls X (call.run X w) rest

/-- The number of live ICs whose toplevel pointer is the toplevel of the
window `id`. -/
def referencing (ics : List (ICRef H C)) (id : Nat) : Nat :=
  ics.countP (fun r => r.toplevel == some id)

/-- The refcount kept for the window `id`, 0 when the registry has no
entry. -/
def ref_of (toplevels : List NabiToplevel) (id : Nat) : Int :=
  match toplevel_find toplevels id with
  | none => 0
  | some t => t.ref

/-- The registry is consistent with the live ICs: no window has two entries,
every entry has a positive refcount, and the refcount kept for a window is the
number of live ICs that point to its toplevel. -/
structure RegistryOk (w : ICWorld H C) : Prop where
  nodup : (w.toplevels.map (fun t => t.id)).Nodup
  positive : ∀ t ∈ w.toplevels, 1 ≤ t.ref
  counts : ∀ id, ref_of w.toplevels id = (referencing w.ics id : Int)

/-- The registry is consistent with the live ICs `others` and one more IC,
under construction or taken out of the list, whose toplevel pointer is
`held`. -/
structure RegistryOkWith (toplevels : List NabiToplevel) (others : List (ICRef H C))
    (held : Option Nat) : Prop where
  nodup : (toplevels.map (fun t => t.id)).Nodup
  positive : ∀ t ∈ toplevels, 1 ≤ t.ref
  counts : ∀ id, ref_of toplevels id
    = (referencing others id : Int) + (if held = some id then 1 else 0)

end Vocabulary4

/-! ## More of the small concrete instance: a server -/

/-- A server whose window tree has the root 1, the toplevel windows 10 and
20, and the windows 11, 12 under 10 and 21 under 20. -/
def toyServer : ServerDeps ToyHic where
  hangul_ic_new _ := ⟨[], []⟩
  hangul_keyboard := "2"
  default_input_mode := .DIRECT
  XQueryTree w :=
    if w = 10 ∨ w = 20 then some (1, 1)
    else if w = 11 ∨ w = 12 then some (1, 10)
    else if w = 21 then some (1, 20)
    else none
  tree_depth := 4

/-- A new connection of the toy server, with the locale "ko_KR.eucKR". -/
def toyConnection : NabiConnectionObj ToyHic (List Hanja) :=
  nabi_connection_create toy_g_iconv_open .DIRECT 1 (some locale_ko_KR_eucKR)

/-- The toy server with no toplevel and no IC. -/
def toyICWorld : ICWorld ToyHic (List Hanja) := { toplevels := [], ics := [] }

end Nabi

/-! ## Theorems -/

namespace Nabi

section Helpers

variable {H C : Type}

theorem commit_texts_append (a b : List Event) :
    commit_texts (a ++ b) = commit_texts a ++ commit_texts b := by
  simp [commit_texts]

theorem substitution_lengths_append (a b : List Event) :
    substitution_lengths (a ++ b) = substitution_lengths a ++ substitution_lengths b := by
  simp [substitution_lengths]

theorem DisplayStep.refl (s : St H C) : DisplayStep s s :=
  ⟨rfl, rfl, rfl, rfl, rfl, rfl, rfl, rfl, rfl, rfl, ⟨[], by simp⟩⟩

theorem DisplayStep.trans {s s1 s2 : St H C} (h1 : DisplayStep s s1) (h2 : DisplayStep s1 s2) :
    DisplayStep s s2 where
  hic := h2.hic.trans h1.hic
  str := h2.str.trans h1.str
  input_style := h2.input_style.trans h1.input_style
  candidate := h2.candidate.trans h1.candidate
  client_text := h2.client_text.trans h1.client_text
  id := h2.id.trans h1.id
  server := h2.server.trans h1.server
  connection := h2.connection.trans h1.connection
  commits := h2.commits.trans h1.commits
  substitutions := h2.substitutions.trans h1.substitutions
  out := by
    obtain ⟨e1, he1⟩ := h1.out
    obtain ⟨e2, he2⟩ := h2.out
    exact ⟨e1 ++ e2, by rw [he2, he1, List.append_assoc]⟩

/-- Emitting an event that is neither a Commit nor a Substitution is a display
step. -/
theorem DisplayStep.emit (s : St H C) (e : Event) (h1 : e.commit_text = none)
    (h2 : e.substitution_length = none) : DisplayStep s (s.emit e) where
  hic := rfl
  str := rfl
  input_style := rfl
  candidate := rfl
  client_text := rfl
  id := rfl
  server := rfl
  connection := rfl
  commits := by simp [St.emit, commit_texts, h1]
  substitutions := by simp [St.emit, substitution_lengths, h2]
  out := ⟨[e], rfl⟩

theorem DisplayStep.set_window (s : St H C) (w : Option Bool) : DisplayStep s (s.set_window w) :=
  ⟨rfl, rfl, rfl, rfl, rfl, rfl, rfl, rfl, rfl, rfl, ⟨[], by simp [St.set_window]⟩⟩

theorem DisplayStep.set_prev_length (s : St H C) (n : Nat) :
    DisplayStep s (s.set_prev_length n) :=
  ⟨rfl, rfl, rfl, rfl, rfl, rfl, rfl, rfl, rfl, rfl, ⟨[], by simp [St.set_prev_length]⟩⟩

theorem preedit_hide_display (s : St H C) : DisplayStep s (nabi_ic_preedit_hide s) := by
  unfold nabi_ic_preedit_hide
  split
  · exact DisplayStep.refl s
  · split
    · exact (DisplayStep.set_window s _).trans (DisplayStep.emit _ _ rfl rfl)
    · exact DisplayStep.refl s

theorem preedit_show_display (D : Deps H C) (s : St H C) :
    DisplayStep s (nabi_ic_preedit_show D s) := by
  unfold nabi_ic_preedit_show
  split
  · exact DisplayStep.refl s
  · split
    · exact (DisplayStep.set_window s _).trans (DisplayStep.emit _ _ rfl rfl)
    · exact DisplayStep.refl s

theorem preedit_gdk_draw_string_display (s : St H C) (a b : Text) :
    DisplayStep s (nabi_ic_preedit_gdk_draw_string s a b) := by
  unfold nabi_ic_preedit_gdk_draw_string
  split
  · exact DisplayStep.refl s
  · exact DisplayStep.emit _ _ rfl rfl

theorem preedit_draw_string_display (s : St H C) (a b : Text) :
    DisplayStep s (nabi_ic_preedit_draw_string s a b) := by
  unfold nabi_ic_preedit_draw_string
  split
  · exact DisplayStep.refl s
  · split
    · exact DisplayStep.refl s
    · exact DisplayStep.emit _ _ rfl rfl

theorem preedit_clear_display (s : St H C) : DisplayStep s (nabi_ic_preedit_clear s) := by
  unfold nabi_ic_preedit_clear
  split
  · exact DisplayStep.refl s
  · refine DisplayStep.trans ?_ (DisplayStep.set_prev_length _ _)
    split_ifs
    · exact DisplayStep.emit _ _ rfl rfl
    · exact preedit_hide_display s
    · exact preedit_hide_display s
    · exact preedit_hide_display s
    · exact DisplayStep.refl s

theorem preedit_update_display (D : Deps H C) (s : St H C) :
    DisplayStep s (nabi_ic_preedit_update D s) := by
  unfold nabi_ic_preedit_update
  simp only []
  split
  · exact preedit_clear_display s
  · refine DisplayStep.trans ?_ (DisplayStep.set_prev_length _ _)
    split_ifs
    · exact DisplayStep.emit _ _ rfl rfl
    · exact (preedit_show_display D s).trans (preedit_draw_string_display _ _ _)
    · exact (preedit_show_display D s).trans (preedit_gdk_draw_string_display _ _ _)
    · exact (preedit_show_display D s).trans (preedit_gdk_draw_string_display _ _ _)
    · exact DisplayStep.refl s

theorem ustring_erase_last (u : UString) :
    ustring_erase u (ustring_length u - 1) 1 = u.dropLast := by
  unfold ustring_erase ustring_length
  rcases Nat.eq_zero_or_pos u.length with h | h
  · have : u = [] := List.length_eq_zero.mp h
    subst this
    rfl
  · have h1 : u.length - 1 + 1 = u.length := by omega
    rw [h1, List.drop_length, List.append_nil, List.dropLast_eq_take]

end Helpers

end Nabi

namespace Nabi

section Dispatch

variable {H C : Type}

/-- C1: a BackSpace key with no candidate window, no Ctrl/Alt/Mod3/Mod4/Mod5
and not configured as off-key or candidate key.  If `hangul_ic_backspace`
succeeds the preedit buffer is unchanged and the key is consumed.  If it fails
and the buffer is non-empty, exactly the last scalar of the buffer is removed,
the key is consumed, and hic is the state the failed call returned (the
dispatcher does nothing else to it).  If it fails and the buffer is empty the
key is passed through and nothing but that hic call happened: the state is the
old one, and literally the old one when the failed call left hic as it was. -/
theorem backspace_key_dispatch (D : Deps H C) (s : St H C) (state : Nat)
    (hcand : s.ic.candidate = none)
    (hoff : D.nabi_server_is_off_key XK_BackSpace state = false)
    (hkey : D.nabi_server_is_candidate_key XK_BackSpace state = false)
    (hmod : hasBits state (ControlMask ||| Mod1Mask ||| Mod3Mask ||| Mod4Mask ||| Mod5Mask)
      = false) :
    ((D.hangul_ic_backspace s.ic.hic).1 = true →
        (nabi_ic_process_keyevent D s XK_BackSpace state).1 = true
        ∧ (nabi_ic_process_keyevent D s XK_BackSpace state).2.ic.preedit.str = s.ic.preedit.str
        ∧ (nabi_ic_process_keyevent D s XK_BackSpace state).2.ic.hic
            = (D.hangul_ic_backspace s.ic.hic).2)
    ∧ ((D.hangul_ic_backspace s.ic.hic).1 = false → s.ic.preedit.str ≠ [] →
        (nabi_ic_process_keyevent D s XK_BackSpace state).1 = true
        ∧ (nabi_ic_process_keyevent D s XK_BackSpace state).2.ic.preedit.str
            = s.ic.preedit.str.dropLast
        ∧ (nabi_ic_process_keyevent D s XK_BackSpace state).2.ic.hic
            = (D.hangul_ic_backspace s.ic.hic).2)
    ∧ ((D.hangul_ic_backspace s.ic.hic).1 = false → s.ic.preedit.str = [] →
        (nabi_ic_process_keyevent D s XK_BackSpace state).1 = false
        ∧ (nabi_ic_process_keyevent D s XK_BackSpace state).2
            = s.set_hic (D.hangul_ic_backspace s.ic.hic).2
        ∧ ((D.hangul_ic_backspace s.ic.hic).2 = s.ic.hic →
            (nabi_ic_process_keyevent D s XK_BackSpace state).2 = s)) := by
  have hshift : ¬ (XK_BackSpace = XK_Shift_L ∨ XK_BackSpace = XK_Shift_R) := by decide
  have hdef : nabi_ic_process_keyevent D s XK_BackSpace state
      = if (D.hangul_ic_backspace s.ic.hic).1 = true then
          ((D.hangul_ic_backspace s.ic.hic).1,
            nabi_ic_preedit_update D (s.set_hic (D.hangul_ic_backspace s.ic.hic).2))
        else if ustring_length (s.set_hic (D.hangul_ic_backspace s.ic.hic).2).ic.preedit.str > 0 then
          (true, nabi_ic_preedit_update D
            ((s.set_hic (D.hangul_ic_backspace s.ic.hic).2).set_str
              (ustring_erase (s.set_hic (D.hangul_ic_backspace s.ic.hic).2).ic.preedit.str
                (ustring_length (s.set_hic (D.hangul_ic_backspace s.ic.hic).2).ic.preedit.str - 1) 1)))
        else ((D.hangul_ic_backspace s.ic.hic).1, s.set_hic (D.hangul_ic_backspace s.ic.hic).2) := by
    unfold nabi_ic_process_keyevent
    rw [hcand]
    simp only [if_neg hshift, hoff, hkey, hmod, if_true, if_false, Bool.false_eq_true]
  rw [hdef]
  refine ⟨?_, ?_, ?_⟩
  · intro hb
    rw [if_pos hb]
    have hd := preedit_update_display D (s.set_hic (D.hangul_ic_backspace s.ic.hic).2)
    exact ⟨hb, hd.str, hd.hic⟩
  · intro hb hne
    have hlen : ustring_length (s.set_hic (D.hangul_ic_backspace s.ic.hic).2).ic.preedit.str > 0 := by
      simpa [St.set_hic, ustring_length, List.length_pos] using hne
    rw [if_neg (by simp [hb]), if_pos hlen]
    have hd := preedit_update_display D
      ((s.set_hic (D.hangul_ic_backspace s.ic.hic).2).set_str
        (ustring_erase (s.set_hic (D.hangul_ic_backspace s.ic.hic).2).ic.preedit.str
          (ustring_length (s.set_hic (D.hangul_ic_backspace s.ic.hic).2).ic.preedit.str - 1) 1))
    refine ⟨rfl, ?_, ?_⟩
    · rw [hd.str]
      exact ustring_erase_last s.ic.preedit.str
    · rw [hd.hic]
      rfl
  · intro hb he
    have hlen : ¬ ustring_length (s.set_hic (D.hangul_ic_backspace s.ic.hic).2).ic.preedit.str > 0 := by
      simp [St.set_hic, ustring_length, he]
    rw [if_neg (by simp [hb]), if_neg hlen]
    refine ⟨hb, rfl, ?_⟩
    intro hsame
    simp only [St.set_hic, hsame]

/-- C1, at a concrete input: the toy automaton is empty and the buffer holds
two syllables; BackSpace removes the last one and is consumed. -/
theorem backspace_key_dispatch_witness :
    (nabi_ic_process_keyevent toyDeps (toySt ⟨[], []⟩ [0xac00, 0xb098] none none "hanja")
        XK_BackSpace 0).1 = true
    ∧ (nabi_ic_process_keyevent toyDeps (toySt ⟨[], []⟩ [0xac00, 0xb098] none none "hanja")
        XK_BackSpace 0).2.ic.preedit.str = [0xac00]
    ∧ (nabi_ic_process_keyevent toyDeps (toySt ⟨[], []⟩ [0xac00, 0xb098] none none "hanja")
        XK_BackSpace 0).2.ic.hic = ⟨[], []⟩ :=
  (backspace_key_dispatch toyDeps (toySt ⟨[], []⟩ [0xac00, 0xb098] none none "hanja") 0
    rfl (by decide) (by decide) (by decide)).2.1 (by decide) (by decide)

/-- C2 as stated fails: with a candidate window open the key `a`, which is not
in the navigation keymap, is not consumed. -/
theorem candidate_swallow_counterexample :
    (toySt ⟨[0xac00], []⟩ [] (some [⟨[0xac00], [0x5bb6]⟩]) none "hanja").ic.candidate.isSome = true
    ∧ (nabi_ic_process_keyevent toyDeps
        (toySt ⟨[0xac00], []⟩ [] (some [⟨[0xac00], [0x5bb6]⟩]) none "hanja") 0x61 0).1 = false := by
  decide

/-- Membership in the navigation keymap, with the keysym values spelled out. -/
theorem is_navigation_key_iff (k : Nat) :
    is_navigation_key k = true ↔
      (k = 0xff52 ∨ k = 0x6b ∨ k = 0xff54 ∨ k = 0x6a ∨ k = 0xff51 ∨ k = 0x68 ∨ k = 0xff55
        ∨ k = 0xff08 ∨ k = 0xffad ∨ k = 0xff53 ∨ k = 0x6c ∨ k = 0x20 ∨ k = 0xff56 ∨ k = 0xffab
        ∨ k = 0xff09 ∨ k = 0xff1b ∨ k = 0xff0d ∨ k = 0xff8d ∨ (0x31 ≤ k ∧ k ≤ 0x39)
        ∨ (0xffb1 ≤ k ∧ k ≤ 0xffb9) ∨ k = 0xff9c ∨ k = 0xff99 ∨ k = 0xff9b ∨ k = 0xff96
        ∨ k = 0xff9d ∨ k = 0xff98 ∨ k = 0xff95 ∨ k = 0xff97 ∨ k = 0xff9a) := by
  unfold is_navigation_key
  rw [decide_eq_true_eq]
  rfl

/-- The switch of `nabi_ic_candidate_process` reaches `default` exactly for
the keys outside the navigation keymap. -/
theorem candidate_switch_isSome (D : Deps H C) (s : St H C) (c : C) (k : Nat) :
    (nabi_ic_candidate_switch D s c k).isSome = is_navigation_key k := by
  have hnav := is_navigation_key_iff k
  generalize is_navigation_key k = b at hnav
  unfold nabi_ic_candidate_switch
  by_cases h1 : k = XK_Up ∨ k = XK_k
  · rw [if_pos h1, Option.isSome_some]
    simp only [XK_space, XK_1, XK_9, XK_h, XK_j, XK_k, XK_l, XK_BackSpace, XK_Tab,
      XK_Return, XK_Escape, XK_Left, XK_Up, XK_Right, XK_Down, XK_Page_Up, XK_Page_Down,
      XK_KP_Enter, XK_KP_Home, XK_KP_Left, XK_KP_Up, XK_KP_Right, XK_KP_Down, XK_KP_Prior,
      XK_KP_Next, XK_KP_End, XK_KP_Begin, XK_KP_Add, XK_KP_Subtract, XK_KP_1, XK_KP_9] at h1
    exact (hnav.mpr (by omega)).symm
  rw [if_neg h1]
  by_cases h2 : k = XK_Down ∨ k = XK_j
  · rw [if_pos h2, Option.isSome_some]
    simp only [XK_space, XK_1, XK_9, XK_h, XK_j, XK_k, XK_l, XK_BackSpace, XK_Tab,
      XK_Return, XK_Escape, XK_Left, XK_Up, XK_Right, XK_Down, XK_Page_Up, XK_Page_Down,
      XK_KP_Enter, XK_KP_Home, XK_KP_Left, XK_KP_Up, XK_KP_Right, XK_KP_Down, XK_KP_Prior,
      XK_KP_Next, XK_KP_End, XK_KP_Begin, XK_KP_Add, XK_KP_Subtract, XK_KP_1, XK_KP_9] at h2
    exact (hnav.mpr (by omega)).symm
  rw [if_neg h2]
  by_cases h3 : k = XK_Left ∨ k = XK_h ∨ k = XK_Page_Up ∨ k = XK_BackSpace
      ∨ k = XK_KP_Subtract
  · rw [if_pos h3, Option.isSome_some]
    simp only [XK_space, XK_1, XK_9, XK_h, XK_j, XK_k, XK_l, XK_BackSpace, XK_Tab,
      XK_Return, XK_Escape, XK_Left, XK_Up, XK_Right, XK_Down, XK_Page_Up, XK_Page_Down,
      XK_KP_Enter, XK_KP_Home, XK_KP_Left, XK_KP_Up, XK_KP_Right, XK_KP_Down, XK_KP_Prior,
      XK_KP_Next, XK_KP_End, XK_KP_Begin, XK_KP_Add, XK_KP_Subtract, XK_KP_1, XK_KP_9] at h3
    exact (hnav.mpr (by omega)).symm
  rw [if_neg h3]
  by_cases h4 : k = XK_Right ∨ k = XK_l ∨ k = XK_space ∨ k = XK_Page_Down
      ∨ k = XK_KP_Add ∨ k = XK_Tab
  · rw [if_pos h4, Option.isSome_some]
    simp only [XK_space, XK_1, XK_9, XK_h, XK_j, XK_k, XK_l, XK_BackSpace, XK_Tab,
      XK_Return, XK_Escape, XK_Left, XK_Up, XK_Right, XK_Down, XK_Page_Up, XK_Page_Down,
      XK_KP_Enter, XK_KP_Home, XK_KP_Left, XK_KP_Up, XK_KP_Right, XK_KP_Down, XK_KP_Prior,
      XK_KP_Next, XK_KP_End, XK_KP_Begin, XK_KP_Add, XK_KP_Subtract, XK_KP_1, XK_KP_9] at h4
    exact (hnav.mpr (by omega)).symm
  rw [if_neg h4]
  by_cases h5 : k = XK_Escape
  · rw [if_pos h5, Option.isSome_some]
    simp only [XK_space, XK_1, XK_9, XK_h, XK_j, XK_k, XK_l, XK_BackSpace, XK_Tab,
      XK_Return, XK_Escape, XK_Left, XK_Up, XK_Right, XK_Down, XK_Page_Up, XK_Page_Down,
      XK_KP_Enter, XK_KP_Home, XK_KP_Left, XK_KP_Up, XK_KP_Right, XK_KP_Down, XK_KP_Prior,
      XK_KP_Next, XK_KP_End, XK_KP_Begin, XK_KP_Add, XK_KP_Subtract, XK_KP_1, XK_KP_9] at h5
    exact (hnav.mpr (by omega)).symm
  rw [if_neg h5]
  by_cases h6 : k = XK_Return ∨ k = XK_KP_Enter
  · rw [if_pos h6, Option.isSome_some]
    simp only [XK_space, XK_1, XK_9, XK_h, XK_j, XK_k, XK_l, XK_BackSpace, XK_Tab,
      XK_Return, XK_Escape, XK_Left, XK_Up, XK_Right, XK_Down, XK_Page_Up, XK_Page_Down,
      XK_KP_Enter, XK_KP_Home, XK_KP_Left, XK_KP_Up, XK_KP_Right, XK_KP_Down, XK_KP_Prior,
      XK_KP_Next, XK_KP_End, XK_KP_Begin, XK_KP_Add, XK_KP_Subtract, XK_KP_1, XK_KP_9] at h6
    exact (hnav.mpr (by omega)).symm
  rw [if_neg h6]
  by_cases h7 : XK_1 ≤ k ∧ k ≤ XK_9
  · rw [if_pos h7, Option.isSome_some]
    simp only [XK_space, XK_1, XK_9, XK_h, XK_j, XK_k, XK_l, XK_BackSpace, XK_Tab,
      XK_Return, XK_Escape, XK_Left, XK_Up, XK_Right, XK_Down, XK_Page_Up, XK_Page_Down,
      XK_KP_Enter, XK_KP_Home, XK_KP_Left, XK_KP_Up, XK_KP_Right, XK_KP_Down, XK_KP_Prior,
      XK_KP_Next, XK_KP_End, XK_KP_Begin, XK_KP_Add, XK_KP_Subtract, XK_KP_1, XK_KP_9] at h7
    exact (hnav.mpr (by omega)).symm
  rw [if_neg h7]
  by_cases h8 : XK_KP_1 ≤ k ∧ k ≤ XK_KP_9
  · rw [if_pos h8, Option.isSome_some]
    simp only [XK_space, XK_1, XK_9, XK_h, XK_j, XK_k, XK_l, XK_BackSpace, XK_Tab,
      XK_Return, XK_Escape, XK_Left, XK_Up, XK_Right, XK_Down, XK_Page_Up, XK_Page_Down,
      XK_KP_Enter, XK_KP_Home, XK_KP_Left, XK_KP_Up, XK_KP_Right, XK_KP_Down, XK_KP_Prior,
      XK_KP_Next, XK_KP_End, XK_KP_Begin, XK_KP_Add, XK_KP_Subtract, XK_KP_1, XK_KP_9] at h8
    exact (hnav.mpr (by omega)).symm
  rw [if_neg h8]
  by_cases h9 : k = XK_KP_End
  · rw [if_pos h9, Option.isSome_some]
    simp only [XK_space, XK_1, XK_9, XK_h, XK_j, XK_k, XK_l, XK_BackSpace, XK_Tab,
      XK_Return, XK_Escape, XK_Left, XK_Up, XK_Right, XK_Down, XK_Page_Up, XK_Page_Down,
      XK_KP_Enter, XK_KP_Home, XK_KP_Left, XK_KP_Up, XK_KP_Right, XK_KP_Down, XK_KP_Prior,
      XK_KP_Next, XK_KP_End, XK_KP_Begin, XK_KP_Add, XK_KP_Subtract, XK_KP_1, XK_KP_9] at h9
    exact (hnav.mpr (by omega)).symm
  rw [if_neg h9]
  by_cases h10 : k = XK_KP_Down
  · rw [if_pos h10, Option.isSome_some]
    simp only [XK_space, XK_1, XK_9, XK_h, XK_j, XK_k, XK_l, XK_BackSpace, XK_Tab,
      XK_Return, XK_Escape, XK_Left, XK_Up, XK_Right, XK_Down, XK_Page_Up, XK_Page_Down,
      XK_KP_Enter, XK_KP_Home, XK_KP_Left, XK_KP_Up, XK_KP_Right, XK_KP_Down, XK_KP_Prior,
      XK_KP_Next, XK_KP_End, XK_KP_Begin, XK_KP_Add, XK_KP_Subtract, XK_KP_1, XK_KP_9] at h10
    exact (hnav.mpr (by omega)).symm
  rw [if_neg h10]
  by_cases h11 : k = XK_KP_Next
  · rw [if_pos h11, Option.isSome_some]
    simp only [XK_space, XK_1, XK_9, XK_h, XK_j, XK_k, XK_l, XK_BackSpace, XK_Tab,
      XK_Return, XK_Escape, XK_Left, XK_Up, XK_Right, XK_Down, XK_Page_Up, XK_Page_Down,
      XK_KP_Enter, XK_KP_Home, XK_KP_Left, XK_KP_Up, XK_KP_Right, XK_KP_Down, XK_KP_Prior,
      XK_KP_Next, XK_KP_End, XK_KP_Begin, XK_KP_Add, XK_KP_Subtract, XK_KP_1, XK_KP_9] at h11
    exact (hnav.mpr (by omega)).symm
  rw [if_neg h11]
  by_cases h12 : k = XK_KP_Left
  · rw [if_pos h12, Option.isSome_some]
    simp only [XK_space, XK_1, XK_9, XK_h, XK_j, XK_k, XK_l, XK_BackSpace, XK_Tab,
      XK_Return, XK_Escape, XK_Left, XK_Up, XK_Right, XK_Down, XK_Page_Up, XK_Page_Down,
      XK_KP_Enter, XK_KP_Home, XK_KP_Left, XK_KP_Up, XK_KP_Right, XK_KP_Down, XK_KP_Prior,
      XK_KP_Next, XK_KP_End, XK_KP_Begin, XK_KP_Add, XK_KP_Subtract, XK_KP_1, XK_KP_9] at h12
    exact (hnav.mpr (by omega)).symm
  rw [if_neg h12]
  by_cases h13 : k = XK_KP_Begin
  · rw [if_pos h13, Option.isSome_some]
    simp only [XK_space, XK_1, XK_9, XK_h, XK_j, XK_k, XK_l, XK_BackSpace, XK_Tab,
      XK_Return, XK_Escape, XK_Left, XK_Up, XK_Right, XK_Down, XK_Page_Up, XK_Page_Down,
      XK_KP_Enter, XK_KP_Home, XK_KP_Left, XK_KP_Up, XK_KP_Right, XK_KP_Down, XK_KP_Prior,
      XK_KP_Next, XK_KP_End, XK_KP_Begin, XK_KP_Add, XK_KP_Subtract, XK_KP_1, XK_KP_9] at h13
    exact (hnav.mpr (by omega)).symm
  rw [if_neg h13]
  by_cases h14 : k = XK_KP_Right
  · rw [if_pos h14, Option.isSome_some]
    simp only [XK_space, XK_1, XK_9, XK_h, XK_j, XK_k, XK_l, XK_BackSpace, XK_Tab,
      XK_Return, XK_Escape, XK_Left, XK_Up, XK_Right, XK_Down, XK_Page_Up, XK_Page_Down,
      XK_KP_Enter, XK_KP_Home, XK_KP_Left, XK_KP_Up, XK_KP_Right, XK_KP_Down, XK_KP_Prior,
      XK_KP_Next, XK_KP_End, XK_KP_Begin, XK_KP_Add, XK_KP_Subtract, XK_KP_1, XK_KP_9] at h14
    exact (hnav.mpr (by omega)).symm
  rw [if_neg h14]
  by_cases h15 : k = XK_KP_Home
  · rw [if_pos h15, Option.isSome_some]
    simp only [XK_space, XK_1, XK_9, XK_h, XK_j, XK_k, XK_l, XK_BackSpace, XK_Tab,
      XK_Return, XK_Escape, XK_Left, XK_Up, XK_Right, XK_Down, XK_Page_Up, XK_Page_Down,
      XK_KP_Enter, XK_KP_Home, XK_KP_Left, XK_KP_Up, XK_KP_Right, XK_KP_Down, XK_KP_Prior,
      XK_KP_Next, XK_KP_End, XK_KP_Begin, XK_KP_Add, XK_KP_Subtract, XK_KP_1, XK_KP_9] at h15
    exact (hnav.mpr (by omega)).symm
  rw [if_neg h15]
  by_cases h16 : k = XK_KP_Up
  · rw [if_pos h16, Option.isSome_some]
    simp only [XK_space, XK_1, XK_9, XK_h, XK_j, XK_k, XK_l, XK_BackSpace, XK_Tab,
      XK_Return, XK_Escape, XK_Left, XK_Up, XK_Right, XK_Down, XK_Page_Up, XK_Page_Down,
      XK_KP_Enter, XK_KP_Home, XK_KP_Left, XK_KP_Up, XK_KP_Right, XK_KP_Down, XK_KP_Prior,
      XK_KP_Next, XK_KP_End, XK_KP_Begin, XK_KP_Add, XK_KP_Subtract, XK_KP_1, XK_KP_9] at h16
    exact (hnav.mpr (by omega)).symm
  rw [if_neg h16]
  by_cases h17 : k = XK_KP_Prior
  · rw [if_pos h17, Option.isSome_some]
    simp only [XK_space, XK_1, XK_9, XK_h, XK_j, XK_k, XK_l, XK_BackSpace, XK_Tab,
      XK_Return, XK_Escape, XK_Left, XK_Up, XK_Right, XK_Down, XK_Page_Up, XK_Page_Down,
      XK_KP_Enter, XK_KP_Home, XK_KP_Left, XK_KP_Up, XK_KP_Right, XK_KP_Down, XK_KP_Prior,
      XK_KP_Next, XK_KP_End, XK_KP_Begin, XK_KP_Add, XK_KP_Subtract, XK_KP_1, XK_KP_9] at h17
    exact (hnav.mpr (by omega)).symm
  rw [if_neg h17]
  rw [Option.isSome_none]
  simp only [XK_space, XK_1, XK_9, XK_h, XK_j, XK_k, XK_l, XK_BackSpace, XK_Tab,
      XK_Return, XK_Escape, XK_Left, XK_Up, XK_Right, XK_Down, XK_Page_Up, XK_Page_Down,
      XK_KP_Enter, XK_KP_Home, XK_KP_Left, XK_KP_Up, XK_KP_Right, XK_KP_Down, XK_KP_Prior,
      XK_KP_Next, XK_KP_End, XK_KP_Begin, XK_KP_Add, XK_KP_Subtract, XK_KP_1, XK_KP_9] at *
  cases b with
  | false => rfl
  | true => exact absurd (hnav.mp rfl) (by omega)

/-- C2, amended: while a candidate window is active the key is consumed exactly
when it is in the navigation keymap; any other key is passed through
(`default: return False`) and leaves the state as it was. -/
theorem candidate_keys_dispatch (D : Deps H C) (s : St H C) (c : C) (keysym : Nat)
    (state : Nat) (hc : s.ic.candidate = some c) :
    (nabi_ic_process_keyevent D s keysym state).1 = is_navigation_key keysym
    ∧ (is_navigation_key keysym = false → (nabi_ic_process_keyevent D s keysym state).2 = s) := by
  have hsw := candidate_switch_isSome D s c keysym
  unfold nabi_ic_process_keyevent
  rw [hc]
  simp only [nabi_ic_candidate_process]
  cases hres : nabi_ic_candidate_switch D s c keysym with
  | none =>
    rw [hres] at hsw
    exact ⟨hsw, fun _ => rfl⟩
  | some p =>
    rw [hres] at hsw
    obtain ⟨s1, hanja⟩ := p
    have hnav : is_navigation_key keysym = true := hsw.symm
    cases hanja with
    | none => exact ⟨hnav.symm, fun hf => absurd hnav (by simp [hf])⟩
    | some h => exact ⟨hnav.symm, fun hf => absurd hnav (by simp [hf])⟩

/-- C2 amended, at a concrete input: Escape is consumed. -/
theorem candidate_keys_dispatch_witness :
    (nabi_ic_process_keyevent toyDeps
        (toySt ⟨[0xac00], []⟩ [] (some [⟨[0xac00], [0x5bb6]⟩]) none "hanja") XK_Escape 0).1 = true :=
  (candidate_keys_dispatch toyDeps
    (toySt ⟨[0xac00], []⟩ [] (some [⟨[0xac00], [0x5bb6]⟩]) none "hanja") [⟨[0xac00], [0x5bb6]⟩]
    XK_Escape 0 rfl).1

end Dispatch

end Nabi

namespace Nabi

section CommitPath

variable {H C : Type}

/-- What `nabi_ic_commit_utf8` does to the fields and to the Commit trace. -/
theorem commit_utf8_fields (s : St H C) (t : Text) :
    (nabi_ic_commit_utf8 s t).ic.hic = s.ic.hic
    ∧ (nabi_ic_commit_utf8 s t).ic.preedit.str = s.ic.preedit.str
    ∧ (nabi_ic_commit_utf8 s t).ic.input_style = s.ic.input_style
    ∧ (nabi_ic_commit_utf8 s t).ic.candidate = s.ic.candidate
    ∧ (nabi_ic_commit_utf8 s t).ic.client_text = s.ic.client_text
    ∧ (nabi_ic_commit_utf8 s t).server = s.server
    ∧ commit_texts (nabi_ic_commit_utf8 s t).out = commit_texts s.out ++ [t] := by
  unfold nabi_ic_commit_utf8
  simp only []
  cases hcb : hasBits s.ic.input_style XIMPreeditCallbacks with
  | true =>
    have hc := preedit_clear_display s
    have hst : hasBits ((nabi_ic_preedit_clear s).emit (Event.Commit t)).ic.input_style
        XIMPreeditCallbacks = true := by
      show hasBits (nabi_ic_preedit_clear s).ic.input_style XIMPreeditCallbacks = true
      rw [hc.input_style, hcb]
    simp only [if_true, hst, Bool.not_true, Bool.false_eq_true, if_false]
    refine ⟨hc.hic, hc.str, hc.input_style, hc.candidate, hc.client_text, hc.server, ?_⟩
    show commit_texts ((nabi_ic_preedit_clear s).out ++ [Event.Commit t]) = _
    rw [commit_texts_append, hc.commits]
    rfl
  | false =>
    have hc := preedit_clear_display (s.emit (Event.Commit t))
    have hst : hasBits (s.emit (Event.Commit t)).ic.input_style XIMPreeditCallbacks = false := hcb
    simp only [Bool.false_eq_true, if_false, hst, Bool.not_false, if_true]
    refine ⟨hc.hic, hc.str, hc.input_style, hc.candidate, hc.client_text, hc.server, ?_⟩
    rw [hc.commits]
    show commit_texts (s.out ++ [Event.Commit t]) = _
    rw [commit_texts_append]
    rfl

/-- What `nabi_ic_flush` does: the buffer is cleared, hic is flushed, and the
flush string is committed when it is non-empty. -/
theorem flush_fields (D : Deps H C) (s : St H C) :
    (nabi_ic_flush D s).ic.preedit.str = []
    ∧ (nabi_ic_flush D s).ic.hic = (D.hangul_ic_flush s.ic.hic).2
    ∧ (nabi_ic_flush D s).server = s.server
    ∧ (nabi_ic_flush D s).ic.candidate = s.ic.candidate
    ∧ commit_texts (nabi_ic_flush D s).out
        = commit_texts s.out
          ++ (if s.ic.preedit.str ++ (D.hangul_ic_flush s.ic.hic).1 = [] then []
              else [s.ic.preedit.str ++ (D.hangul_ic_flush s.ic.hic).1]) := by
  unfold nabi_ic_flush
  simp only [nabi_ic_get_flush_string, ustring_append, ustring_clear, List.nil_append]
  by_cases he : s.ic.preedit.str ++ (D.hangul_ic_flush s.ic.hic).1 = []
  · have hl : ¬ (s.ic.preedit.str ++ (D.hangul_ic_flush s.ic.hic).1).length > 0 := by
      rw [he]; simp
    rw [if_neg hl, if_pos he]
    exact ⟨rfl, rfl, rfl, rfl, by simp [St.set_str, St.set_hic]⟩
  · have hl : (s.ic.preedit.str ++ (D.hangul_ic_flush s.ic.hic).1).length > 0 :=
      List.length_pos.mpr he
    rw [if_pos hl, if_neg he]
    have hc := commit_utf8_fields (s.set_hic (D.hangul_ic_flush s.ic.hic).2)
      (s.ic.preedit.str ++ (D.hangul_ic_flush s.ic.hic).1)
    exact ⟨rfl, hc.1, hc.2.2.2.2.2.1, hc.2.2.2.1, hc.2.2.2.2.2.2⟩

/-- The failing input of C3, word-commit mode and the toy automaton: the keys
a, b, BackSpace leave hic empty and the syllable a in the preedit buffer; then
Ctrl+a arrives.  It is passed through, but nothing has been committed and the
buffer still holds the syllable. -/
theorem modifier_bypass_keeps_buffer :
    hasBits ControlMask (ControlMask ||| Mod1Mask ||| Mod3Mask ||| Mod4Mask ||| Mod5Mask) = true
    ∧ (dispatch_keys toyDeps (toySt ⟨[], []⟩ [] none none "hanja")
        [(0x61, 0), (0x62, 0), (XK_BackSpace, 0), (0x61, ControlMask)]).1
        = [true, true, true, false]
    ∧ (dispatch_keys toyDeps (toySt ⟨[], []⟩ [] none none "hanja")
        [(0x61, 0), (0x62, 0), (XK_BackSpace, 0), (0x61, ControlMask)]).2.ic.preedit.str = [0x61]
    ∧ toyDeps.hangul_ic_is_empty (dispatch_keys toyDeps (toySt ⟨[], []⟩ [] none none "hanja")
        [(0x61, 0), (0x62, 0), (XK_BackSpace, 0), (0x61, ControlMask)]).2.ic.hic = true
    ∧ commit_texts (dispatch_keys toyDeps (toySt ⟨[], []⟩ [] none none "hanja")
        [(0x61, 0), (0x62, 0), (XK_BackSpace, 0), (0x61, ControlMask)]).2.out = [] := by
  decide

/-- The part of C3 the code does satisfy: with a modifier held and a non-empty
hic the composition is committed, hic and buffer end up empty, and the key is
passed through. -/
theorem modifier_bypass_flushes_hic (D : Deps H C) (hD : HicContract D) (s : St H C)
    (keysym state : Nat)
    (hcand : s.ic.candidate = none)
    (hshift : ¬ (keysym = XK_Shift_L ∨ keysym = XK_Shift_R))
    (hoff : D.nabi_server_is_off_key keysym state = false)
    (hkey : D.nabi_server_is_candidate_key keysym state = false)
    (hmod : hasBits state (ControlMask ||| Mod1Mask ||| Mod3Mask ||| Mod4Mask ||| Mod5Mask)
      = true)
    (hne : D.hangul_ic_is_empty s.ic.hic = false) :
    (nabi_ic_process_keyevent D s keysym state).1 = false
    ∧ (nabi_ic_process_keyevent D s keysym state).2.ic.preedit.str = []
    ∧ D.hangul_ic_is_empty (nabi_ic_process_keyevent D s keysym state).2.ic.hic = true
    ∧ commit_texts (nabi_ic_process_keyevent D s keysym state).2.out
        = commit_texts s.out ++ [s.ic.preedit.str ++ D.hangul_ic_get_preedit_string s.ic.hic] := by
  have hdef : nabi_ic_process_keyevent D s keysym state = (false, nabi_ic_flush D s) := by
    unfold nabi_ic_process_keyevent
    rw [hcand]
    simp only [if_neg hshift, hoff, hkey, hmod, if_true, Bool.false_eq_true, if_false,
      nabi_ic_is_empty, hne, Bool.not_false]
  have hf := flush_fields D s
  have hp : D.hangul_ic_get_preedit_string s.ic.hic ≠ [] := by
    intro h
    have := (hD.empty_iff s.ic.hic).mpr h
    rw [hne] at this
    exact Bool.noConfusion this
  rw [hdef]
  refine ⟨rfl, hf.1, ?_, ?_⟩
  · show D.hangul_ic_is_empty (nabi_ic_flush D s).ic.hic = true
    rw [hf.2.1]
    exact hD.flush_empty _
  · show commit_texts (nabi_ic_flush D s).out = _
    rw [hf.2.2.2.2, hD.flush_preedit]
    rw [if_neg (by simp [hp])]

/-- The failing input of C4, word-commit mode and the toy automaton: after the
keys a, b, BackSpace the automaton is empty and the preedit buffer holds the
syllable a; `nabi_ic_is_empty` answers True although the buffer is not empty. -/
theorem is_empty_ignores_buffer :
    toyDeps.hangul_ic_is_empty (dispatch_keys toyDeps (toySt ⟨[], []⟩ [] none none "hanja")
        [(0x61, 0), (0x62, 0), (XK_BackSpace, 0)]).2.ic.hic = true
    ∧ (dispatch_keys toyDeps (toySt ⟨[], []⟩ [] none none "hanja")
        [(0x61, 0), (0x62, 0), (XK_BackSpace, 0)]).2.ic.preedit.str = [0x61]
    ∧ nabi_ic_is_empty toyDeps (some (dispatch_keys toyDeps (toySt ⟨[], []⟩ [] none none "hanja")
        [(0x61, 0), (0x62, 0), (XK_BackSpace, 0)]).2.ic) = true := by
  decide

/-- What `nabi_ic_is_empty` computes on a live IC: the emptiness of hic alone. -/
theorem is_empty_eq_hic_empty (D : Deps H C) (ic : NabiIC H C) :
    nabi_ic_is_empty D (some ic) = D.hangul_ic_is_empty ic.hic := rfl

end CommitPath

end Nabi

namespace Nabi

section PreeditLength

variable {H C : Type}

/-- Hiding the preedit window sends no PreeditDraw. -/
theorem preedit_hide_no_draw (s : St H C) :
    ∃ evs, (nabi_ic_preedit_hide s).out = s.out ++ evs ∧ preedit_draw_chg_lengths evs = [] := by
  unfold nabi_ic_preedit_hide
  split
  · exact ⟨[], by simp, rfl⟩
  · split
    · exact ⟨[Event.WindowHide], rfl, rfl⟩
    · exact ⟨[], by simp, rfl⟩

/-- Showing the preedit window sends no PreeditDraw. -/
theorem preedit_show_no_draw (D : Deps H C) (s : St H C) :
    ∃ evs, (nabi_ic_preedit_show D s).out = s.out ++ evs ∧ preedit_draw_chg_lengths evs = [] := by
  unfold nabi_ic_preedit_show
  split
  · exact ⟨[], by simp, rfl⟩
  · split
    · exact ⟨[Event.WindowShow], rfl, rfl⟩
    · exact ⟨[], by simp, rfl⟩

/-- Drawing into the preedit window sends no PreeditDraw. -/
theorem preedit_gdk_draw_string_no_draw (s : St H C) (a b : Text) :
    ∃ evs, (nabi_ic_preedit_gdk_draw_string s a b).out = s.out ++ evs
      ∧ preedit_draw_chg_lengths evs = [] := by
  unfold nabi_ic_preedit_gdk_draw_string
  split
  · exact ⟨[], by simp, rfl⟩
  · exact ⟨[Event.WindowDraw a b], rfl, rfl⟩

/-- Drawing into the preedit window sends no PreeditDraw. -/
theorem preedit_draw_string_no_draw (s : St H C) (a b : Text) :
    ∃ evs, (nabi_ic_preedit_draw_string s a b).out = s.out ++ evs
      ∧ preedit_draw_chg_lengths evs = [] := by
  unfold nabi_ic_preedit_draw_string
  split
  · exact ⟨[], by simp, rfl⟩
  · split
    · exact ⟨[], by simp, rfl⟩
    · exact ⟨[Event.WindowDraw a b], rfl, rfl⟩

/-- Two steps that send no PreeditDraw send none together. -/
theorem no_draw_trans {s s1 s2 : St H C}
    (h1 : ∃ evs, s1.out = s.out ++ evs ∧ preedit_draw_chg_lengths evs = [])
    (h2 : ∃ evs, s2.out = s1.out ++ evs ∧ preedit_draw_chg_lengths evs = []) :
    ∃ evs, s2.out = s.out ++ evs ∧ preedit_draw_chg_lengths evs = [] := by
  obtain ⟨e1, ho1, hd1⟩ := h1
  obtain ⟨e2, ho2, hd2⟩ := h2
  refine ⟨e1 ++ e2, by rw [ho2, ho1, List.append_assoc], ?_⟩
  unfold preedit_draw_chg_lengths at *
  rw [List.filterMap_append, hd1, hd2]
  rfl

/-- The PreeditDraw sent by `nabi_ic_preedit_clear`, if any, carries the old
`prev_length`, and `prev_length` is zero afterwards. -/
theorem preedit_clear_draws (s : St H C) :
    (nabi_ic_preedit_clear s).ic.preedit.prev_length = 0
    ∧ ∃ evs, (nabi_ic_preedit_clear s).out = s.out ++ evs
        ∧ (preedit_draw_chg_lengths evs = []
            ∨ preedit_draw_chg_lengths evs = [s.ic.preedit.prev_length])
        ∧ (hasBits s.ic.input_style XIMPreeditCallbacks = true → 0 < s.ic.preedit.prev_length →
            preedit_draw_chg_lengths evs = [s.ic.preedit.prev_length]) := by
  unfold nabi_ic_preedit_clear
  by_cases h0 : s.ic.preedit.prev_length = 0
  · rw [if_pos h0]
    exact ⟨h0, [], by simp, Or.inl rfl, fun _ hp => absurd h0 (by omega)⟩
  · rw [if_neg h0]
    refine ⟨rfl, ?_⟩
    simp only [St.set_prev_length]
    by_cases hcb : hasBits s.ic.input_style XIMPreeditCallbacks = true
    · rw [if_pos hcb]
      exact ⟨[Event.PreeditDraw 0 0 s.ic.preedit.prev_length none [XIMReverse, 0, 0, 0]], rfl,
        Or.inr rfl, fun _ _ => rfl⟩
    · rw [if_neg hcb]
      have hh := preedit_hide_no_draw s
      split_ifs
      · obtain ⟨evs, ho, hd⟩ := hh
        exact ⟨evs, ho, Or.inl hd, fun h => absurd h hcb⟩
      · obtain ⟨evs, ho, hd⟩ := hh
        exact ⟨evs, ho, Or.inl hd, fun h => absurd h hcb⟩
      · obtain ⟨evs, ho, hd⟩ := hh
        exact ⟨evs, ho, Or.inl hd, fun h => absurd h hcb⟩
      · exact ⟨[], by simp, Or.inl rfl, fun h => absurd h hcb⟩

/-- C5: after `nabi_ic_preedit_update`, for any input style, `prev_length` is
the number of scalars of the preedit buffer plus the number of scalars of the
hic preedit string (buffer and hic are not touched by the call); at most one
PreeditDraw is sent, it carries as `chg_length` the `prev_length` held before
the call, and with Callbacks style it is sent whenever the new or the old
length is non-zero. -/
theorem preedit_update_prev_length (D : Deps H C) (s : St H C) :
    (nabi_ic_preedit_update D s).ic.preedit.prev_length
      = s.ic.preedit.str.length + (D.hangul_ic_get_preedit_string s.ic.hic).length
    ∧ (nabi_ic_preedit_update D s).ic.preedit.str = s.ic.preedit.str
    ∧ (nabi_ic_preedit_update D s).ic.hic = s.ic.hic
    ∧ ∃ evs, (nabi_ic_preedit_update D s).out = s.out ++ evs
        ∧ (preedit_draw_chg_lengths evs = []
            ∨ preedit_draw_chg_lengths evs = [s.ic.preedit.prev_length])
        ∧ (hasBits s.ic.input_style XIMPreeditCallbacks = true →
            (0 < s.ic.preedit.str.length + (D.hangul_ic_get_preedit_string s.ic.hic).length
              ∨ 0 < s.ic.preedit.prev_length) →
            preedit_draw_chg_lengths evs = [s.ic.preedit.prev_length]) := by
  have hd := preedit_update_display D s
  refine ⟨?_, hd.str, hd.hic, ?_⟩
  · unfold nabi_ic_preedit_update
    simp only [nabi_ic_get_hic_preedit_string]
    split
    · rename_i h0
      rw [(preedit_clear_draws s).1]
      omega
    · rfl
  · unfold nabi_ic_preedit_update
    simp only [nabi_ic_get_hic_preedit_string]
    split
    · rename_i h0
      obtain ⟨evs, ho, hl, hc⟩ := (preedit_clear_draws s).2
      refine ⟨evs, ho, hl, fun hcb hpos => hc hcb ?_⟩
      omega
    · simp only [St.set_prev_length]
      by_cases hcb : hasBits s.ic.input_style XIMPreeditCallbacks = true
      · rw [if_pos hcb]
        exact ⟨_, rfl, Or.inr rfl, fun _ _ => rfl⟩
      · rw [if_neg hcb]
        split_ifs
        · obtain ⟨evs, ho, hn⟩ := no_draw_trans (preedit_show_no_draw D s)
            (preedit_draw_string_no_draw (nabi_ic_preedit_show D s) s.ic.preedit.str
              (D.hangul_ic_get_preedit_string s.ic.hic))
          exact ⟨evs, ho, Or.inl hn, fun h => absurd h hcb⟩
        · obtain ⟨evs, ho, hn⟩ := no_draw_trans (preedit_show_no_draw D s)
            (preedit_gdk_draw_string_no_draw (nabi_ic_preedit_show D s) s.ic.preedit.str
              (D.hangul_ic_get_preedit_string s.ic.hic))
          exact ⟨evs, ho, Or.inl hn, fun h => absurd h hcb⟩
        · obtain ⟨evs, ho, hn⟩ := no_draw_trans (preedit_show_no_draw D s)
            (preedit_gdk_draw_string_no_draw (nabi_ic_preedit_show D s) s.ic.preedit.str
              (D.hangul_ic_get_preedit_string s.ic.hic))
          exact ⟨evs, ho, Or.inl hn, fun h => absurd h hcb⟩
        · exact ⟨[], by simp, Or.inl rfl, fun h => absurd h hcb⟩

/-- C5, at a concrete input: a Callbacks IC showing two scalars redraws after
the buffer grew to one syllable plus one hic scalar. -/
theorem preedit_update_prev_length_witness :
    (nabi_ic_preedit_update toyDeps
        ((toySt ⟨[0xb098], []⟩ [0xac00] none none "hanja").set_prev_length 5)).ic.preedit.prev_length
      = 2
    ∧ preedit_draw_chg_lengths (nabi_ic_preedit_update toyDeps
        ((toySt ⟨[0xb098], []⟩ [0xac00] none none "hanja").set_prev_length 5)).out = [5] :=
  ⟨(preedit_update_prev_length toyDeps
      ((toySt ⟨[0xb098], []⟩ [0xac00] none none "hanja").set_prev_length 5)).1, by decide⟩

end PreeditLength

section Boundary

/-- What `is_syllable_boundary` computes for arbitrary class tests: the
branches are tried in the order choseong, jungseong, jongseong. -/
theorem is_syllable_boundary_false_iff (J : JamoClass) (prev next : Nat) :
    is_syllable_boundary J prev next = false ↔
      (J.hangul_is_choseong prev = true
          ∧ (J.hangul_is_choseong next = true ∨ J.hangul_is_jungseong next = true))
      ∨ (J.hangul_is_choseong prev = false ∧ J.hangul_is_jungseong prev = true
          ∧ (J.hangul_is_jungseong next = true ∨ J.hangul_is_jongseong next = true))
      ∨ (J.hangul_is_choseong prev = false ∧ J.hangul_is_jungseong prev = false
          ∧ J.hangul_is_jongseong prev = true ∧ J.hangul_is_jongseong next = true) := by
  unfold is_syllable_boundary
  cases J.hangul_is_choseong prev <;> cases J.hangul_is_jungseong prev <;>
    cases J.hangul_is_jongseong prev <;> cases J.hangul_is_choseong next <;>
    cases J.hangul_is_jungseong next <;> cases J.hangul_is_jongseong next <;> simp

/-- The Unicode jamo ranges are pairwise disjoint. -/
theorem unicodeJamo_disjoint : unicodeJamo.Disjoint := by
  intro c
  simp only [unicodeJamo, decide_eq_true_eq, decide_eq_false_iff_not]
  omega

/-- C7: for jamo classes that are pairwise disjoint, `is_syllable_boundary`
returns FALSE exactly when prev is choseong and next is choseong or jungseong,
or prev is jungseong and next is jungseong or jongseong, or prev and next are
both jongseong; in particular it returns TRUE whenever prev is not a jamo. -/
theorem is_syllable_boundary_spec (J : JamoClass) (hJ : J.Disjoint) (prev next : Nat) :
    (is_syllable_boundary J prev next = false ↔
      (J.hangul_is_choseong prev = true
          ∧ (J.hangul_is_choseong next = true ∨ J.hangul_is_jungseong next = true))
      ∨ (J.hangul_is_jungseong prev = true
          ∧ (J.hangul_is_jungseong next = true ∨ J.hangul_is_jongseong next = true))
      ∨ (J.hangul_is_jongseong prev = true ∧ J.hangul_is_jongseong next = true))
    ∧ (J.hangul_is_choseong prev = false → J.hangul_is_jungseong prev = false →
        J.hangul_is_jongseong prev = false → is_syllable_boundary J prev next = true) := by
  have hp := hJ prev
  unfold is_syllable_boundary
  revert hp
  cases J.hangul_is_choseong prev <;> cases J.hangul_is_jungseong prev <;>
    cases J.hangul_is_jongseong prev <;> cases J.hangul_is_choseong next <;>
    cases J.hangul_is_jungseong next <;> cases J.hangul_is_jongseong next <;> simp

/-- C7, at a concrete input: between a choseong and a jungseong of the Unicode
jamo block there is no boundary, and after a Latin letter there is one. -/
theorem is_syllable_boundary_spec_witness :
    is_syllable_boundary unicodeJamo 0x1100 0x1161 = false
    ∧ is_syllable_boundary unicodeJamo 0x61 0x1161 = true :=
  ⟨(is_syllable_boundary_spec unicodeJamo unicodeJamo_disjoint 0x1100 0x1161).1.mpr
      (Or.inl ⟨by decide, Or.inr (by decide)⟩),
    (is_syllable_boundary_spec unicodeJamo unicodeJamo_disjoint 0x61 0x1161).2
      (by decide) (by decide) (by decide)⟩

end Boundary

end Nabi

namespace Nabi

section SyllableIterator

/-- The loop of `ustr_syllable_iter_prev` never moves forward. -/
theorem iter_prev_loop_le (J : JamoClass) (buf : List Nat) (b : Nat) :
    ∀ i, ustr_syllable_iter_prev_loop J buf b i ≤ i
  | 0 => by simp [ustr_syllable_iter_prev_loop]
  | i + 1 => by
    unfold ustr_syllable_iter_prev_loop
    split_ifs
    · exact Nat.le_refl _
    · exact Nat.le_succ_of_le (iter_prev_loop_le J buf b i)
    · exact Nat.le_refl _

/-- From a position after the start, `ustr_syllable_iter_prev` moves back by
at least one scalar. -/
theorem iter_prev_lt (J : JamoClass) (buf : List Nat) (iter : Nat) (h : 0 < iter) :
    ustr_syllable_iter_prev J buf iter 0 < iter := by
  unfold ustr_syllable_iter_prev
  rw [if_pos h]
  have := iter_prev_loop_le J buf 0 (iter - 1)
  omega

/-- The loop only reads the scalars up to its starting index. -/
theorem iter_prev_loop_congr (J : JamoClass) (buf buf1 : List Nat) (b : Nat) :
    ∀ i, (∀ j, j ≤ i → buf.getD j 0 = buf1.getD j 0) →
      ustr_syllable_iter_prev_loop J buf b i = ustr_syllable_iter_prev_loop J buf1 b i
  | 0, _ => by simp [ustr_syllable_iter_prev_loop]
  | i + 1, h => by
    unfold ustr_syllable_iter_prev_loop
    rw [h i (Nat.le_succ i), h (i + 1) (Nat.le_refl _),
      iter_prev_loop_congr J buf buf1 b i (fun j hj => h j (Nat.le_succ_of_le hj))]

/-- The result of `ustr_syllable_iter_prev` depends only on the scalars before
`iter`. -/
theorem iter_prev_congr (J : JamoClass) (buf buf1 : List Nat) (iter : Nat)
    (h : ∀ j, j < iter → buf.getD j 0 = buf1.getD j 0) :
    ustr_syllable_iter_prev J buf iter 0 = ustr_syllable_iter_prev J buf1 iter 0 := by
  unfold ustr_syllable_iter_prev
  by_cases hi : iter > 0
  · rw [if_pos hi]
    exact iter_prev_loop_congr J buf buf1 0 (iter - 1) (fun j hj => h j (by omega))
  · have : iter = 0 := by omega
    subst this
    simp [ustr_syllable_iter_prev_loop]

/-- Reading a prefix below its length reads the list. -/
theorem getD_take_of_lt (buf : List Nat) (p j : Nat) (h : j < p) :
    (buf.take p).getD j 0 = buf.getD j 0 := by
  simp [List.getD_eq_getElem?_getD, List.getElem?_take, h]

end SyllableIterator

end Nabi

namespace Nabi

section WordCommit

variable {H C : Type}

/-- The toy automaton satisfies the automaton contract. -/
theorem toyDeps_contract : HicContract toyDeps where
  flush_preedit _ := rfl
  flush_empty _ := rfl
  reset_empty _ := rfl
  empty_iff h := by
    show h.preedit.isEmpty = true ↔ h.preedit = []
    exact List.isEmpty_iff

/-- C10: with commit_by_word on, `nabi_ic_commit` appends the hic commit
scalars to the preedit buffer.  While hic is non-empty nothing at all is sent.
When hic is empty the whole buffer, old buffer followed by the hic commit
scalars, is sent in exactly one Commit if it is non-empty (none otherwise),
and the buffer is cleared. -/
theorem word_commit_step (D : Deps H C) (hD : HicContract D) (s : St H C)
    (hw : s.server.commit_by_word = true) :
    (D.hangul_ic_is_empty s.ic.hic = false →
        (nabi_ic_commit D s).2.ic.preedit.str
          = s.ic.preedit.str ++ D.hangul_ic_get_commit_string s.ic.hic
        ∧ (nabi_ic_commit D s).2.out = s.out
        ∧ (nabi_ic_commit D s).2.ic.hic = s.ic.hic)
    ∧ (D.hangul_ic_is_empty s.ic.hic = true →
        (nabi_ic_commit D s).2.ic.preedit.str = []
        ∧ commit_texts (nabi_ic_commit D s).2.out
            = commit_texts s.out
              ++ (if s.ic.preedit.str ++ D.hangul_ic_get_commit_string s.ic.hic = [] then []
                  else [s.ic.preedit.str ++ D.hangul_ic_get_commit_string s.ic.hic])) := by
  unfold nabi_ic_commit
  rw [if_pos hw]
  simp only [ustring_append]
  refine ⟨?_, ?_⟩
  · intro hne
    have h1 : D.hangul_ic_is_empty
        (s.set_str (s.ic.preedit.str ++ D.hangul_ic_get_commit_string s.ic.hic)).ic.hic = false :=
      hne
    rw [h1]
    exact ⟨rfl, rfl, rfl⟩
  · intro he
    have h1 : D.hangul_ic_is_empty
        (s.set_str (s.ic.preedit.str ++ D.hangul_ic_get_commit_string s.ic.hic)).ic.hic = true :=
      he
    rw [h1]
    simp only [if_true]
    have hf := flush_fields D (s.set_str (s.ic.preedit.str ++ D.hangul_ic_get_commit_string s.ic.hic))
    have hfl : (D.hangul_ic_flush s.ic.hic).1 = [] := by
      rw [hD.flush_preedit]
      exact (hD.empty_iff _).mp he
    refine ⟨hf.1, ?_⟩
    rw [hf.2.2.2.2]
    show commit_texts s.out ++ (if (s.ic.preedit.str ++ D.hangul_ic_get_commit_string s.ic.hic)
          ++ (D.hangul_ic_flush s.ic.hic).1 = [] then []
        else [(s.ic.preedit.str ++ D.hangul_ic_get_commit_string s.ic.hic)
          ++ (D.hangul_ic_flush s.ic.hic).1]) = _
    rw [hfl, List.append_nil]

/-- C10, at a concrete input: the toy automaton has just committed one
syllable and is empty, the buffer holds another; both go out in one Commit. -/
theorem word_commit_step_witness :
    (nabi_ic_commit toyDeps (toySt ⟨[], [0xb098]⟩ [0xac00] none none "hanja")).2.ic.preedit.str = []
    ∧ commit_texts (nabi_ic_commit toyDeps (toySt ⟨[], [0xb098]⟩ [0xac00] none none "hanja")).2.out
        = [[0xac00, 0xb098]] :=
  (word_commit_step toyDeps toyDeps_contract (toySt ⟨[], [0xb098]⟩ [0xac00] none none "hanja")
    rfl).2 rfl

end WordCommit

end Nabi

namespace Nabi

section InsertCandidate

variable {H C : Type}

/-- The first retraction block only replaces hic. -/
theorem retract_hic_state (D : Deps H C) (s : St H C) (k : Nat) :
    (retract_hic D s k).1 = s.set_hic (retract_hic D s k).1.ic.hic := by
  unfold retract_hic
  split_ifs <;> rfl

/-- The automaton after the first retraction block: reset when the key is
non-empty and hic was not empty. -/
theorem retract_hic_hic (D : Deps H C) (s : St H C) (k : Nat) :
    (retract_hic D s k).1.ic.hic
      = if k > 0 ∧ D.hangul_ic_is_empty s.ic.hic = false then D.hangul_ic_reset s.ic.hic
        else s.ic.hic := by
  unfold retract_hic
  by_cases hk : k > 0
  · cases he : D.hangul_ic_is_empty s.ic.hic <;> simp [hk, he, St.set_hic]
  · simp [hk]

/-- The fields of the state after the retraction part of
`nabi_ic_insert_candidate`. -/
theorem retract_fields (D : Deps H C) (s : St H C) (k : Nat) :
    (nabi_ic_insert_candidate_retract D s k).1.ic.hic = (retract_hic D s k).1.ic.hic
    ∧ (nabi_ic_insert_candidate_retract D s k).1.ic.preedit.str
        = (retract_preedit_loop D.jamo (retract_hic D s k).2 s.ic.preedit.str
            (ustring_length s.ic.preedit.str)).1
    ∧ (nabi_ic_insert_candidate_retract D s k).1.ic.input_style = s.ic.input_style
    ∧ (nabi_ic_insert_candidate_retract D s k).1.ic.client_text = s.ic.client_text
    ∧ (nabi_ic_insert_candidate_retract D s k).1.ic.candidate = s.ic.candidate
    ∧ (nabi_ic_insert_candidate_retract D s k).1.server = s.server
    ∧ (nabi_ic_insert_candidate_retract D s k).1.connection = s.connection
    ∧ commit_texts (nabi_ic_insert_candidate_retract D s k).1.out = commit_texts s.out := by
  unfold nabi_ic_insert_candidate_retract
  simp only []
  rw [retract_hic_state D s k]
  cases hct : s.ic.client_text with
  | none =>
    have h2 : ((s.set_hic (retract_hic D s k).1.ic.hic).set_str
        (retract_preedit_loop D.jamo (retract_hic D s k).2
          (s.set_hic (retract_hic D s k).1.ic.hic).ic.preedit.str
          (ustring_length (s.set_hic (retract_hic D s k).1.ic.hic).ic.preedit.str)).1).ic.client_text
        = none := hct
    simp only [h2]
    exact ⟨rfl, rfl, rfl, trivial, rfl, rfl, rfl, rfl⟩
  | some ct =>
    have h2 : ((s.set_hic (retract_hic D s k).1.ic.hic).set_str
        (retract_preedit_loop D.jamo (retract_hic D s k).2
          (s.set_hic (retract_hic D s k).1.ic.hic).ic.preedit.str
          (ustring_length (s.set_hic (retract_hic D s k).1.ic.hic).ic.preedit.str)).1).ic.client_text
        = some ct := hct
    simp only [h2]
    refine ⟨rfl, rfl, rfl, hct, rfl, rfl, rfl, ?_⟩
    simp [nabi_ic_delete_client_text, St.emit, St.set_str, St.set_hic, commit_texts,
      Event.commit_text]

/-- C9 as stated fails: for an entry with an empty key (and the value 家) the
automaton is not reset, so the hic preedit is still 가 after the insertion. -/
theorem insert_candidate_empty_key_counterexample :
    toyDeps.nabi_server_is_valid_ic (toySt ⟨[0xac00], []⟩ [] none none "hanja(hangul)").ic.id = true
    ∧ (⟨[], [0x5bb6]⟩ : Hanja).value ≠ []
    ∧ (toySt ⟨[0xac00], []⟩ [] none none "hanja(hangul)").server.use_simplified_chinese = false
    ∧ toyDeps.hangul_ic_get_preedit_string
        (nabi_ic_insert_candidate toyDeps (toySt ⟨[0xac00], []⟩ [] none none "hanja(hangul)")
          (some ⟨[], [0x5bb6]⟩)).ic.hic = [0xac00] := by
  decide

/-- C9, amended: for a valid IC, Simplified-Chinese conversion disabled, and an
entry whose key and value are both non-empty, `nabi_ic_insert_candidate` sends
exactly one Commit; with L the preedit buffer left by the retraction its text
is L ++ value for format "hanja", L ++ value ++ "(" ++ key ++ ")" for
"hanja(hangul)" and L ++ key ++ "(" ++ value ++ ")" for "hangul(hanja)".
Afterwards the preedit buffer is empty, client_text is empty or absent, the hic
preedit is empty, and `nabi_ic_candidate_process`, the caller, leaves the IC
without candidate window. -/
theorem insert_candidate_commit (D : Deps H C) (hD : HicContract D) (s : St H C) (h : Hanja)
    (hvalid : D.nabi_server_is_valid_ic s.ic.id = true)
    (hval : h.value ≠ []) (hkey : h.key ≠ [])
    (hsc : s.server.use_simplified_chinese = false) :
    commit_texts (nabi_ic_insert_candidate D s (some h)).out
        = commit_texts s.out
          ++ [candidate_text s.server.candidate_format
                (nabi_ic_insert_candidate_retract D s h.key.length).1.ic.preedit.str h.value h.key]
    ∧ (∀ L, candidate_text "hanja" L h.value h.key = L ++ h.value)
    ∧ (∀ L, candidate_text "hanja(hangul)" L h.value h.key = L ++ h.value ++ [0x28] ++ h.key ++ [0x29])
    ∧ (∀ L, candidate_text "hangul(hanja)" L h.value h.key = L ++ h.key ++ [0x28] ++ h.value ++ [0x29])
    ∧ (nabi_ic_insert_candidate D s (some h)).ic.preedit.str = []
    ∧ (nabi_ic_insert_candidate D s (some h)).ic.client_text.getD [] = []
    ∧ D.hangul_ic_get_preedit_string (nabi_ic_insert_candidate D s (some h)).ic.hic = []
    ∧ (∀ (c : C) (keyval : Nat) (s0 s1 : St H C),
        nabi_ic_candidate_switch D s0 c keyval = some (s1, some h) →
        (nabi_ic_candidate_process D s0 c keyval).2.ic.candidate = none) := by
  have hr := retract_fields D s h.key.length
  have hvlen : h.value.length > 0 := List.length_pos.mpr hval
  have hklen : h.key.length > 0 := List.length_pos.mpr hkey
  have hsc3 : (nabi_ic_insert_candidate_retract D s h.key.length).1.server.use_simplified_chinese
      = false := by rw [hr.2.2.2.2.2.1, hsc]
  have hleft : (if ustring_length (nabi_ic_insert_candidate_retract D s h.key.length).1.ic.preedit.str
        > 0 then (nabi_ic_insert_candidate_retract D s h.key.length).1.ic.preedit.str else [])
      = (nabi_ic_insert_candidate_retract D s h.key.length).1.ic.preedit.str := by
    split
    · rfl
    · rename_i hn
      unfold ustring_length at hn
      exact (List.length_eq_zero.mp (by omega)).symm
  have hdef : nabi_ic_insert_candidate D s (some h)
      = nabi_ic_preedit_update D
          (match ((nabi_ic_commit_utf8 (nabi_ic_insert_candidate_retract D s h.key.length).1
              (candidate_text s.server.candidate_format
                (nabi_ic_insert_candidate_retract D s h.key.length).1.ic.preedit.str
                h.value h.key)).set_str []).ic.client_text with
            | none => (nabi_ic_commit_utf8 (nabi_ic_insert_candidate_retract D s h.key.length).1
              (candidate_text s.server.candidate_format
                (nabi_ic_insert_candidate_retract D s h.key.length).1.ic.preedit.str
                h.value h.key)).set_str []
            | some ct => ((nabi_ic_commit_utf8 (nabi_ic_insert_candidate_retract D s h.key.length).1
              (candidate_text s.server.candidate_format
                (nabi_ic_insert_candidate_retract D s h.key.length).1.ic.preedit.str
                h.value h.key)).set_str []).set_client_text (some (ustring_clear ct))) := by
    unfold nabi_ic_insert_candidate
    simp only [hvalid, Bool.not_true, Bool.false_eq_true, if_false, if_pos hvlen, hsc3, hleft,
      ustring_clear, hr.2.2.2.2.2.1, hsc]
  have hcu := commit_utf8_fields (nabi_ic_insert_candidate_retract D s h.key.length).1
    (candidate_text s.server.candidate_format
      (nabi_ic_insert_candidate_retract D s h.key.length).1.ic.preedit.str h.value h.key)
  have hhic : D.hangul_ic_get_preedit_string (retract_hic D s h.key.length).1.ic.hic = [] := by
    rw [retract_hic_hic]
    cases he : D.hangul_ic_is_empty s.ic.hic with
    | true =>
      rw [if_neg (by simp)]
      exact (hD.empty_iff _).mp he
    | false =>
      rw [if_pos ⟨hklen, rfl⟩]
      exact (hD.empty_iff _).mp (hD.reset_empty _)
  rw [hdef]
  have hu := fun x => preedit_update_display D x
  refine ⟨?_, ?_, ?_, ?_, ?_, ?_, ?_, ?_⟩
  · rw [(hu _).commits]
    split <;> (show commit_texts (nabi_ic_commit_utf8 _ _).out = _) <;> rw [hcu.2.2.2.2.2.2, hr.2.2.2.2.2.2.2]
  · intro L
    simp [candidate_text]
  · intro L
    simp [candidate_text]
  · intro L
    simp [candidate_text]
  · rw [(hu _).str]
    split <;> rfl
  · rw [(hu _).client_text]
    split
    · rename_i hn
      simp [St.set_str] at hn ⊢
      rw [hn]
      rfl
    · rfl
  · rw [(hu _).hic]
    have : ∀ x : St H C, x.ic.hic = (retract_hic D s h.key.length).1.ic.hic →
        D.hangul_ic_get_preedit_string x.ic.hic = [] := fun x hx => by rw [hx]; exact hhic
    apply this
    split <;> (show (nabi_ic_commit_utf8 _ _).ic.hic = _) <;> rw [hcu.1, hr.1]
  · intro c keyval s0 s1 hsw
    unfold nabi_ic_candidate_process
    rw [hsw]
    rfl

/-- C9 amended, at the input of scenario E6: hic preedit 가, entry 가→家,
format "hanja(hangul)": the single Commit is 家(가) and everything is empty
afterwards. -/
theorem insert_candidate_commit_witness :
    commit_texts (nabi_ic_insert_candidate toyDeps
        (toySt ⟨[0xac00], []⟩ [] none none "hanja(hangul)") (some ⟨[0xac00], [0x5bb6]⟩)).out
      = [[0x5bb6, 0x28, 0xac00, 0x29]]
    ∧ (nabi_ic_insert_candidate toyDeps
        (toySt ⟨[0xac00], []⟩ [] none none "hanja(hangul)")
        (some ⟨[0xac00], [0x5bb6]⟩)).ic.preedit.str = []
    ∧ toyDeps.hangul_ic_get_preedit_string (nabi_ic_insert_candidate toyDeps
        (toySt ⟨[0xac00], []⟩ [] none none "hanja(hangul)")
        (some ⟨[0xac00], [0x5bb6]⟩)).ic.hic = [] :=
  ⟨(insert_candidate_commit toyDeps toyDeps_contract
      (toySt ⟨[0xac00], []⟩ [] none none "hanja(hangul)") ⟨[0xac00], [0x5bb6]⟩
      rfl (by decide) (by decide) rfl).1,
    by decide, by decide⟩

end InsertCandidate

end Nabi

namespace Nabi

section Retraction

variable {H C : Type}

/-- Erasing from `pos` to the end keeps the first `pos` scalars. -/
theorem ustring_erase_to_end (u : UString) (pos : Nat) (h : pos ≤ u.length) :
    ustring_erase u pos (ustring_length u - pos) = u.take pos := by
  unfold ustring_erase ustring_length
  rw [show pos + (u.length - pos) = u.length by omega, List.drop_length, List.append_nil]

end Retraction

end Nabi

namespace Nabi

section RoundTrip

/-- Inside a run of choseong there is no boundary. -/
theorem boundary_cho_cho (J : JamoClass) (p n : Nat) (hp : J.hangul_is_choseong p = true)
    (hn : J.hangul_is_choseong n = true) : is_syllable_boundary J p n = false := by
  unfold is_syllable_boundary
  simp [hp, hn]

/-- Between a choseong and a jungseong there is no boundary. -/
theorem boundary_cho_jung (J : JamoClass) (p n : Nat) (hp : J.hangul_is_choseong p = true)
    (hn : J.hangul_is_jungseong n = true) : is_syllable_boundary J p n = false := by
  unfold is_syllable_boundary
  simp [hp, hn]

/-- After a jungseong, a jungseong or jongseong continues the syllable. -/
theorem boundary_jung_next (J : JamoClass) (hJ : J.Disjoint) (p n : Nat)
    (hp : J.hangul_is_jungseong p = true)
    (hn : J.hangul_is_jungseong n = true ∨ J.hangul_is_jongseong n = true) :
    is_syllable_boundary J p n = false := by
  have h1 := hJ p
  unfold is_syllable_boundary
  revert h1 hn
  rw [hp]
  cases J.hangul_is_choseong p <;> cases J.hangul_is_jungseong n <;>
    cases J.hangul_is_jongseong n <;> simp

/-- Inside a run of jongseong there is no boundary. -/
theorem boundary_jong_jong (J : JamoClass) (hJ : J.Disjoint) (p n : Nat)
    (hp : J.hangul_is_jongseong p = true) (hn : J.hangul_is_jongseong n = true) :
    is_syllable_boundary J p n = false := by
  have h1 := hJ p
  unfold is_syllable_boundary
  revert h1
  rw [hp, hn]
  cases J.hangul_is_choseong p <;> cases J.hangul_is_jungseong p <;> simp

/-- Between the end of a syllable and the choseong starting the next there is
a boundary. -/
theorem boundary_end_start (J : JamoClass) (hJ : J.Disjoint) (p n : Nat)
    (hp : J.hangul_is_jungseong p = true ∨ J.hangul_is_jongseong p = true)
    (hn : J.hangul_is_choseong n = true) : is_syllable_boundary J p n = true := by
  have h1 := hJ p
  have h2 := hJ n
  unfold is_syllable_boundary
  revert h1 h2 hp
  rw [hn]
  cases J.hangul_is_choseong p <;> cases J.hangul_is_jungseong p <;>
    cases J.hangul_is_jongseong p <;> cases J.hangul_is_jungseong n <;>
    cases J.hangul_is_jongseong n <;> simp

/-- An in-range read returns a member of the list. -/
theorem getD_mem_of_lt (l : List Nat) (i : Nat) (h : i < l.length) : l.getD i 0 ∈ l := by
  rw [List.getD_eq_getElem l 0 h]
  exact List.getElem_mem h

/-- The shape of a well-formed syllable, by index: it starts with a choseong,
ends with a jungseong or jongseong, and has no boundary inside. -/
theorem wellFormed_index (J : JamoClass) (hJ : J.Disjoint) (s : List Nat)
    (h : WellFormedSyllable J s) :
    0 < s.length
    ∧ J.hangul_is_choseong (s.getD 0 0) = true
    ∧ (J.hangul_is_jungseong (s.getD (s.length - 1) 0) = true
        ∨ J.hangul_is_jongseong (s.getD (s.length - 1) 0) = true)
    ∧ ∀ k, k + 1 < s.length → is_syllable_boundary J (s.getD k 0) (s.getD (k + 1) 0) = false := by
  obtain ⟨ls, vs, ts, rfl, hl, hv, hL, hV, hT⟩ := h
  have ha : 0 < ls.length := List.length_pos.mpr hl
  have hb : 0 < vs.length := List.length_pos.mpr hv
  have hlen : (ls ++ vs ++ ts).length = ls.length + vs.length + ts.length := by
    rw [List.length_append, List.length_append]
  have hcho : ∀ i, i < ls.length → J.hangul_is_choseong ((ls ++ vs ++ ts).getD i 0) = true := by
    intro i hi
    rw [List.getD_append _ _ _ i (by simp [List.length_append]; omega),
      List.getD_append _ _ _ i hi]
    exact hL _ (getD_mem_of_lt ls i hi)
  have hjung : ∀ i, ls.length ≤ i → i < ls.length + vs.length →
      J.hangul_is_jungseong ((ls ++ vs ++ ts).getD i 0) = true := by
    intro i h1 h2
    rw [List.getD_append _ _ _ i (by simp [List.length_append]; omega),
      List.getD_append_right _ _ _ i h1]
    exact hV _ (getD_mem_of_lt vs _ (by omega))
  have hjong : ∀ i, ls.length + vs.length ≤ i → i < ls.length + vs.length + ts.length →
      J.hangul_is_jongseong ((ls ++ vs ++ ts).getD i 0) = true := by
    intro i h1 h2
    rw [List.getD_append_right _ _ _ i (by simp [List.length_append]; omega)]
    exact hT _ (getD_mem_of_lt ts _ (by simp [List.length_append]; omega))
  refine ⟨by omega, hcho 0 ha, ?_, ?_⟩
  · rw [hlen]
    by_cases hc : ts.length = 0
    · exact Or.inl (hjung _ (by omega) (by omega))
    · exact Or.inr (hjong _ (by omega) (by omega))
  · intro k hk
    rw [hlen] at hk
    by_cases h1 : k + 1 < ls.length
    · exact boundary_cho_cho J _ _ (hcho k (by omega)) (hcho (k + 1) h1)
    · by_cases h2 : k < ls.length
      · exact boundary_cho_jung J _ _ (hcho k h2) (hjung (k + 1) (by omega) (by omega))
      · by_cases h3 : k + 1 < ls.length + vs.length
        · exact boundary_jung_next J hJ _ _ (hjung k (by omega) (by omega))
            (Or.inl (hjung (k + 1) (by omega) h3))
        · by_cases h4 : k < ls.length + vs.length
          · exact boundary_jung_next J hJ _ _ (hjung k (by omega) h4)
              (Or.inr (hjong (k + 1) (by omega) (by omega)))
          · exact boundary_jong_jong J hJ _ _ (hjong k (by omega) (by omega))
              (hjong (k + 1) (by omega) (by omega))

/-- Inside a well-formed syllable placed at offset `pre.length` the loop walks
down to the first scalar of the syllable. -/
theorem iter_prev_loop_walk (J : JamoClass) (pre s post : List Nat)
    (hadj : ∀ k, k + 1 < s.length → is_syllable_boundary J (s.getD k 0) (s.getD (k + 1) 0) = false) :
    ∀ j, j < s.length →
      ustr_syllable_iter_prev_loop J (pre ++ s ++ post) 0 (pre.length + j)
        = ustr_syllable_iter_prev_loop J (pre ++ s ++ post) 0 pre.length
  | 0, _ => rfl
  | j + 1, hj => by
    have hread : ∀ i, i < s.length → (pre ++ s ++ post).getD (pre.length + i) 0 = s.getD i 0 := by
      intro i hi
      rw [List.getD_append _ _ _ _ (by simp [List.length_append]; omega),
        List.getD_append_right _ _ _ _ (by omega)]
      congr 1
      omega
    rw [show pre.length + (j + 1) = (pre.length + j) + 1 from rfl]
    conv_lhs => unfold ustr_syllable_iter_prev_loop
    rw [if_pos (by omega), hread j (by omega),
      show pre.length + j + 1 = pre.length + (j + 1) from rfl, hread (j + 1) hj,
      hadj j hj]
    simp only [Bool.false_eq_true, if_false]
    exact iter_prev_loop_walk J pre s post hadj j (by omega)

/-- One call of the iterator from the end of a well-formed syllable lands on
its start, provided the text before it is empty or ends a syllable. -/
theorem iter_prev_syllable (J : JamoClass) (hJ : J.Disjoint) (pre s post : List Nat)
    (hs : WellFormedSyllable J s)
    (hpre : pre ≠ [] → J.hangul_is_jungseong (pre.getD (pre.length - 1) 0) = true
      ∨ J.hangul_is_jongseong (pre.getD (pre.length - 1) 0) = true) :
    ustr_syllable_iter_prev J (pre ++ s ++ post) (pre.length + s.length) 0 = pre.length := by
  obtain ⟨hlen, hfirst, -, hadj⟩ := wellFormed_index J hJ s hs
  unfold ustr_syllable_iter_prev
  rw [if_pos (by omega), show pre.length + s.length - 1 = pre.length + (s.length - 1) by omega,
    iter_prev_loop_walk J pre s post hadj (s.length - 1) (by omega)]
  by_cases hnil : pre = []
  · subst hnil
    rfl
  · have hlast := hpre hnil
    have hp : 0 < pre.length := List.length_pos.mpr hnil
    obtain ⟨m, hm⟩ : ∃ m, pre.length = m + 1 := ⟨pre.length - 1, by omega⟩
    rw [hm]
    unfold ustr_syllable_iter_prev_loop
    rw [if_pos (by omega)]
    have h1 : (pre ++ s ++ post).getD m 0 = pre.getD (pre.length - 1) 0 := by
      rw [List.getD_append _ _ _ _ (by simp [List.length_append]; omega),
        List.getD_append _ _ _ _ (by omega)]
      congr 1
      omega
    have h2 : (pre ++ s ++ post).getD (m + 1) 0 = s.getD 0 0 := by
      rw [List.getD_append _ _ _ _ (by simp [List.length_append]; omega),
        List.getD_append_right _ _ _ _ (by omega)]
      congr 1
      omega
    rw [h1, h2, boundary_end_start J hJ _ _ hlast hfirst]
    simp

/-- The start offsets of a sequence with one more syllable at the end. -/
theorem syllable_starts_append (init : List (List Nat)) (s : List Nat) :
    syllable_starts (init ++ [s]) = syllable_starts init ++ [init.flatten.length] := by
  induction init with
  | nil => simp [syllable_starts]
  | cons a init ih =>
    show 0 :: (syllable_starts (init ++ [s])).map (fun p => a.length + p)
      = 0 :: (syllable_starts init).map (fun p => a.length + p) ++ [(a :: init).flatten.length]
    rw [ih]
    simp

/-- There is one start offset per syllable. -/
theorem syllable_starts_length (syls : List (List Nat)) :
    (syllable_starts syls).length = syls.length := by
  induction syls with
  | nil => rfl
  | cons a rest ih => simp [syllable_starts, ih]

/-- A non-empty concatenation of well-formed syllables ends with a jungseong
or a jongseong. -/
theorem flatten_last (J : JamoClass) (hJ : J.Disjoint) (syls : List (List Nat))
    (hwf : ∀ s ∈ syls, WellFormedSyllable J s) (hne : syls.flatten ≠ []) :
    J.hangul_is_jungseong (syls.flatten.getD (syls.flatten.length - 1) 0) = true
    ∨ J.hangul_is_jongseong (syls.flatten.getD (syls.flatten.length - 1) 0) = true := by
  rcases List.eq_nil_or_concat syls with rfl | ⟨init, s, rfl⟩
  · exact absurd rfl hne
  · rw [List.concat_eq_append] at hwf hne ⊢
    obtain ⟨hlen, -, hlast, -⟩ := wellFormed_index J hJ s (hwf s (by simp))
    have hfl : (init ++ [s]).flatten = init.flatten ++ s := by simp
    rw [hfl, List.length_append,
      List.getD_append_right _ _ _ _ (by omega),
      show init.flatten.length + s.length - 1 - init.flatten.length = s.length - 1 by omega]
    exact hlast

/-- Iterating backward from the end of a concatenation of well-formed
syllables visits exactly the syllable starts, last syllable first. -/
theorem positions_flatten (J : JamoClass) (hJ : J.Disjoint) (syls : List (List Nat)) :
    (∀ s ∈ syls, WellFormedSyllable J s) → ∀ (post : List Nat) (fuel : Nat),
      syls.flatten.length ≤ fuel →
      syllable_iter_positions J (syls.flatten ++ post) fuel syls.flatten.length
        = (syllable_starts syls).reverse := by
  induction syls using List.reverseRecOn with
  | nil =>
    intro _ post fuel _
    cases fuel <;> simp [syllable_iter_positions, syllable_starts]
  | append_singleton init s ih =>
    intro hwf post fuel hfuel
    have hs : WellFormedSyllable J s := hwf s (by simp)
    have hinit : ∀ x ∈ init, WellFormedSyllable J x := fun x hx => hwf x (by simp [hx])
    have hlen := (wellFormed_index J hJ s hs).1
    have hfl : (init ++ [s]).flatten = init.flatten ++ s := by simp
    rw [hfl] at hfuel ⊢
    rw [List.length_append] at hfuel ⊢
    obtain ⟨f, rfl⟩ : ∃ f, fuel = f + 1 := ⟨fuel - 1, by omega⟩
    have hp := iter_prev_syllable J hJ init.flatten s post hs (flatten_last J hJ init hinit)
    conv_lhs => unfold syllable_iter_positions
    rw [if_pos (by omega), hp, List.append_assoc, ih hinit (s ++ post) f (by omega),
      syllable_starts_append, List.reverse_append]
    rfl

/-- The segments cut at the syllable starts are the syllables. -/
theorem segments_flatten (syls : List (List Nat)) :
    ∀ (post : List Nat),
      iter_segments (syls.flatten ++ post) syls.flatten.length (syllable_starts syls).reverse
        = syls := by
  induction syls using List.reverseRecOn with
  | nil =>
    intro post
    rfl
  | append_singleton init s ih =>
    intro post
    have hfl : (init ++ [s]).flatten = init.flatten ++ s := by simp
    rw [hfl, syllable_starts_append, List.reverse_append, List.length_append]
    show iter_segments _ _ (init.flatten.length :: (syllable_starts init).reverse) = _
    unfold iter_segments
    rw [List.append_assoc, ih (s ++ post), List.drop_left,
      show init.flatten.length + s.length - init.flatten.length = s.length by omega,
      List.take_left]

/-- C8: for jamo classes that are pairwise disjoint and a sequence made of n
well-formed syllables (choseong+ jungseong+ jongseong*), repeating
`ustr_syllable_iter_prev` from the end reaches the beginning in exactly n
steps, the positions visited are the starts of the syllables (last syllable
first), and the segments between consecutive positions, in buffer order, are
the syllables themselves, so their concatenation is the original sequence. -/
theorem syllable_iter_round_trip (J : JamoClass) (hJ : J.Disjoint) (syls : List (List Nat))
    (hwf : ∀ s ∈ syls, WellFormedSyllable J s) :
    (syllable_iter_positions J syls.flatten syls.flatten.length syls.flatten.length).length
        = syls.length
    ∧ syllable_iter_positions J syls.flatten syls.flatten.length syls.flatten.length
        = (syllable_starts syls).reverse
    ∧ (syls ≠ [] →
        (syllable_iter_positions J syls.flatten syls.flatten.length
          syls.flatten.length).getLast? = some 0)
    ∧ iter_segments syls.flatten syls.flatten.length
        (syllable_iter_positions J syls.flatten syls.flatten.length syls.flatten.length) = syls
    ∧ (iter_segments syls.flatten syls.flatten.length
        (syllable_iter_positions J syls.flatten syls.flatten.length
          syls.flatten.length)).flatten = syls.flatten := by
  have hpos := positions_flatten J hJ syls hwf [] syls.flatten.length (Nat.le_refl _)
  have hseg := segments_flatten syls []
  rw [List.append_nil] at hpos hseg
  have hstarts := syllable_starts_length syls
  refine ⟨?_, hpos, ?_, ?_, ?_⟩
  · rw [hpos, List.length_reverse, hstarts]
  · intro hne
    rw [hpos, List.getLast?_reverse]
    cases syls with
    | nil => exact absurd rfl hne
    | cons a rest => rfl
  · rw [hpos, hseg]
  · rw [hpos, hseg]

/-- C8, at a concrete input: three jamo syllables of 3, 2 and 4 scalars. -/
theorem syllable_iter_round_trip_witness :
    syllable_iter_positions unicodeJamo
        [0x1100, 0x1161, 0x11a8, 0x1102, 0x1161, 0x1103, 0x1103, 0x1169, 0x11ab] 9 9
      = [5, 3, 0]
    ∧ iter_segments [0x1100, 0x1161, 0x11a8, 0x1102, 0x1161, 0x1103, 0x1103, 0x1169, 0x11ab] 9
        [5, 3, 0]
      = [[0x1100, 0x1161, 0x11a8], [0x1102, 0x1161], [0x1103, 0x1103, 0x1169, 0x11ab]] :=
  ⟨(syllable_iter_round_trip unicodeJamo unicodeJamo_disjoint
      [[0x1100, 0x1161, 0x11a8], [0x1102, 0x1161], [0x1103, 0x1103, 0x1169, 0x11ab]]
      (by
        intro s hs
        simp only [List.mem_cons, List.mem_singleton, List.not_mem_nil, or_false] at hs
        rcases hs with rfl | rfl | rfl
        · exact ⟨[0x1100], [0x1161], [0x11a8], rfl, by decide, by decide, by decide, by decide,
            by decide⟩
        · exact ⟨[0x1102], [0x1161], [], rfl, by decide, by decide, by decide, by decide,
            by decide⟩
        · exact ⟨[0x1103, 0x1103], [0x1169], [0x11ab], rfl, by decide, by decide, by decide,
            by decide, by decide⟩)).2.1,
    by decide⟩

end RoundTrip

end Nabi

/-! ## Modes, traces and the preedit lifecycle -/

namespace Nabi

section Frames2

variable {H C : Type}

theorem ModeStep.mode_refl (s : St H C) : ModeStep s s := ⟨rfl, rfl, rfl, rfl, rfl⟩

theorem ModeStep.mode_trans {s s1 s2 : St H C} (h1 : ModeStep s s1) (h2 : ModeStep s1 s2) :
    ModeStep s s2 :=
  ⟨h2.server.trans h1.server, h2.connection.trans h1.connection, h2.toplevel.trans h1.toplevel,
    h2.mode.trans h1.mode, h2.input_style.trans h1.input_style⟩

theorem TraceStep.trace_refl (s : St H C) : TraceStep s s [] [] := ⟨[], by simp, rfl, rfl⟩

theorem TraceStep.trace_trans {s s1 s2 : St H C} {c1 c2 : List Text} {l1 l2 : List Bool}
    (h1 : TraceStep s s1 c1 l1) (h2 : TraceStep s1 s2 c2 l2) :
    TraceStep s s2 (c1 ++ c2) (l1 ++ l2) := by
  obtain ⟨e1, ho1, hc1, hl1⟩ := h1
  obtain ⟨e2, ho2, hc2, hl2⟩ := h2
  refine ⟨e1 ++ e2, by rw [ho2, ho1, List.append_assoc], ?_, ?_⟩
  · rw [commit_texts_append, hc1, hc2]
  · unfold lifecycle_events at *
    rw [List.filterMap_append, hl1, hl2]

/-- A step that appends nothing to the trace. -/
theorem TraceStep.of_out_eq {s s1 : St H C} (h : s1.out = s.out) : TraceStep s s1 [] [] :=
  ⟨[], by simp [h], rfl, rfl⟩

/-- Emitting one event. -/
theorem TraceStep.trace_emit (s : St H C) (e : Event) :
    TraceStep s (s.emit e) (commit_texts [e]) (lifecycle_events [e]) :=
  ⟨[e], rfl, rfl, rfl⟩

/-- Two steps without Commit and without lifecycle callback. -/
theorem TraceStep.quiet_trans {s s1 s2 : St H C} (h1 : TraceStep s s1 [] [])
    (h2 : TraceStep s1 s2 [] []) : TraceStep s s2 [] [] := h1.trace_trans h2

theorem preedit_hide_mode (s : St H C) : ModeStep s (nabi_ic_preedit_hide s) := by
  unfold nabi_ic_preedit_hide
  split
  · exact ModeStep.mode_refl s
  · split
    · exact ⟨rfl, rfl, rfl, rfl, rfl⟩
    · exact ModeStep.mode_refl s

theorem preedit_hide_trace (s : St H C) : TraceStep s (nabi_ic_preedit_hide s) [] [] := by
  unfold nabi_ic_preedit_hide
  split
  · exact TraceStep.trace_refl s
  · split
    · exact ⟨[Event.WindowHide], rfl, rfl, rfl⟩
    · exact TraceStep.trace_refl s

/-- Hiding leaves the preedit window unmapped, and keeps `start` and
`prev_length`. -/
theorem preedit_hide_window (s : St H C) :
    (nabi_ic_preedit_hide s).ic.preedit.window ≠ some true
    ∧ (nabi_ic_preedit_hide s).ic.preedit.start = s.ic.preedit.start
    ∧ (nabi_ic_preedit_hide s).ic.preedit.prev_length = s.ic.preedit.prev_length := by
  unfold nabi_ic_preedit_hide
  split
  · rename_i h
    exact ⟨by rw [h]; simp, rfl, rfl⟩
  · rename_i v h
    split
    · exact ⟨by simp [St.emit, St.set_window], rfl, rfl⟩
    · rename_i hv
      refine ⟨?_, rfl, rfl⟩
      rw [h]
      intro hc
      exact hv (Option.some.inj hc)

theorem preedit_clear_mode (s : St H C) : ModeStep s (nabi_ic_preedit_clear s) := by
  unfold nabi_ic_preedit_clear
  split
  · exact ModeStep.mode_refl s
  · have hh := preedit_hide_mode s
    split_ifs
    · exact ⟨rfl, rfl, rfl, rfl, rfl⟩
    · exact ⟨hh.server, hh.connection, hh.toplevel, hh.mode, hh.input_style⟩
    · exact ⟨hh.server, hh.connection, hh.toplevel, hh.mode, hh.input_style⟩
    · exact ⟨hh.server, hh.connection, hh.toplevel, hh.mode, hh.input_style⟩
    · exact ⟨rfl, rfl, rfl, rfl, rfl⟩

theorem preedit_clear_trace (s : St H C) : TraceStep s (nabi_ic_preedit_clear s) [] [] := by
  unfold nabi_ic_preedit_clear
  split
  · exact TraceStep.trace_refl s
  · have hh := preedit_hide_trace s
    split_ifs
    · exact ⟨[_], rfl, rfl, rfl⟩
    · exact hh
    · exact hh
    · exact hh
    · exact TraceStep.trace_refl s

/-- Clearing the preedit keeps the `start` flag. -/
theorem preedit_clear_start (s : St H C) :
    (nabi_ic_preedit_clear s).ic.preedit.start = s.ic.preedit.start := by
  unfold nabi_ic_preedit_clear
  split
  · rfl
  · have hh := (preedit_hide_window s).2.1
    split_ifs
    · rfl
    · exact hh
    · exact hh
    · exact hh
    · rfl

theorem commit_utf8_mode (s : St H C) (t : Text) : ModeStep s (nabi_ic_commit_utf8 s t) := by
  unfold nabi_ic_commit_utf8
  simp only []
  have h1 := preedit_clear_mode s
  have he : ∀ x : St H C, ModeStep x (x.emit (Event.Commit t)) :=
    fun x => ⟨rfl, rfl, rfl, rfl, rfl⟩
  split_ifs
  · exact (h1.mode_trans (he _)).mode_trans (preedit_clear_mode _)
  · exact h1.mode_trans (he _)
  · exact (he s).mode_trans (preedit_clear_mode _)
  · exact he s

theorem commit_utf8_trace (s : St H C) (t : Text) :
    TraceStep s (nabi_ic_commit_utf8 s t) [t] [] := by
  unfold nabi_ic_commit_utf8
  simp only []
  have he : ∀ x : St H C, TraceStep x (x.emit (Event.Commit t)) [t] [] :=
    fun x => ⟨[Event.Commit t], rfl, rfl, rfl⟩
  split_ifs
  · exact ((preedit_clear_trace s).trace_trans (he _)).trace_trans (preedit_clear_trace _)
  · exact (preedit_clear_trace s).trace_trans (he _)
  · exact (he s).trace_trans (preedit_clear_trace _)
  · exact he s

/-- Committing keeps the `start` flag. -/
theorem commit_utf8_start (s : St H C) (t : Text) :
    (nabi_ic_commit_utf8 s t).ic.preedit.start = s.ic.preedit.start := by
  unfold nabi_ic_commit_utf8
  simp only []
  split_ifs
  · rw [preedit_clear_start]
    show (nabi_ic_preedit_clear s).ic.preedit.start = _
    exact preedit_clear_start s
  · show (nabi_ic_preedit_clear s).ic.preedit.start = _
    exact preedit_clear_start s
  · rw [preedit_clear_start]
    rfl
  · rfl

theorem flush_mode (D : Deps H C) (s : St H C) : ModeStep s (nabi_ic_flush D s) := by
  unfold nabi_ic_flush
  simp only [nabi_ic_get_flush_string]
  split_ifs
  · have h := commit_utf8_mode (s.set_hic (D.hangul_ic_flush s.ic.hic).2)
      (ustring_append (ustring_append [] s.ic.preedit.str) (D.hangul_ic_flush s.ic.hic).1)
    exact ⟨h.server, h.connection, h.toplevel, h.mode, h.input_style⟩
  · exact ⟨rfl, rfl, rfl, rfl, rfl⟩

/-- The trace of a flush: one Commit of buffer ++ hic flush string when that is
non-empty, and no lifecycle callback. -/
theorem flush_trace (D : Deps H C) (s : St H C) :
    TraceStep s (nabi_ic_flush D s)
      (if s.ic.preedit.str ++ (D.hangul_ic_flush s.ic.hic).1 = [] then []
       else [s.ic.preedit.str ++ (D.hangul_ic_flush s.ic.hic).1]) [] := by
  unfold nabi_ic_flush
  simp only [nabi_ic_get_flush_string, ustring_append, List.nil_append]
  by_cases he : s.ic.preedit.str ++ (D.hangul_ic_flush s.ic.hic).1 = []
  · have hl : ¬ (s.ic.preedit.str ++ (D.hangul_ic_flush s.ic.hic).1).length > 0 := by
      rw [he]; simp
    rw [if_neg hl, if_pos he]
    exact ⟨[], by simp [St.set_str, St.set_hic], rfl, rfl⟩
  · have hl : (s.ic.preedit.str ++ (D.hangul_ic_flush s.ic.hic).1).length > 0 :=
      List.length_pos.mpr he
    rw [if_pos hl, if_neg he]
    obtain ⟨evs, ho, hc, hlc⟩ := commit_utf8_trace (s.set_hic (D.hangul_ic_flush s.ic.hic).2)
      (s.ic.preedit.str ++ (D.hangul_ic_flush s.ic.hic).1)
    exact ⟨evs, ho, hc, hlc⟩

/-- A flush keeps the `start` flag. -/
theorem flush_start (D : Deps H C) (s : St H C) :
    (nabi_ic_flush D s).ic.preedit.start = s.ic.preedit.start := by
  unfold nabi_ic_flush
  simp only [nabi_ic_get_flush_string]
  split_ifs
  · show (nabi_ic_commit_utf8 _ _).ic.preedit.start = _
    rw [commit_utf8_start]
    rfl
  · rfl

/-- What `nabi_ic_preedit_done` does: nothing when the preedit is not started;
otherwise `start` becomes False and, for Callbacks style, PreeditDone is the
first event sent. -/
theorem preedit_done_spec (s : St H C) :
    ModeStep s (nabi_ic_preedit_done s)
    ∧ DisplayStep s (nabi_ic_preedit_done s)
    ∧ (nabi_ic_preedit_done s).ic.preedit.start = false
    ∧ TraceStep s (nabi_ic_preedit_done s) []
        (if s.ic.preedit.start = true ∧ hasBits s.ic.input_style XIMPreeditCallbacks = true
         then [false] else []) := by
  unfold nabi_ic_preedit_done
  cases hst : s.ic.preedit.start with
  | false =>
    simp only [Bool.not_false, if_true]
    exact ⟨ModeStep.mode_refl s, DisplayStep.refl s, hst, by simpa using TraceStep.trace_refl s⟩
  | true =>
    simp only [Bool.not_true, Bool.false_eq_true, if_false, true_and]
    have hh := preedit_hide_mode s
    have hd := preedit_hide_display s
    have ht := preedit_hide_trace s
    have key : ∀ x : St H C, ModeStep s x → DisplayStep s x → ∀ l, TraceStep s x [] l →
        ModeStep s ((if x.server.dynamic_event_flow = true then x.emit Event.StateEnd
            else x).set_start false)
        ∧ DisplayStep s ((if x.server.dynamic_event_flow = true then x.emit Event.StateEnd
            else x).set_start false)
        ∧ ((if x.server.dynamic_event_flow = true then x.emit Event.StateEnd
            else x).set_start false).ic.preedit.start = false
        ∧ TraceStep s ((if x.server.dynamic_event_flow = true then x.emit Event.StateEnd
            else x).set_start false) [] l := by
      intro x hm hdx l hx
      split_ifs
      · refine ⟨hm.mode_trans ⟨rfl, rfl, rfl, rfl, rfl⟩,
          hdx.trans ((DisplayStep.emit x Event.StateEnd rfl rfl).trans
            ⟨rfl, rfl, rfl, rfl, rfl, rfl, rfl, rfl, rfl, rfl, ⟨[], by simp [St.set_start]⟩⟩),
          rfl, ?_⟩
        obtain ⟨evs, ho, hc, hl⟩ := hx
        refine ⟨evs ++ [Event.StateEnd], ?_, ?_, ?_⟩
        · show x.out ++ [Event.StateEnd] = _
          rw [ho, List.append_assoc]
        · rw [commit_texts_append, hc]; rfl
        · unfold lifecycle_events at *
          rw [List.filterMap_append, hl]
          simp [Event.lifecycle]
      · refine ⟨hm.mode_trans ⟨rfl, rfl, rfl, rfl, rfl⟩,
          hdx.trans ⟨rfl, rfl, rfl, rfl, rfl, rfl, rfl, rfl, rfl, rfl, ⟨[], by simp [St.set_start]⟩⟩,
          rfl, ?_⟩
        obtain ⟨evs, ho, hc, hl⟩ := hx
        exact ⟨evs, ho, hc, hl⟩
    cases hcb : hasBits s.ic.input_style XIMPreeditCallbacks with
    | true =>
      simp only [if_true]
      exact key (s.emit Event.PreeditDone) ⟨rfl, rfl, rfl, rfl, rfl⟩
        (DisplayStep.emit s _ rfl rfl) [false] ⟨[Event.PreeditDone], rfl, rfl, rfl⟩
    | false =>
      simp only [Bool.false_eq_true, if_false]
      generalize hx : (if hasBits s.ic.input_style XIMPreeditPosition = true then
          nabi_ic_preedit_hide s
        else if hasBits s.ic.input_style XIMPreeditArea = true then nabi_ic_preedit_hide s
        else if hasBits s.ic.input_style XIMPreeditNothing = true then nabi_ic_preedit_hide s
        else s) = x
      have hxx : x = nabi_ic_preedit_hide s ∨ x = s := by
        rw [← hx]
        split_ifs <;> simp
      clear hx
      rcases hxx with rfl | rfl
      · exact key _ hh hd [] ht
      · exact key x (ModeStep.mode_refl x) (DisplayStep.refl x) [] (TraceStep.trace_refl x)

end Frames2

section ModeLemmas

variable {H C : Type}

/-- The function `nabi_ic_set_mode` as the write followed by the mode actions. -/
theorem set_mode_eq (D : Deps H C) (s : St H C) (mode : NabiInputMode) :
    nabi_ic_set_mode D s mode
      = nabi_ic_status_update
          (match mode with
           | .DIRECT =>
             (nabi_ic_preedit_done (nabi_ic_flush D (set_mode_write s mode))).emit
               (Event.ModeInfo .DIRECT)
           | .COMPOSE =>
             (nabi_ic_preedit_start (set_mode_write s mode)).emit (Event.ModeInfo .COMPOSE)) :=
  rfl

/-- The fields of the state after the write of `nabi_ic_set_mode`. -/
theorem set_mode_write_fields (s : St H C) (mode : NabiInputMode) :
    (set_mode_write s mode).ic = { s.ic with mode := mode }
    ∧ (set_mode_write s mode).out = s.out
    ∧ (set_mode_write s mode).server.input_mode_scope = s.server.input_mode_scope
    ∧ (set_mode_write s mode).server
        = (if s.server.input_mode_scope = .PER_DESKTOP then { s.server with input_mode := mode }
           else s.server)
    ∧ (set_mode_write s mode).connection
        = (if s.server.input_mode_scope = .PER_APPLICATION then
            s.connection.map (fun c => { c with mode := mode })
           else s.connection)
    ∧ (set_mode_write s mode).toplevel
        = (if s.server.input_mode_scope = .PER_TOPLEVEL then
            s.toplevel.map (fun t => { t with mode := mode })
           else s.toplevel) := by
  unfold set_mode_write
  cases hs : s.server.input_mode_scope
  · simp [hs]
  · cases hc : s.connection <;> simp [hs, hc]
  · cases ht : s.toplevel <;> simp [hs, ht]
  · simp [hs]

theorem status_update_spec (s : St H C) :
    ModeStep s (nabi_ic_status_update s) ∧ DisplayStep s (nabi_ic_status_update s)
    ∧ (nabi_ic_status_update s).ic.preedit.start = s.ic.preedit.start
    ∧ TraceStep s (nabi_ic_status_update s) [] [] := by
  unfold nabi_ic_status_update
  split_ifs
  · exact ⟨ModeStep.mode_refl s, DisplayStep.refl s, rfl, TraceStep.trace_refl s⟩
  · exact ⟨⟨rfl, rfl, rfl, rfl, rfl⟩, DisplayStep.emit s _ rfl rfl, rfl, ⟨[_], rfl, rfl, rfl⟩⟩
  · exact ⟨ModeStep.mode_refl s, DisplayStep.refl s, rfl, TraceStep.trace_refl s⟩

theorem emit_mode_info_spec (s : St H C) (m : NabiInputMode) :
    ModeStep s (s.emit (Event.ModeInfo m)) ∧ DisplayStep s (s.emit (Event.ModeInfo m))
    ∧ (s.emit (Event.ModeInfo m)).ic.preedit.start = s.ic.preedit.start
    ∧ TraceStep s (s.emit (Event.ModeInfo m)) [] [] :=
  ⟨⟨rfl, rfl, rfl, rfl, rfl⟩, DisplayStep.emit s _ rfl rfl, rfl, ⟨[_], rfl, rfl, rfl⟩⟩

/-- What `nabi_ic_preedit_start` does: nothing when the preedit is started;
otherwise `start` becomes True and, for Callbacks style, PreeditStart is
sent. -/
theorem preedit_start_spec (s : St H C) :
    ModeStep s (nabi_ic_preedit_start s)
    ∧ DisplayStep s (nabi_ic_preedit_start s)
    ∧ (nabi_ic_preedit_start s).ic.preedit.start = true
    ∧ TraceStep s (nabi_ic_preedit_start s) []
        (if s.ic.preedit.start = false ∧ hasBits s.ic.input_style XIMPreeditCallbacks = true
         then [true] else []) := by
  unfold nabi_ic_preedit_start
  cases hst : s.ic.preedit.start with
  | true =>
    simp only [if_true]
    exact ⟨ModeStep.mode_refl s, DisplayStep.refl s, hst, by simpa using TraceStep.trace_refl s⟩
  | false =>
    simp only [Bool.false_eq_true, if_false, true_and]
    have hw : ∀ x : St H C, ModeStep x (nabi_ic_preedit_window_new x)
        ∧ DisplayStep x (nabi_ic_preedit_window_new x)
        ∧ TraceStep x (nabi_ic_preedit_window_new x) [] [] := by
      intro x
      unfold nabi_ic_preedit_window_new
      split_ifs
      · exact ⟨⟨rfl, rfl, rfl, rfl, rfl⟩, DisplayStep.set_window x _, ⟨[], by simp [St.set_window], rfl, rfl⟩⟩
      · exact ⟨⟨rfl, rfl, rfl, rfl, rfl⟩, DisplayStep.set_window x _, ⟨[], by simp [St.set_window], rfl, rfl⟩⟩
      · exact ⟨ModeStep.mode_refl x, DisplayStep.refl x, TraceStep.trace_refl x⟩
    have hw1 : ∀ x : St H C,
        ModeStep x (if x.ic.preedit.window = none then nabi_ic_preedit_window_new x else x)
        ∧ DisplayStep x (if x.ic.preedit.window = none then nabi_ic_preedit_window_new x else x)
        ∧ TraceStep x (if x.ic.preedit.window = none then nabi_ic_preedit_window_new x else x)
            [] [] := by
      intro x
      split_ifs
      · exact hw x
      · exact ⟨ModeStep.mode_refl x, DisplayStep.refl x, TraceStep.trace_refl x⟩
    have hfin : ∀ x : St H C, ModeStep x (x.set_start true) ∧ DisplayStep x (x.set_start true)
        ∧ TraceStep x (x.set_start true) [] [] :=
      fun x => ⟨⟨rfl, rfl, rfl, rfl, rfl⟩,
        ⟨rfl, rfl, rfl, rfl, rfl, rfl, rfl, rfl, rfl, rfl, ⟨[], by simp [St.set_start]⟩⟩,
        ⟨[], by simp [St.set_start], rfl, rfl⟩⟩
    have h1 : ∀ x : St H C,
        ModeStep x (if x.server.dynamic_event_flow = true then x.emit Event.StateStart else x)
        ∧ DisplayStep x (if x.server.dynamic_event_flow = true then x.emit Event.StateStart else x)
        ∧ TraceStep x (if x.server.dynamic_event_flow = true then x.emit Event.StateStart else x)
            [] []
        ∧ (if x.server.dynamic_event_flow = true then x.emit Event.StateStart
            else x).ic.input_style = x.ic.input_style := by
      intro x
      split_ifs
      · exact ⟨⟨rfl, rfl, rfl, rfl, rfl⟩, DisplayStep.emit x _ rfl rfl, ⟨[_], rfl, rfl, rfl⟩, rfl⟩
      · exact ⟨ModeStep.mode_refl x, DisplayStep.refl x, TraceStep.trace_refl x, rfl⟩
    generalize hy : (if s.server.dynamic_event_flow = true then s.emit Event.StateStart else s) = y
    obtain ⟨hm1, hd1, ht1, hs1⟩ := h1 s
    rw [hy] at hm1 hd1 ht1 hs1
    clear hy
    rw [hs1]
    cases hcb : hasBits s.ic.input_style XIMPreeditCallbacks with
    | true =>
      simp only [if_true]
      refine ⟨(hm1.mode_trans (show ModeStep y (y.emit Event.PreeditStart) from
            ⟨rfl, rfl, rfl, rfl, rfl⟩)).mode_trans (hfin (y.emit Event.PreeditStart)).1,
        (hd1.trans (DisplayStep.emit y Event.PreeditStart rfl rfl)).trans
          (hfin (y.emit Event.PreeditStart)).2.1, rfl, ?_⟩
      have := (ht1.trace_trans (show TraceStep y (y.emit Event.PreeditStart) [] [true] from
        ⟨[_], rfl, rfl, rfl⟩)).trace_trans (hfin (y.emit Event.PreeditStart)).2.2
      simpa using this
    | false =>
      simp only [Bool.false_eq_true, if_false]
      generalize hx : (if hasBits s.ic.input_style XIMPreeditPosition = true then
          (if y.ic.preedit.window = none then nabi_ic_preedit_window_new y else y)
        else if hasBits s.ic.input_style XIMPreeditArea = true then
          (if y.ic.preedit.window = none then nabi_ic_preedit_window_new y else y)
        else if hasBits s.ic.input_style XIMPreeditNothing = true then
          (if y.ic.preedit.window = none then nabi_ic_preedit_window_new y else y)
        else y) = x
      have hxx : x = (if y.ic.preedit.window = none then nabi_ic_preedit_window_new y else y)
          ∨ x = y := by
        rw [← hx]
        split_ifs <;> simp
      clear hx
      rcases hxx with rfl | rfl
      · obtain ⟨a, b, c⟩ := hw1 y
        refine ⟨(hm1.mode_trans a).mode_trans (hfin _).1, (hd1.trans b).trans (hfin _).2.1, rfl, ?_⟩
        simpa using (ht1.trace_trans c).trace_trans (hfin _).2.2
      · refine ⟨hm1.mode_trans (hfin _).1, hd1.trans (hfin _).2.1, rfl, ?_⟩
        simpa using ht1.trace_trans (hfin _).2.2

end ModeLemmas

end Nabi

/-! ## Order of preedit clear and Commit -/

namespace Nabi

section CommitOrder

variable {H C : Type}

/-- C12: `nabi_ic_commit_utf8` on an IC whose shown preedit is non-empty
(`prev_length > 0`).  With Callbacks style the empty PreeditDraw comes first
and the Commit second, and nothing else is sent.  Without Callbacks and with
Position, Area or Nothing style the Commit comes first; the preedit window is
hidden after it (a WindowHide follows the Commit when the window was mapped)
and is unmapped afterwards.  In every case `prev_length` is 0 afterwards and
exactly one Commit is sent. -/
theorem commit_utf8_flicker_order (s : St H C) (t : Text) (hp : 0 < s.ic.preedit.prev_length) :
    (hasBits s.ic.input_style XIMPreeditCallbacks = true →
        (nabi_ic_commit_utf8 s t).out
          = s.out ++ [Event.PreeditDraw 0 0 s.ic.preedit.prev_length none [XIMReverse, 0, 0, 0],
              Event.Commit t])
    ∧ (hasBits s.ic.input_style XIMPreeditCallbacks = false →
        (hasBits s.ic.input_style XIMPreeditPosition = true
          ∨ hasBits s.ic.input_style XIMPreeditArea = true
          ∨ hasBits s.ic.input_style XIMPreeditNothing = true) →
        ((nabi_ic_commit_utf8 s t).out = s.out ++ [Event.Commit t]
          ∨ (s.ic.preedit.window = some true
              ∧ (nabi_ic_commit_utf8 s t).out = s.out ++ [Event.Commit t, Event.WindowHide]))
        ∧ (nabi_ic_commit_utf8 s t).ic.preedit.window ≠ some true)
    ∧ (nabi_ic_commit_utf8 s t).ic.preedit.prev_length = 0
    ∧ commit_texts (nabi_ic_commit_utf8 s t).out = commit_texts s.out ++ [t] := by
  have hne : ¬ s.ic.preedit.prev_length = 0 := by omega
  refine ⟨?_, ?_, ?_, (commit_utf8_fields s t).2.2.2.2.2.2⟩
  · intro hcb
    unfold nabi_ic_commit_utf8
    simp only []
    have hst : hasBits ((nabi_ic_preedit_clear s).emit (Event.Commit t)).ic.input_style
        XIMPreeditCallbacks = true := by
      show hasBits (nabi_ic_preedit_clear s).ic.input_style XIMPreeditCallbacks = true
      rw [(preedit_clear_display s).input_style, hcb]
    simp only [hcb, if_true, hst, Bool.not_true, Bool.false_eq_true, if_false]
    unfold nabi_ic_preedit_clear
    rw [if_neg hne]
    simp only [hcb, if_true]
    simp [St.emit, St.set_prev_length]
  · intro hcb hstyle
    unfold nabi_ic_commit_utf8
    simp only []
    have hst : hasBits (s.emit (Event.Commit t)).ic.input_style XIMPreeditCallbacks = false := hcb
    simp only [hcb, Bool.false_eq_true, if_false, hst, Bool.not_false, if_true]
    have hclear : nabi_ic_preedit_clear (s.emit (Event.Commit t))
        = (nabi_ic_preedit_hide (s.emit (Event.Commit t))).set_prev_length 0 := by
      unfold nabi_ic_preedit_clear
      rw [if_neg (show ¬ (s.emit (Event.Commit t)).ic.preedit.prev_length = 0 from hne)]
      simp only [hst, Bool.false_eq_true, if_false]
      have h3 : hasBits (s.emit (Event.Commit t)).ic.input_style XIMPreeditPosition = true
          ∨ hasBits (s.emit (Event.Commit t)).ic.input_style XIMPreeditArea = true
          ∨ hasBits (s.emit (Event.Commit t)).ic.input_style XIMPreeditNothing = true := hstyle
      split_ifs
      · rfl
      · rfl
      · rfl
      · rename_i h4 h5 h6
        rcases h3 with h | h | h
        · exact absurd h h4
        · exact absurd h h5
        · exact absurd h h6
    rw [hclear]
    refine ⟨?_, (preedit_hide_window (s.emit (Event.Commit t))).1⟩
    show (nabi_ic_preedit_hide (s.emit (Event.Commit t))).out = _ ∨ _ ∧
      (nabi_ic_preedit_hide (s.emit (Event.Commit t))).out = _
    unfold nabi_ic_preedit_hide
    cases hw : s.ic.preedit.window with
    | none =>
      have : (s.emit (Event.Commit t)).ic.preedit.window = none := hw
      simp only [this]
      exact Or.inl rfl
    | some v =>
      have : (s.emit (Event.Commit t)).ic.preedit.window = some v := hw
      simp only [this]
      cases v with
      | true => exact Or.inr ⟨rfl, by simp [St.emit, St.set_window]⟩
      | false => exact Or.inl (by simp [St.emit])
  · unfold nabi_ic_commit_utf8
    simp only []
    cases hcb : hasBits s.ic.input_style XIMPreeditCallbacks with
    | true =>
      have hst : hasBits ((nabi_ic_preedit_clear s).emit (Event.Commit t)).ic.input_style
          XIMPreeditCallbacks = true := by
        show hasBits (nabi_ic_preedit_clear s).ic.input_style XIMPreeditCallbacks = true
        rw [(preedit_clear_display s).input_style, hcb]
      simp only [if_true, hst, Bool.not_true, Bool.false_eq_true, if_false]
      show (nabi_ic_preedit_clear s).ic.preedit.prev_length = 0
      exact (preedit_clear_draws s).1
    | false =>
      have hst : hasBits (s.emit (Event.Commit t)).ic.input_style XIMPreeditCallbacks = false :=
        hcb
      simp only [Bool.false_eq_true, if_false, hst, Bool.not_false, if_true]
      exact (preedit_clear_draws _).1

/-- C12, at a concrete input: a Callbacks IC showing two scalars commits one
syllable: the clearing PreeditDraw precedes the Commit. -/
theorem commit_utf8_flicker_order_witness :
    (nabi_ic_commit_utf8 ((toySt ⟨[], []⟩ [] none none "hanja").set_prev_length 2) [0xac00]).out
      = [Event.PreeditDraw 0 0 2 none [XIMReverse, 0, 0, 0], Event.Commit [0xac00]] :=
  (commit_utf8_flicker_order ((toySt ⟨[], []⟩ [] none none "hanja").set_prev_length 2) [0xac00]
    (by decide)).1 (by decide)

end CommitOrder

end Nabi

/-! ## Printable keys, flush, reset and leaving Compose mode -/

namespace Nabi

section FlushResetMode

variable {H C : Type}

/-- C13: a key with no candidate window open that is not Shift, off-key,
candidate key, modifier-held or BackSpace.  If the normalised keysym lies in
'!'..'~' the call is `hangul_ic_process` on it, then `nabi_ic_commit`, then
`nabi_ic_preedit_update`, and it returns the result of `hangul_ic_process`.
Otherwise the call is `nabi_ic_flush` on the unchanged state, with no
`hangul_ic_process` (hic is the flushed old hic): hic and preedit buffer are
empty afterwards and False is returned. -/
theorem printable_range_dispatch (D : Deps H C) (hD : HicContract D) (s : St H C)
    (keysym state : Nat)
    (hcand : s.ic.candidate = none)
    (hshift : ¬ (keysym = XK_Shift_L ∨ keysym = XK_Shift_R))
    (hoff : D.nabi_server_is_off_key keysym state = false)
    (hkey : D.nabi_server_is_candidate_key keysym state = false)
    (hmod : hasBits state (ControlMask ||| Mod1Mask ||| Mod3Mask ||| Mod4Mask ||| Mod5Mask)
      = false)
    (hbs : keysym ≠ XK_BackSpace) :
    ((XK_exclam ≤ D.nabi_server_normalize_keysym keysym state
        ∧ D.nabi_server_normalize_keysym keysym state ≤ XK_asciitilde) →
      nabi_ic_process_keyevent D s keysym state
        = ((D.hangul_ic_process s.ic.hic (D.nabi_server_normalize_keysym keysym state)).1,
            nabi_ic_preedit_update D (nabi_ic_commit D (s.set_hic
              (D.hangul_ic_process s.ic.hic
                (D.nabi_server_normalize_keysym keysym state)).2)).2))
    ∧ (¬ (XK_exclam ≤ D.nabi_server_normalize_keysym keysym state
        ∧ D.nabi_server_normalize_keysym keysym state ≤ XK_asciitilde) →
      nabi_ic_process_keyevent D s keysym state = (false, nabi_ic_flush D s)
      ∧ (nabi_ic_process_keyevent D s keysym state).2.ic.hic = (D.hangul_ic_flush s.ic.hic).2
      ∧ D.hangul_ic_is_empty (nabi_ic_process_keyevent D s keysym state).2.ic.hic = true
      ∧ (nabi_ic_process_keyevent D s keysym state).2.ic.preedit.str = []) := by
  have hdef : nabi_ic_process_keyevent D s keysym state
      = if D.nabi_server_normalize_keysym keysym state ≥ XK_exclam
            ∧ D.nabi_server_normalize_keysym keysym state ≤ XK_asciitilde then
          ((D.hangul_ic_process s.ic.hic (D.nabi_server_normalize_keysym keysym state)).1,
            nabi_ic_preedit_update D (nabi_ic_commit D (s.set_hic
              (D.hangul_ic_process s.ic.hic
                (D.nabi_server_normalize_keysym keysym state)).2)).2)
        else (false, nabi_ic_flush D s) := by
    unfold nabi_ic_process_keyevent
    rw [hcand]
    simp only [if_neg hshift, hoff, hkey, hmod, if_neg hbs, Bool.false_eq_true, if_false]
  rw [hdef]
  refine ⟨fun hr => by rw [if_pos hr], fun hr => ?_⟩
  rw [if_neg hr]
  have hf := flush_fields D s
  exact ⟨rfl, hf.2.1, by rw [show (false, nabi_ic_flush D s).2.ic.hic
    = (D.hangul_ic_flush s.ic.hic).2 from hf.2.1]; exact hD.flush_empty _, hf.1⟩

/-- C13, at a concrete input: the key a is fed to the toy automaton, the key
Return (outside the printable range) flushes the syllable it was composing. -/
theorem printable_range_dispatch_witness :
    (nabi_ic_process_keyevent toyDeps (toySt ⟨[], []⟩ [] none none "hanja") 0x61 0).2.ic.hic
      = ⟨[0x61], []⟩
    ∧ nabi_ic_process_keyevent toyDeps (toySt ⟨[0x61], []⟩ [] none none "hanja") XK_Return 0
      = (false, nabi_ic_flush toyDeps (toySt ⟨[0x61], []⟩ [] none none "hanja")) :=
  ⟨by decide,
    ((printable_range_dispatch toyDeps toyDeps_contract (toySt ⟨[0x61], []⟩ [] none none "hanja")
      XK_Return 0 rfl (by decide) (by decide) (by decide) (by decide) (by decide)).2
      (by decide)).1⟩

/-- C15: after `nabi_ic_flush` on the state reached by any sequence of key
events, from any state, hic is empty and the preedit buffer is empty, and the
flush sent exactly one Commit carrying the preedit buffer followed by the hic
flush string when that text is non-empty, and no Commit otherwise. -/
theorem flush_empties_ic (D : Deps H C) (hD : HicContract D) (s0 : St H C)
    (keys : List (Nat × Nat)) :
    D.hangul_ic_is_empty (nabi_ic_flush D (dispatch_keys D s0 keys).2).ic.hic = true
    ∧ (nabi_ic_flush D (dispatch_keys D s0 keys).2).ic.preedit.str = []
    ∧ ∃ evs, (nabi_ic_flush D (dispatch_keys D s0 keys).2).out
          = (dispatch_keys D s0 keys).2.out ++ evs
        ∧ commit_texts evs
          = (if (dispatch_keys D s0 keys).2.ic.preedit.str
                ++ (D.hangul_ic_flush (dispatch_keys D s0 keys).2.ic.hic).1 = [] then []
             else [(dispatch_keys D s0 keys).2.ic.preedit.str
                ++ (D.hangul_ic_flush (dispatch_keys D s0 keys).2.ic.hic).1]) := by
  have hf := flush_fields D (dispatch_keys D s0 keys).2
  obtain ⟨evs, ho, hc, -⟩ := flush_trace D (dispatch_keys D s0 keys).2
  refine ⟨?_, hf.1, evs, ho, hc⟩
  rw [hf.2.1]
  exact hD.flush_empty _

/-- C15, at a concrete input: after the keys a, b in word-commit mode the flush
commits both syllables and leaves the IC empty. -/
theorem flush_empties_ic_witness :
    toyDeps.hangul_ic_is_empty (nabi_ic_flush toyDeps (dispatch_keys toyDeps
        (toySt ⟨[], []⟩ [] none none "hanja") [(0x61, 0), (0x62, 0)]).2).ic.hic = true
    ∧ (nabi_ic_flush toyDeps (dispatch_keys toyDeps
        (toySt ⟨[], []⟩ [] none none "hanja") [(0x61, 0), (0x62, 0)]).2).ic.preedit.str = []
    ∧ commit_texts (nabi_ic_flush toyDeps (dispatch_keys toyDeps
        (toySt ⟨[], []⟩ [] none none "hanja") [(0x61, 0), (0x62, 0)]).2).out = [[0x61, 0x62]] :=
  ⟨(flush_empties_ic toyDeps toyDeps_contract (toySt ⟨[], []⟩ [] none none "hanja")
      [(0x61, 0), (0x62, 0)]).1,
    (flush_empties_ic toyDeps toyDeps_contract (toySt ⟨[], []⟩ [] none none "hanja")
      [(0x61, 0), (0x62, 0)]).2.1, by decide⟩

/-- C16: `nabi_ic_reset` puts in the reply the Compound Text of the flush
string, preedit buffer ++ hic flush string, with its length when that string
is non-empty, and a NULL commit_string with length 0 when it is empty;
afterwards the preedit buffer is empty, hic is empty, `prev_length` is 0, and
no Commit was sent. -/
theorem reset_reply (D : Deps H C) (hD : HicContract D) (compound_text : Text → List Nat)
    (s : St H C) :
    (s.ic.preedit.str ++ (D.hangul_ic_flush s.ic.hic).1 ≠ [] →
        (nabi_ic_reset D compound_text s).1
          = { commit_string :=
                some (compound_text (s.ic.preedit.str ++ (D.hangul_ic_flush s.ic.hic).1)),
              length :=
                (compound_text (s.ic.preedit.str ++ (D.hangul_ic_flush s.ic.hic).1)).length })
    ∧ (s.ic.preedit.str ++ (D.hangul_ic_flush s.ic.hic).1 = [] →
        (nabi_ic_reset D compound_text s).1 = { commit_string := none, length := 0 })
    ∧ (nabi_ic_reset D compound_text s).2.ic.preedit.str = []
    ∧ D.hangul_ic_is_empty (nabi_ic_reset D compound_text s).2.ic.hic = true
    ∧ (nabi_ic_reset D compound_text s).2.ic.preedit.prev_length = 0
    ∧ commit_texts (nabi_ic_reset D compound_text s).2.out = commit_texts s.out := by
  have hstate : (nabi_ic_reset D compound_text s).2
      = nabi_ic_preedit_hide (((s.set_hic (D.hangul_ic_flush s.ic.hic).2).set_str
          []).set_prev_length 0)
      ∨ (nabi_ic_reset D compound_text s).2
          = ((s.set_hic (D.hangul_ic_flush s.ic.hic).2).set_str []).set_prev_length 0 := by
    unfold nabi_ic_reset
    simp only [nabi_ic_get_flush_string, ustring_clear]
    split_ifs
    · exact Or.inl rfl
    · exact Or.inl rfl
    · exact Or.inl rfl
    · exact Or.inr rfl
  have hreply : (nabi_ic_reset D compound_text s).1
      = if (s.ic.preedit.str ++ (D.hangul_ic_flush s.ic.hic).1).length > 0 then
          { commit_string :=
              some (compound_text (s.ic.preedit.str ++ (D.hangul_ic_flush s.ic.hic).1)),
            length := (compound_text (s.ic.preedit.str ++ (D.hangul_ic_flush s.ic.hic).1)).length }
        else { commit_string := none, length := 0 } := by
    unfold nabi_ic_reset
    simp only [nabi_ic_get_flush_string, ustring_append, List.nil_append]
  refine ⟨?_, ?_, ?_⟩
  · intro hne
    rw [hreply, if_pos (List.length_pos.mpr hne)]
  · intro he
    rw [hreply, he]
    rfl
  · rcases hstate with h | h <;> rw [h]
    · have hd := preedit_hide_display (((s.set_hic (D.hangul_ic_flush s.ic.hic).2).set_str
        []).set_prev_length 0)
      have hw := preedit_hide_window (((s.set_hic (D.hangul_ic_flush s.ic.hic).2).set_str
        []).set_prev_length 0)
      refine ⟨hd.str, ?_, hw.2.2, hd.commits⟩
      rw [hd.hic]
      exact hD.flush_empty _
    · exact ⟨rfl, hD.flush_empty _, rfl, rfl⟩

/-- C16, at a concrete input: the buffer holds one syllable and the toy
automaton composes another; with the identity as Compound Text encoder the
reply carries both, of length 2. -/
theorem reset_reply_witness :
    (nabi_ic_reset toyDeps (fun t => t) (toySt ⟨[0x62], []⟩ [0x61] none none "hanja")).1
      = { commit_string := some [0x61, 0x62], length := 2 } :=
  (reset_reply toyDeps toyDeps_contract (fun t => t)
    (toySt ⟨[0x62], []⟩ [0x61] none none "hanja")).1 (by decide)

/-- C17: `nabi_ic_set_mode(ic, Direct)` first flushes: the events F of the flush
hold one Commit carrying preedit buffer ++ hic preedit when that is non-empty,
no Commit otherwise, and no lifecycle callback.  Only then, in the events R
that follow, the preedit is ended: R holds no Commit and, for Callbacks style
with the preedit started, exactly one PreeditDone, otherwise none.
Afterwards `ic.mode` is Direct, hic and preedit buffer are empty and
`preedit.start` is False.  An off-key, with no candidate window open, makes
exactly this call and is not consumed. -/
theorem leave_compose_mode (D : Deps H C) (hD : HicContract D) (s : St H C) :
    (nabi_ic_set_mode D s .DIRECT).ic.mode = .DIRECT
    ∧ D.hangul_ic_is_empty (nabi_ic_set_mode D s .DIRECT).ic.hic = true
    ∧ (nabi_ic_set_mode D s .DIRECT).ic.preedit.str = []
    ∧ (nabi_ic_set_mode D s .DIRECT).ic.preedit.start = false
    ∧ (∃ F R, (nabi_ic_set_mode D s .DIRECT).out = s.out ++ F ++ R
        ∧ commit_texts F
            = (if s.ic.preedit.str ++ D.hangul_ic_get_preedit_string s.ic.hic = [] then []
               else [s.ic.preedit.str ++ D.hangul_ic_get_preedit_string s.ic.hic])
        ∧ lifecycle_events F = []
        ∧ commit_texts R = []
        ∧ lifecycle_events R
            = (if s.ic.preedit.start = true
                  ∧ hasBits s.ic.input_style XIMPreeditCallbacks = true then [false] else []))
    ∧ (∀ keysym state, s.ic.candidate = none →
        ¬ (keysym = XK_Shift_L ∨ keysym = XK_Shift_R) →
        D.nabi_server_is_off_key keysym state = true →
        nabi_ic_process_keyevent D s keysym state = (false, nabi_ic_set_mode D s .DIRECT)) := by
  have hw := set_mode_write_fields s .DIRECT
  have hwic : (set_mode_write s .DIRECT).ic = { s.ic with mode := .DIRECT } := hw.1
  have hwmode : (set_mode_write s .DIRECT).ic.mode = .DIRECT := by rw [hwic]
  have hwhic : (set_mode_write s .DIRECT).ic.hic = s.ic.hic := by rw [hwic]
  have hwstr : (set_mode_write s .DIRECT).ic.preedit.str = s.ic.preedit.str := by rw [hwic]
  have hwstart : (set_mode_write s .DIRECT).ic.preedit.start = s.ic.preedit.start := by rw [hwic]
  have hwstyle : (set_mode_write s .DIRECT).ic.input_style = s.ic.input_style := by rw [hwic]
  have hff := flush_fields D (set_mode_write s .DIRECT)
  have hfm := flush_mode D (set_mode_write s .DIRECT)
  have hft := flush_trace D (set_mode_write s .DIRECT)
  have hfs := flush_start D (set_mode_write s .DIRECT)
  obtain ⟨hdm, hdd, hds, hdt⟩ := preedit_done_spec (nabi_ic_flush D (set_mode_write s .DIRECT))
  obtain ⟨hem, hed, hes, het⟩ := emit_mode_info_spec
    (nabi_ic_preedit_done (nabi_ic_flush D (set_mode_write s .DIRECT))) .DIRECT
  obtain ⟨hsm, hsd, hss, hst⟩ := status_update_spec
    ((nabi_ic_preedit_done (nabi_ic_flush D (set_mode_write s .DIRECT))).emit
      (Event.ModeInfo .DIRECT))
  rw [set_mode_eq]
  simp only []
  refine ⟨?_, ?_, ?_, ?_, ?_, ?_⟩
  · rw [hsm.mode, hem.mode, hdm.mode, hfm.mode, hwmode]
  · rw [hsd.hic, hed.hic, hdd.hic, hff.2.1]
    exact hD.flush_empty _
  · rw [hsd.str, hed.str, hdd.str, hff.1]
  · rw [hss, hes, hds]
  · obtain ⟨F, hF, hFc, hFl⟩ := hft
    obtain ⟨R, hR, hRc, hRl⟩ := (hdt.trace_trans het).trace_trans hst
    refine ⟨F, R, ?_, ?_, hFl, ?_, ?_⟩
    · rw [hR, hF, hw.2.1]
    · rw [hFc, hwstr, hwhic, hD.flush_preedit]
    · simpa using hRc
    · rw [hRl, hfs, hwstart, hfm.input_style, hwstyle]
      simp
  · intro keysym state hcand hshift hoff
    unfold nabi_ic_process_keyevent
    rw [hcand]
    simp only [if_neg hshift, hoff, if_true]
    rfl

/-- C17, at scenario E5: the Callbacks IC composes one syllable and Escape, the
off-key, arrives: the syllable is committed before PreeditDone, the mode is
Direct, and Escape is not consumed. -/
theorem leave_compose_mode_witness :
    (nabi_ic_process_keyevent toyDeps (toySt ⟨[0xac00], []⟩ [] none none "hanja")
        XK_Escape 0).1 = false
    ∧ (nabi_ic_process_keyevent toyDeps (toySt ⟨[0xac00], []⟩ [] none none "hanja")
        XK_Escape 0).2.out
      = [Event.Commit [0xac00], Event.PreeditDone, Event.ModeInfo .DIRECT]
    ∧ (nabi_ic_set_mode toyDeps (toySt ⟨[0xac00], []⟩ [] none none "hanja") .DIRECT).ic.mode
      = .DIRECT :=
  ⟨by decide, by decide,
    (leave_compose_mode toyDeps toyDeps_contract
      (toySt ⟨[0xac00], []⟩ [] none none "hanja")).1⟩

end FlushResetMode

end Nabi

/-! ## Mode changes and lifecycle calls -/

namespace Nabi

section ModeLemmas

variable {H C : Type}

theorem lifecycle_events_append (a b : List Event) :
    lifecycle_events (a ++ b) = lifecycle_events a ++ lifecycle_events b :=
  List.filterMap_append _ _ _

/-- What `nabi_ic_set_mode` does after the write: the modes and the shared
objects stay as written, `start` follows the mode, and the only lifecycle
callback is the one that changes `start`, for Callbacks style. -/
theorem set_mode_spec (D : Deps H C) (s : St H C) (mode : NabiInputMode) :
    ModeStep (set_mode_write s mode) (nabi_ic_set_mode D s mode)
    ∧ (nabi_ic_set_mode D s mode).ic.preedit.start = (mode == .COMPOSE)
    ∧ ∃ evs, (nabi_ic_set_mode D s mode).out = s.out ++ evs
        ∧ lifecycle_events evs
          = (if s.ic.preedit.start = !(mode == .COMPOSE)
                ∧ hasBits s.ic.input_style XIMPreeditCallbacks = true
             then [mode == .COMPOSE] else []) := by
  have hw := set_mode_write_fields s mode
  have hwic : (set_mode_write s mode).ic = { s.ic with mode := mode } := hw.1
  have hwstart : (set_mode_write s mode).ic.preedit.start = s.ic.preedit.start := by rw [hwic]
  have hwstyle : (set_mode_write s mode).ic.input_style = s.ic.input_style := by rw [hwic]
  rw [set_mode_eq]
  cases mode with
  | DIRECT =>
    simp only []
    have hfm := flush_mode D (set_mode_write s .DIRECT)
    have hft := flush_trace D (set_mode_write s .DIRECT)
    have hfs := flush_start D (set_mode_write s .DIRECT)
    obtain ⟨hdm, -, hds, hdt⟩ := preedit_done_spec (nabi_ic_flush D (set_mode_write s .DIRECT))
    obtain ⟨hem, -, hes, het⟩ := emit_mode_info_spec
      (nabi_ic_preedit_done (nabi_ic_flush D (set_mode_write s .DIRECT))) .DIRECT
    obtain ⟨hsm, -, hss, hst⟩ := status_update_spec
      ((nabi_ic_preedit_done (nabi_ic_flush D (set_mode_write s .DIRECT))).emit
        (Event.ModeInfo .DIRECT))
    refine ⟨((hfm.mode_trans hdm).mode_trans hem).mode_trans hsm, ?_, ?_⟩
    · rw [hss, hes, hds]
      rfl
    · obtain ⟨F, hF, -, hFl⟩ := hft
      obtain ⟨R, hR, -, hRl⟩ := (hdt.trace_trans het).trace_trans hst
      refine ⟨F ++ R, ?_, ?_⟩
      · rw [hR, hF, hw.2.1, List.append_assoc]
      · have hb : (NabiInputMode.DIRECT == NabiInputMode.COMPOSE) = false := by decide
        rw [lifecycle_events_append, hFl, hRl, hfs, hwstart, hfm.input_style, hwstyle, hb]
        cases s.ic.preedit.start <;> simp
  | COMPOSE =>
    simp only []
    obtain ⟨hpm, -, hps, hpt⟩ := preedit_start_spec (set_mode_write s .COMPOSE)
    obtain ⟨hem, -, hes, het⟩ := emit_mode_info_spec
      (nabi_ic_preedit_start (set_mode_write s .COMPOSE)) .COMPOSE
    obtain ⟨hsm, -, hss, hst⟩ := status_update_spec
      ((nabi_ic_preedit_start (set_mode_write s .COMPOSE)).emit (Event.ModeInfo .COMPOSE))
    refine ⟨(hpm.mode_trans hem).mode_trans hsm, ?_, ?_⟩
    · rw [hss, hes, hps]
      rfl
    · obtain ⟨R, hR, -, hRl⟩ := (hpt.trace_trans het).trace_trans hst
      refine ⟨R, ?_, ?_⟩
      · rw [hR, hw.2.1]
      · have hb : (NabiInputMode.COMPOSE == NabiInputMode.COMPOSE) = true := by decide
        rw [hRl, hwstart, hwstyle, hb]
        cases s.ic.preedit.start <;> simp

/-- The mode an IC has after `nabi_ic_set_focus` is the mode of its scope
source. -/
theorem set_focus_mode (D : Deps H C) (K : KeyboardDeps H) (s : St H C) :
    (nabi_ic_set_focus D K s).ic.mode
      = (match s.server.input_mode_scope with
         | .PER_DESKTOP => s.server.input_mode
         | .PER_APPLICATION =>
           (match s.connection with
            | some c => c.mode
            | none => s.ic.mode)
         | .PER_TOPLEVEL =>
           (match s.toplevel with
            | some t => t.mode
            | none => s.ic.mode)
         | .PER_IC => s.ic.mode) := by
  have hk : ∀ x : St H C, (nabi_ic_set_hangul_keyboard K x K.hangul_keyboard).ic.mode
      = x.ic.mode := by
    intro x
    unfold nabi_ic_set_hangul_keyboard
    split_ifs <;> rfl
  have hm : ∀ mode, (nabi_ic_set_mode D s mode).ic.mode = mode := by
    intro mode
    rw [(set_mode_spec D s mode).1.mode, (set_mode_write_fields s mode).1]
  unfold nabi_ic_set_focus
  simp only []
  rw [hk, hm]

theorem getLast_cons_getD (x d : Bool) (l : List Bool) :
    (x :: l).getLast?.getD d = l.getLast?.getD x := by
  cases l with
  | nil => rfl
  | cons y t => rw [List.getLast?_cons_cons]; simp [List.getLast?_cons]

/-- One lifecycle call on a Callbacks style IC: the style stays, and the only
lifecycle callback sent is the one that changes `start`. -/
theorem preedit_call_spec (D : Deps H C) (s : St H C) (call : PreeditCall)
    (hcb : hasBits s.ic.input_style XIMPreeditCallbacks = true) :
    hasBits (call.run D s).ic.input_style XIMPreeditCallbacks = true
    ∧ ∃ evs, (call.run D s).out = s.out ++ evs
        ∧ lifecycle_events evs
          = (if (call.run D s).ic.preedit.start = s.ic.preedit.start then []
             else [(call.run D s).ic.preedit.start]) := by
  cases call with
  | set_mode mode =>
    obtain ⟨hm, hs, evs, ho, hl⟩ := set_mode_spec D s mode
    have hst : (nabi_ic_set_mode D s mode).ic.input_style = s.ic.input_style := by
      rw [hm.input_style, (set_mode_write_fields s mode).1]
    refine ⟨by simp only [PreeditCall.run]; rw [hst]; exact hcb, evs, ho, ?_⟩
    simp only [PreeditCall.run]
    rw [hl, hs, hcb]
    cases s.ic.preedit.start <;> cases mode <;> simp
  | preedit_start =>
    obtain ⟨hm, -, hs, evs, ho, -, hl⟩ := preedit_start_spec s
    refine ⟨by simp only [PreeditCall.run]; rw [hm.input_style]; exact hcb, evs, ho, ?_⟩
    simp only [PreeditCall.run]
    rw [hl, hs, hcb]
    cases s.ic.preedit.start <;> simp
  | preedit_done =>
    obtain ⟨hm, -, hs, evs, ho, -, hl⟩ := preedit_done_spec s
    refine ⟨by simp only [PreeditCall.run]; rw [hm.input_style]; exact hcb, evs, ho, ?_⟩
    simp only [PreeditCall.run]
    rw [hl, hs, hcb]
    cases s.ic.preedit.start <;> simp

/-- A sequence of lifecycle calls on a Callbacks style IC: the callbacks
alternate, the first one changes `start`, and `start` is afterwards what the
last callback made it. -/
theorem run_preedit_calls_spec (D : Deps H C) (calls : List PreeditCall) :
    ∀ s : St H C, hasBits s.ic.input_style XIMPreeditCallbacks = true →
      hasBits (run_preedit_calls D s calls).ic.input_style XIMPreeditCallbacks = true
      ∧ ∃ evs, (run_preedit_calls D s calls).out = s.out ++ evs
        ∧ alternates (!s.ic.preedit.start) (lifecycle_events evs) = true
        ∧ (run_preedit_calls D s calls).ic.preedit.start
          = (lifecycle_events evs).getLast?.getD s.ic.preedit.start := by
  induction calls with
  | nil =>
    intro s hcb
    exact ⟨hcb, [], by simp [run_preedit_calls], rfl, rfl⟩
  | cons call rest ih =>
    intro s hcb
    obtain ⟨hcb1, e1, ho1, hl1⟩ := preedit_call_spec D s call hcb
    obtain ⟨hcb2, e2, ho2, ha2, hs2⟩ := ih (call.run D s) hcb1
    refine ⟨hcb2, e1 ++ e2, ?_, ?_, ?_⟩
    · simp only [run_preedit_calls]
      rw [ho2, ho1, List.append_assoc]
    · rw [lifecycle_events_append, hl1]
      by_cases he : (call.run D s).ic.preedit.start = s.ic.preedit.start
      · rw [if_pos he, List.nil_append, ← he]
        exact ha2
      · rw [if_neg he]
        simp only [List.singleton_append, alternates, Bool.not_not, Bool.and_eq_true,
          beq_iff_eq]
        have hne : (call.run D s).ic.preedit.start = !s.ic.preedit.start := by
          revert he
          cases (call.run D s).ic.preedit.start <;> cases s.ic.preedit.start <;> simp
        refine ⟨hne, ?_⟩
        rw [hne, Bool.not_not] at ha2
        exact ha2
    · simp only [run_preedit_calls]
      rw [hs2, lifecycle_events_append, hl1]
      by_cases he : (call.run D s).ic.preedit.start = s.ic.preedit.start
      · rw [if_pos he, List.nil_append, he]
      · rw [if_neg he, List.singleton_append, getLast_cons_getD]

end ModeLemmas

end Nabi

/-! ## Lifecycle alternation, mode scope and the transition callback -/

namespace Nabi

section LifecycleScopeTransition

variable {H C : Type}

/-- C18, as stated, fails: the IC of the toy world is fresh, Callbacks style,
with `preedit.start` False.  After `nabi_ic_set_mode(Compose)` and
`nabi_ic_preedit_done` its mode is Compose, and `nabi_ic_set_mode(Compose)`,
which re-enters the mode the IC is in, sends PreeditStart. -/
theorem reenter_mode_counterexample :
    (run_preedit_calls toyDeps ((toyWorld .PER_IC).view (toyRef 1 (some 1) none))
        [.set_mode .COMPOSE, .preedit_done]).ic.mode = .COMPOSE
    ∧ (nabi_ic_set_mode toyDeps
        (run_preedit_calls toyDeps ((toyWorld .PER_IC).view (toyRef 1 (some 1) none))
          [.set_mode .COMPOSE, .preedit_done]) .COMPOSE).out
      = (run_preedit_calls toyDeps ((toyWorld .PER_IC).view (toyRef 1 (some 1) none))
          [.set_mode .COMPOSE, .preedit_done]).out
        ++ [Event.PreeditStart, Event.ModeInfo .COMPOSE] := by
  decide

/-- C18, amended: for a Callbacks style IC with `preedit.start` False and every
sequence of `nabi_ic_set_mode`, `nabi_ic_preedit_start` and
`nabi_ic_preedit_done` calls, the PreeditStart and PreeditDone callbacks sent
alternate, beginning with PreeditStart, and `preedit.start` is True exactly
when the last of them is a PreeditStart.  A further `nabi_ic_set_mode` sends
neither callback when `preedit.start` already agrees with the requested mode
(True for Compose, False for Direct), and that is the case when the mode
was just entered by `nabi_ic_set_mode`. -/
theorem preedit_lifecycle_alternation (D : Deps H C) (s : St H C) (calls : List PreeditCall)
    (hcb : hasBits s.ic.input_style XIMPreeditCallbacks = true)
    (hfresh : s.ic.preedit.start = false) :
    (∃ evs, (run_preedit_calls D s calls).out = s.out ++ evs
      ∧ alternates true (lifecycle_events evs) = true
      ∧ (run_preedit_calls D s calls).ic.preedit.start
          = (lifecycle_events evs).getLast?.getD false)
    ∧ (∀ mode, (run_preedit_calls D s calls).ic.preedit.start = (mode == .COMPOSE) →
        ∃ evs, (nabi_ic_set_mode D (run_preedit_calls D s calls) mode).out
            = (run_preedit_calls D s calls).out ++ evs
          ∧ lifecycle_events evs = [])
    ∧ (∀ mode, ∃ evs,
        (nabi_ic_set_mode D (nabi_ic_set_mode D (run_preedit_calls D s calls) mode) mode).out
            = (nabi_ic_set_mode D (run_preedit_calls D s calls) mode).out ++ evs
          ∧ lifecycle_events evs = []) := by
  have hquiet : ∀ (x : St H C) (mode : NabiInputMode),
      x.ic.preedit.start = (mode == .COMPOSE) →
      ∃ evs, (nabi_ic_set_mode D x mode).out = x.out ++ evs ∧ lifecycle_events evs = [] := by
    intro x mode hx
    obtain ⟨-, -, evs, ho, hl⟩ := set_mode_spec D x mode
    refine ⟨evs, ho, ?_⟩
    rw [hl, hx]
    cases (mode == NabiInputMode.COMPOSE) <;> simp
  refine ⟨?_, fun mode hm => hquiet _ mode hm, fun mode => hquiet _ mode ?_⟩
  · obtain ⟨-, evs, ho, ha, hs⟩ := run_preedit_calls_spec D calls s hcb
    rw [hfresh] at ha hs
    exact ⟨evs, ho, ha, hs⟩
  · exact (set_mode_spec D _ mode).2.1

/-- C18, at a concrete input: enter Compose, enter Compose again, leave, start
the preedit by hand, on the fresh IC of the toy world. -/
theorem preedit_lifecycle_alternation_witness :
    lifecycle_events (run_preedit_calls toyDeps
        ((toyWorld .PER_IC).view (toyRef 1 (some 1) none))
        [.set_mode .COMPOSE, .set_mode .COMPOSE, .set_mode .DIRECT, .preedit_start]).out
      = [true, false, true]
    ∧ ∃ evs, (run_preedit_calls toyDeps ((toyWorld .PER_IC).view (toyRef 1 (some 1) none))
          [.set_mode .COMPOSE, .set_mode .COMPOSE, .set_mode .DIRECT, .preedit_start]).out
        = ((toyWorld .PER_IC).view (toyRef 1 (some 1) none)).out ++ evs
      ∧ alternates true (lifecycle_events evs) = true
      ∧ (run_preedit_calls toyDeps ((toyWorld .PER_IC).view (toyRef 1 (some 1) none))
          [.set_mode .COMPOSE, .set_mode .COMPOSE, .set_mode .DIRECT,
            .preedit_start]).ic.preedit.start
        = (lifecycle_events evs).getLast?.getD false :=
  ⟨by decide,
    (preedit_lifecycle_alternation toyDeps ((toyWorld .PER_IC).view (toyRef 1 (some 1) none))
      [.set_mode .COMPOSE, .set_mode .COMPOSE, .set_mode .DIRECT, .preedit_start]
      (by decide) (by decide)).1⟩

/-- C19: `nabi_ic_set_mode(ic1, m)` followed by `nabi_ic_set_focus(ic2)`.
Under per-desktop scope ic2 has mode m afterwards, for any ic2; under
per-application scope it has when ic1 and ic2 point to the same connection,
under per-toplevel scope when they point to the same toplevel.  Under per-IC
scope `nabi_ic_set_focus(ic2)` keeps the mode of ic2, and
`nabi_ic_set_mode(ic1, m)` changes no server, connection or toplevel. -/
theorem scope_round_trip (D : Deps H C) (K : KeyboardDeps H) (w : World) (r1 r2 : ICRef H C)
    (m : NabiInputMode) :
    (w.server.input_mode_scope = .PER_DESKTOP →
      (World.run (nabi_ic_set_focus D K)
        (World.run (fun s => nabi_ic_set_mode D s m) w r1).1 r2).2.ic.mode = m)
    ∧ (w.server.input_mode_scope = .PER_APPLICATION →
      ∀ c, r1.connection = some c → r2.connection = some c →
        (World.run (nabi_ic_set_focus D K)
          (World.run (fun s => nabi_ic_set_mode D s m) w r1).1 r2).2.ic.mode = m)
    ∧ (w.server.input_mode_scope = .PER_TOPLEVEL →
      ∀ t, r1.toplevel = some t → r2.toplevel = some t →
        (World.run (nabi_ic_set_focus D K)
          (World.run (fun s => nabi_ic_set_mode D s m) w r1).1 r2).2.ic.mode = m)
    ∧ (w.server.input_mode_scope = .PER_IC →
      (World.run (nabi_ic_set_focus D K)
          (World.run (fun s => nabi_ic_set_mode D s m) w r1).1 r2).2.ic.mode = r2.ic.mode
      ∧ (World.run (fun s => nabi_ic_set_mode D s m) w r1).1.server = w.server
      ∧ (World.run (fun s => nabi_ic_set_mode D s m) w r1).1.connections = w.connections
      ∧ (World.run (fun s => nabi_ic_set_mode D s m) w r1).1.toplevels = w.toplevels) := by
  obtain ⟨hm, -, -⟩ := set_mode_spec D (w.view r1) m
  obtain ⟨-, -, hwscope, hwserver, hwconn, hwtop⟩ := set_mode_write_fields (w.view r1) m
  have hserver : (World.run (fun s => nabi_ic_set_mode D s m) w r1).1.server
      = (set_mode_write (w.view r1) m).server := hm.server
  have hconn : (World.run (fun s => nabi_ic_set_mode D s m) w r1).1.connections
      = (match r1.connection, (set_mode_write (w.view r1) m).connection with
         | some c, some obj => Function.update w.connections c obj
         | _, _ => w.connections) := by
    rw [← hm.connection]
    rfl
  have htop : (World.run (fun s => nabi_ic_set_mode D s m) w r1).1.toplevels
      = (match r1.toplevel, (set_mode_write (w.view r1) m).toplevel with
         | some t, some obj => Function.update w.toplevels t obj
         | _, _ => w.toplevels) := by
    rw [← hm.toplevel]
    rfl
  have hfocus : ∀ w1 : World, (World.run (nabi_ic_set_focus D K) w1 r2).2.ic.mode
      = (match w1.server.input_mode_scope with
         | .PER_DESKTOP => w1.server.input_mode
         | .PER_APPLICATION =>
           (match r2.connection.map w1.connections with
            | some c => c.mode
            | none => r2.ic.mode)
         | .PER_TOPLEVEL =>
           (match r2.toplevel.map w1.toplevels with
            | some t => t.mode
            | none => r2.ic.mode)
         | .PER_IC => r2.ic.mode) := fun w1 => set_focus_mode D K (w1.view r2)
  have hview : (w.view r1).server = w.server := rfl
  rw [hview] at hwscope hwserver hwconn hwtop
  rw [hfocus, hserver, hwscope]
  refine ⟨?_, ?_, ?_, ?_⟩
  · intro hs
    rw [hs, hwserver, if_pos hs]
  · intro hs c h1 h2
    rw [hs]
    simp only []
    rw [hconn, hwconn, if_pos hs, h1, h2]
    simp [World.view, h1]
  · intro hs t h1 h2
    rw [hs]
    simp only []
    rw [htop, hwtop, if_pos hs, h1, h2]
    simp [World.view, h1]
  · intro hs
    rw [hs]
    refine ⟨rfl, ?_, ?_, ?_⟩
    · rw [hwserver, if_neg (by rw [hs]; decide)]
    · rw [hconn, hwconn, if_neg (by rw [hs]; decide)]
      cases h1 : r1.connection <;> simp [World.view, h1]
    · rw [htop, hwtop, if_neg (by rw [hs]; decide)]
      cases h1 : r1.toplevel <;> simp [World.view, h1]

/-- C19, at a concrete input: in the toy world two ICs of connection 1 and an
IC of connection 2, all in Direct mode; the first IC enters Compose under
per-application scope, and on focus-in the second IC is in Compose and the
third in Direct. -/
theorem scope_round_trip_witness :
    (World.run (nabi_ic_set_focus toyDeps toyKeyboard)
        (World.run (fun s => nabi_ic_set_mode toyDeps s .COMPOSE) (toyWorld .PER_APPLICATION)
          (toyRef 1 (some 1) none)).1 (toyRef 2 (some 1) none)).2.ic.mode = .COMPOSE
    ∧ (World.run (nabi_ic_set_focus toyDeps toyKeyboard)
        (World.run (fun s => nabi_ic_set_mode toyDeps s .COMPOSE) (toyWorld .PER_APPLICATION)
          (toyRef 1 (some 1) none)).1 (toyRef 3 (some 2) none)).2.ic.mode = .DIRECT :=
  ⟨(scope_round_trip toyDeps toyKeyboard (toyWorld .PER_APPLICATION) (toyRef 1 (some 1) none)
      (toyRef 2 (some 1) none) .COMPOSE).2.1 rfl 1 rfl rfl, by decide⟩

/-- C20: `nabi_ic_hic_on_transition` returns false exactly when auto-reorder is
off and c is a choseong and hic holds a jungseong or a jongseong, or
auto-reorder is off and c is a jungseong and hic holds a jongseong, or the
callback has an IC whose connection needs the charset check and the preedit
fails the conversion to the connection charset.  In every other case it
returns true. -/
theorem hic_on_transition_veto (D : Deps H C) (T : TransitionDeps H) (hic : H) (c : Nat)
    (preedit : Text) (data : Option (St H C)) :
    (nabi_ic_hic_on_transition D T hic c preedit data = false ↔
      (T.auto_reorder = false ∧ D.jamo.hangul_is_choseong c = true
          ∧ (T.hangul_ic_has_jungseong hic = true ∨ T.hangul_ic_has_jongseong hic = true))
      ∨ (T.auto_reorder = false ∧ D.jamo.hangul_is_jungseong c = true
          ∧ T.hangul_ic_has_jongseong hic = true)
      ∨ (∃ s conn cd, data = some s ∧ s.connection = some conn ∧ conn.cd = some cd
          ∧ nabi_connection_need_check_charset s.connection = true
          ∧ D.g_iconv_ok cd preedit = false))
    ∧ (nabi_ic_hic_on_transition D T hic c preedit data = true ↔
      ¬ ((T.auto_reorder = false ∧ D.jamo.hangul_is_choseong c = true
          ∧ (T.hangul_ic_has_jungseong hic = true ∨ T.hangul_ic_has_jongseong hic = true))
      ∨ (T.auto_reorder = false ∧ D.jamo.hangul_is_jungseong c = true
          ∧ T.hangul_ic_has_jongseong hic = true)
      ∨ (∃ s conn cd, data = some s ∧ s.connection = some conn ∧ conn.cd = some cd
          ∧ nabi_connection_need_check_charset s.connection = true
          ∧ D.g_iconv_ok cd preedit = false))) := by
  have hcheck : transition_charset_check D preedit data = false ↔
      ∃ s conn cd, data = some s ∧ s.connection = some conn ∧ conn.cd = some cd
        ∧ nabi_connection_need_check_charset s.connection = true
        ∧ D.g_iconv_ok cd preedit = false := by
    cases data with
    | none => simp [transition_charset_check]
    | some s =>
      cases hc : s.connection with
      | none =>
        simp [transition_charset_check, nabi_connection_is_valid_str, hc]
      | some conn =>
        cases hcd : conn.cd with
        | none =>
          simp [transition_charset_check, nabi_connection_is_valid_str, hc, hcd]
        | some cd =>
          simp [transition_charset_check, nabi_connection_is_valid_str, hc, hcd,
            nabi_connection_need_check_charset]
  have hfalse : nabi_ic_hic_on_transition D T hic c preedit data = false ↔
      (T.auto_reorder = false ∧ D.jamo.hangul_is_choseong c = true
          ∧ (T.hangul_ic_has_jungseong hic = true ∨ T.hangul_ic_has_jongseong hic = true))
      ∨ (T.auto_reorder = false ∧ D.jamo.hangul_is_jungseong c = true
          ∧ T.hangul_ic_has_jongseong hic = true)
      ∨ (∃ s conn cd, data = some s ∧ s.connection = some conn ∧ conn.cd = some cd
          ∧ nabi_connection_need_check_charset s.connection = true
          ∧ D.g_iconv_ok cd preedit = false) := by
    rw [← hcheck]
    unfold nabi_ic_hic_on_transition
    cases T.auto_reorder <;> cases D.jamo.hangul_is_choseong c
      <;> cases D.jamo.hangul_is_jungseong c <;> cases T.hangul_ic_has_jungseong hic
      <;> cases T.hangul_ic_has_jongseong hic <;> simp
  refine ⟨hfalse, ?_⟩
  rw [← hfalse]
  simp

/-- C20, at a concrete input: without auto-reorder the toy automaton holding
the vowel U+1161 vetoes the initial consonant U+1100 and accepts the final
U+11A8. -/
theorem hic_on_transition_veto_witness :
    nabi_ic_hic_on_transition toyDeps toyTransition ⟨[0x1100, 0x1161], []⟩ 0x1100
        [0x1100, 0x1161, 0x1100] (none : Option (St ToyHic (List Hanja))) = false
    ∧ nabi_ic_hic_on_transition toyDeps toyTransition ⟨[0x1100, 0x1161], []⟩ 0x11a8
        [0x1100, 0x1161, 0x11a8] (none : Option (St ToyHic (List Hanja))) = true :=
  ⟨(hic_on_transition_veto toyDeps toyTransition ⟨[0x1100, 0x1161], []⟩ 0x1100
      [0x1100, 0x1161, 0x1100] none).1.mpr (Or.inl ⟨rfl, by decide, Or.inl (by decide)⟩),
    by decide⟩

end LifecycleScopeTransition

end Nabi

/-! ## Runs of printable keys and of BackSpace -/

namespace Nabi

section KeyRuns

variable {H C : Type}

theorem flatten_commit_opt (a : List Text) (t : Text) :
    (a ++ (if t = [] then [] else [t])).flatten = a.flatten ++ t := by
  by_cases h : t = []
  · rw [if_pos h, h, List.append_nil, List.append_nil]
  · rw [if_neg h, List.flatten_append]
    simp

theorem printable_key_iff (D : Deps H C) (key : Nat × Nat) :
    printable_key D key = true ↔
      (XK_exclam ≤ key.1 ∧ key.1 ≤ XK_asciitilde)
      ∧ (XK_exclam ≤ D.nabi_server_normalize_keysym key.1 key.2
          ∧ D.nabi_server_normalize_keysym key.1 key.2 ≤ XK_asciitilde)
      ∧ D.nabi_server_is_off_key key.1 key.2 = false
      ∧ D.nabi_server_is_candidate_key key.1 key.2 = false
      ∧ hasBits key.2 (ControlMask ||| Mod1Mask ||| Mod3Mask ||| Mod4Mask ||| Mod5Mask)
          = false := by
  simp [printable_key, and_assoc]

/-- The dispatcher on a printable key, as the branch it takes. -/
theorem printable_key_branch (D : Deps H C) (s : St H C) (key : Nat × Nat)
    (hcand : s.ic.candidate = none) (hkey : printable_key D key = true) :
    nabi_ic_process_keyevent D s key.1 key.2
      = ((D.hangul_ic_process s.ic.hic (D.nabi_server_normalize_keysym key.1 key.2)).1,
          nabi_ic_preedit_update D (nabi_ic_commit D (s.set_hic
            (D.hangul_ic_process s.ic.hic (D.nabi_server_normalize_keysym key.1 key.2)).2)).2) := by
  obtain ⟨hraw, hnorm, hoff, hck, hmod⟩ := (printable_key_iff D key).mp hkey
  have hshift : ¬ (key.1 = XK_Shift_L ∨ key.1 = XK_Shift_R) := by
    simp only [XK_exclam, XK_asciitilde, XK_Shift_L, XK_Shift_R] at hraw ⊢
    omega
  have hbs : key.1 ≠ XK_BackSpace := by
    simp only [XK_exclam, XK_asciitilde, XK_BackSpace] at hraw ⊢
    omega
  have hnorm1 : D.nabi_server_normalize_keysym key.1 key.2 ≥ XK_exclam
      ∧ D.nabi_server_normalize_keysym key.1 key.2 ≤ XK_asciitilde := hnorm
  unfold nabi_ic_process_keyevent
  rw [hcand]
  simp only [if_neg hshift, hoff, hck, hmod, if_neg hbs, Bool.false_eq_true, if_false,
    if_pos hnorm1]

/-- One printable key in word-commit mode: the text committed so far followed
by the preedit buffer grows by the hic commit string of this key. -/
theorem word_key_step (D : Deps H C) (hD : HicContract D) (s : St H C) (key : Nat × Nat)
    (hword : s.server.commit_by_word = true) (hcand : s.ic.candidate = none)
    (hkey : printable_key D key = true) :
    (nabi_ic_process_keyevent D s key.1 key.2).2.server = s.server
    ∧ (nabi_ic_process_keyevent D s key.1 key.2).2.ic.candidate = none
    ∧ (commit_texts (nabi_ic_process_keyevent D s key.1 key.2).2.out).flatten
          ++ (nabi_ic_process_keyevent D s key.1 key.2).2.ic.preedit.str
        = (commit_texts s.out).flatten ++ s.ic.preedit.str
          ++ D.hangul_ic_get_commit_string
              (D.hangul_ic_process s.ic.hic (D.nabi_server_normalize_keysym key.1 key.2)).2 := by
  rw [printable_key_branch D s key hcand hkey]
  generalize (D.hangul_ic_process s.ic.hic (D.nabi_server_normalize_keysym key.1 key.2)).2 = h1
  have hu := preedit_update_display D (nabi_ic_commit D (s.set_hic h1)).2
  show (nabi_ic_preedit_update D (nabi_ic_commit D (s.set_hic h1)).2).server = s.server
    ∧ (nabi_ic_preedit_update D (nabi_ic_commit D (s.set_hic h1)).2).ic.candidate = none
    ∧ (commit_texts (nabi_ic_preedit_update D (nabi_ic_commit D (s.set_hic h1)).2).out).flatten
        ++ (nabi_ic_preedit_update D (nabi_ic_commit D (s.set_hic h1)).2).ic.preedit.str
      = (commit_texts s.out).flatten ++ s.ic.preedit.str ++ D.hangul_ic_get_commit_string h1
  rw [hu.server, hu.candidate, hu.commits, hu.str]
  have hw1 : (s.set_hic h1).server.commit_by_word = true := hword
  unfold nabi_ic_commit
  rw [if_pos hw1]
  simp only [ustring_append]
  cases he : D.hangul_ic_is_empty h1 with
  | false =>
    have he1 : D.hangul_ic_is_empty (((s.set_hic h1).set_str
        ((s.set_hic h1).ic.preedit.str ++ D.hangul_ic_get_commit_string (s.set_hic h1).ic.hic)).ic.hic)
        = false := he
    simp only [he1, Bool.false_eq_true, if_false]
    exact ⟨rfl, hcand, by simp [St.set_str, St.set_hic]⟩
  | true =>
    have he1 : D.hangul_ic_is_empty (((s.set_hic h1).set_str
        ((s.set_hic h1).ic.preedit.str ++ D.hangul_ic_get_commit_string (s.set_hic h1).ic.hic)).ic.hic)
        = true := he
    simp only [he1, if_true]
    obtain ⟨hstr, -, hserver, hcd, hcommits⟩ := flush_fields D ((s.set_hic h1).set_str
        ((s.set_hic h1).ic.preedit.str ++ D.hangul_ic_get_commit_string (s.set_hic h1).ic.hic))
    rw [hserver, hcd, hcommits, hstr]
    have hfl : (D.hangul_ic_flush h1).1 = [] := by
      rw [hD.flush_preedit]
      exact (hD.empty_iff h1).mp he
    refine ⟨rfl, hcand, ?_⟩
    show (commit_texts s.out
        ++ (if (s.ic.preedit.str ++ D.hangul_ic_get_commit_string h1) ++ (D.hangul_ic_flush h1).1
              = [] then []
            else [(s.ic.preedit.str ++ D.hangul_ic_get_commit_string h1)
              ++ (D.hangul_ic_flush h1).1])).flatten ++ []
      = (commit_texts s.out).flatten ++ s.ic.preedit.str ++ D.hangul_ic_get_commit_string h1
    rw [flatten_commit_opt, hfl, List.append_nil, List.append_nil, List.append_assoc]

/-- A run of printable keys in word-commit mode: the text committed so far
followed by the preedit buffer grows by the hic commit strings of the keys. -/
theorem word_keys_run (D : Deps H C) (hD : HicContract D) (keys : List (Nat × Nat)) :
    ∀ s : St H C, s.server.commit_by_word = true → s.ic.candidate = none →
      (∀ key ∈ keys, printable_key D key = true) →
      (commit_texts (dispatch_keys D s keys).2.out).flatten
          ++ (dispatch_keys D s keys).2.ic.preedit.str
        = (commit_texts s.out).flatten ++ s.ic.preedit.str
          ++ (process_commit_strings D s keys).flatten := by
  induction keys with
  | nil =>
    intro s _ _ _
    simp [dispatch_keys, process_commit_strings]
  | cons key rest ih =>
    intro s hword hcand hkeys
    obtain ⟨hserver, hcand1, hstep⟩ := word_key_step D hD s key hword hcand
      (hkeys key (List.mem_cons_self _ _))
    have hrest := ih (nabi_ic_process_keyevent D s key.1 key.2).2 (by rw [hserver]; exact hword)
      hcand1 (fun k hk => hkeys k (List.mem_cons_of_mem _ hk))
    obtain ⟨keysym, state⟩ := key
    simp only [dispatch_keys, process_commit_strings, List.flatten_cons]
    rw [hrest, hstep]
    simp only [List.append_assoc]

/-- The dispatcher on BackSpace, as the branch it takes. -/
theorem backspace_step (D : Deps H C) (s : St H C) (state : Nat)
    (hcand : s.ic.candidate = none)
    (hoff : D.nabi_server_is_off_key XK_BackSpace state = false)
    (hkey : D.nabi_server_is_candidate_key XK_BackSpace state = false)
    (hmod : hasBits state (ControlMask ||| Mod1Mask ||| Mod3Mask ||| Mod4Mask ||| Mod5Mask)
      = false) :
    ((D.hangul_ic_backspace s.ic.hic).1 = true →
        nabi_ic_process_keyevent D s XK_BackSpace state
          = (true, nabi_ic_preedit_update D (s.set_hic (D.hangul_ic_backspace s.ic.hic).2)))
    ∧ ((D.hangul_ic_backspace s.ic.hic).1 = false → s.ic.preedit.str ≠ [] →
        nabi_ic_process_keyevent D s XK_BackSpace state
          = (true, nabi_ic_preedit_update D ((s.set_hic (D.hangul_ic_backspace s.ic.hic).2).set_str
              s.ic.preedit.str.dropLast)))
    ∧ ((D.hangul_ic_backspace s.ic.hic).1 = false → s.ic.preedit.str = [] →
        nabi_ic_process_keyevent D s XK_BackSpace state
          = (false, s.set_hic (D.hangul_ic_backspace s.ic.hic).2)) := by
  have hshift : ¬ (XK_BackSpace = XK_Shift_L ∨ XK_BackSpace = XK_Shift_R) := by decide
  have hdef : nabi_ic_process_keyevent D s XK_BackSpace state
      = if (D.hangul_ic_backspace s.ic.hic).1 = true then
          ((D.hangul_ic_backspace s.ic.hic).1,
            nabi_ic_preedit_update D (s.set_hic (D.hangul_ic_backspace s.ic.hic).2))
        else if ustring_length s.ic.preedit.str > 0 then
          (true, nabi_ic_preedit_update D
            ((s.set_hic (D.hangul_ic_backspace s.ic.hic).2).set_str
              (ustring_erase s.ic.preedit.str (ustring_length s.ic.preedit.str - 1) 1)))
        else ((D.hangul_ic_backspace s.ic.hic).1, s.set_hic (D.hangul_ic_backspace s.ic.hic).2) := by
    unfold nabi_ic_process_keyevent
    rw [hcand]
    simp only [if_neg hshift, hoff, hkey, hmod, if_true, if_false, Bool.false_eq_true]
    rfl
  rw [hdef]
  refine ⟨?_, ?_, ?_⟩
  · intro hb
    rw [if_pos hb, hb]
  · intro hb hne
    have hlen : ustring_length s.ic.preedit.str > 0 := List.length_pos.mpr hne
    rw [if_neg (by simp [hb]), if_pos hlen, ustring_erase_last]
  · intro hb he
    have hlen : ¬ ustring_length s.ic.preedit.str > 0 := by simp [ustring_length, he]
    rw [if_neg (by simp [hb]), if_neg hlen, hb]

/-- BackSpace pressed k times, k at most the jamo of hic plus the scalars of
the buffer: every press is consumed, the jamo go first, then the scalars
of the buffer from its end. -/
theorem backspace_run (D : Deps H C) (jamo_count : H → Nat)
    (hB : BackspaceContract D jamo_count) (state : Nat)
    (hoff : D.nabi_server_is_off_key XK_BackSpace state = false)
    (hkey : D.nabi_server_is_candidate_key XK_BackSpace state = false)
    (hmod : hasBits state (ControlMask ||| Mod1Mask ||| Mod3Mask ||| Mod4Mask ||| Mod5Mask)
      = false) (k : Nat) :
    ∀ s : St H C, s.ic.candidate = none →
      k ≤ jamo_count s.ic.hic + s.ic.preedit.str.length →
      (dispatch_keys D s (List.replicate k (XK_BackSpace, state))).1 = List.replicate k true
      ∧ (dispatch_keys D s (List.replicate k (XK_BackSpace, state))).2.ic.candidate = none
      ∧ jamo_count (dispatch_keys D s (List.replicate k (XK_BackSpace, state))).2.ic.hic
          = jamo_count s.ic.hic - k
      ∧ (dispatch_keys D s (List.replicate k (XK_BackSpace, state))).2.ic.preedit.str
          = s.ic.preedit.str.take (s.ic.preedit.str.length - (k - jamo_count s.ic.hic)) := by
  induction k with
  | zero =>
    intro s hcand _
    exact ⟨rfl, hcand, rfl, by simp [dispatch_keys]⟩
  | succ k ih =>
    intro s hcand hk
    obtain ⟨h1, h2, -⟩ := backspace_step D s state hcand hoff hkey hmod
    simp only [List.replicate_succ, dispatch_keys]
    rcases Nat.eq_zero_or_pos (jamo_count s.ic.hic) with hz | hp
    · obtain ⟨hret, hcount⟩ := hB.rejects_empty _ hz
      have hlen : 0 < s.ic.preedit.str.length := by omega
      have hne : s.ic.preedit.str ≠ [] := List.length_pos.mp hlen
      rw [h2 hret hne]
      have hu := preedit_update_display D ((s.set_hic (D.hangul_ic_backspace s.ic.hic).2).set_str
        s.ic.preedit.str.dropLast)
      have hhic : (nabi_ic_preedit_update D ((s.set_hic (D.hangul_ic_backspace s.ic.hic).2).set_str
          s.ic.preedit.str.dropLast)).ic.hic = (D.hangul_ic_backspace s.ic.hic).2 := hu.hic
      have hstr : (nabi_ic_preedit_update D ((s.set_hic (D.hangul_ic_backspace s.ic.hic).2).set_str
          s.ic.preedit.str.dropLast)).ic.preedit.str = s.ic.preedit.str.dropLast := hu.str
      have hcd : (nabi_ic_preedit_update D ((s.set_hic (D.hangul_ic_backspace s.ic.hic).2).set_str
          s.ic.preedit.str.dropLast)).ic.candidate = none := hu.candidate.trans hcand
      obtain ⟨i1, i2, i3, i4⟩ := ih _ hcd (by
        rw [hhic, hstr, hcount, List.length_dropLast]
        omega)
      refine ⟨by rw [i1], i2, ?_, ?_⟩
      · rw [i3, hhic, hcount, hz]
        omega
      · rw [i4, hhic, hstr, hcount, hz, List.length_dropLast, List.dropLast_eq_take,
          List.take_take]
        congr 1
        omega
    · obtain ⟨hret, hcount⟩ := hB.removes_one _ hp
      rw [h1 hret]
      have hu := preedit_update_display D (s.set_hic (D.hangul_ic_backspace s.ic.hic).2)
      have hhic : (nabi_ic_preedit_update D (s.set_hic (D.hangul_ic_backspace s.ic.hic).2)).ic.hic
          = (D.hangul_ic_backspace s.ic.hic).2 := hu.hic
      have hstr : (nabi_ic_preedit_update D
          (s.set_hic (D.hangul_ic_backspace s.ic.hic).2)).ic.preedit.str = s.ic.preedit.str :=
        hu.str
      have hcd : (nabi_ic_preedit_update D
          (s.set_hic (D.hangul_ic_backspace s.ic.hic).2)).ic.candidate = none :=
        hu.candidate.trans hcand
      obtain ⟨i1, i2, i3, i4⟩ := ih _ hcd (by
        rw [hhic, hstr]
        omega)
      refine ⟨by rw [i1], i2, ?_, ?_⟩
      · rw [i3, hhic]
        omega
      · rw [i4, hhic, hstr]
        congr 2
        omega

/-- BackSpace pressed m times on an IC with hic empty and the buffer empty:
every press is passed through, and only hic, which stays empty, is touched. -/
theorem backspace_pass (D : Deps H C) (jamo_count : H → Nat)
    (hB : BackspaceContract D jamo_count) (state : Nat)
    (hoff : D.nabi_server_is_off_key XK_BackSpace state = false)
    (hkey : D.nabi_server_is_candidate_key XK_BackSpace state = false)
    (hmod : hasBits state (ControlMask ||| Mod1Mask ||| Mod3Mask ||| Mod4Mask ||| Mod5Mask)
      = false) (m : Nat) :
    ∀ s : St H C, s.ic.candidate = none → jamo_count s.ic.hic = 0 → s.ic.preedit.str = [] →
      (dispatch_keys D s (List.replicate m (XK_BackSpace, state))).1 = List.replicate m false
      ∧ (dispatch_keys D s (List.replicate m (XK_BackSpace, state))).2
          = s.set_hic (dispatch_keys D s (List.replicate m (XK_BackSpace, state))).2.ic.hic
      ∧ jamo_count (dispatch_keys D s (List.replicate m (XK_BackSpace, state))).2.ic.hic = 0
      ∧ ((∀ h, jamo_count h = 0 → (D.hangul_ic_backspace h).2 = h) →
          (dispatch_keys D s (List.replicate m (XK_BackSpace, state))).2 = s) := by
  induction m with
  | zero =>
    intro s _ hz _
    exact ⟨rfl, rfl, hz, fun _ => rfl⟩
  | succ m ih =>
    intro s hcand hz hbuf
    obtain ⟨-, -, h3⟩ := backspace_step D s state hcand hoff hkey hmod
    obtain ⟨hret, hcount⟩ := hB.rejects_empty _ hz
    simp only [List.replicate_succ, dispatch_keys]
    rw [h3 hret hbuf]
    obtain ⟨i1, i2, i3, i4⟩ := ih (s.set_hic (D.hangul_ic_backspace s.ic.hic).2) hcand hcount hbuf
    refine ⟨by rw [i1], ?_, i3, ?_⟩
    · exact i2
    · intro hid
      rw [i4 hid]
      show s.set_hic (D.hangul_ic_backspace s.ic.hic).2 = s
      rw [hid _ hz]
      rfl

theorem toy_backspace_contract : BackspaceContract toyDeps toy_jamo_count where
  empty_iff h := by
    cases h with
    | mk p c => cases p <;> simp [toyDeps, toy_jamo_count]
  removes_one h hp := by
    cases h with
    | mk p c =>
      cases p with
      | nil => simp [toy_jamo_count] at hp
      | cons x t => simp [toyDeps, toy_jamo_count]
  rejects_empty h hz := by
    cases h with
    | mk p c =>
      cases p with
      | nil => simp [toyDeps, toy_jamo_count]
      | cons x t => simp [toy_jamo_count] at hz

end KeyRuns

end Nabi

/-! ## Word-commit conservation and backspace ordering -/

namespace Nabi

section Conservation

variable {H C : Type}

/-- C11: word-commit conservation.  In word-commit mode, for every sequence of
printable keys dispatched with none of Ctrl/Alt/Mod3/Mod4/Mod5 to an IC with no
candidate window and followed by `nabi_ic_flush`, the concatenation of all
Commit texts sent is what was committed before, the initial preedit buffer
(empty for an initially empty IC), the hic commit strings produced by the
`hangul_ic_process` calls in key order, and the final hic flush string. -/
theorem word_commit_conservation (D : Deps H C) (hD : HicContract D) (s : St H C)
    (keys : List (Nat × Nat))
    (hword : s.server.commit_by_word = true) (hcand : s.ic.candidate = none)
    (hkeys : ∀ key ∈ keys, printable_key D key = true) :
    (commit_texts (nabi_ic_flush D (dispatch_keys D s keys).2).out).flatten
      = (commit_texts s.out).flatten ++ s.ic.preedit.str
        ++ (process_commit_strings D s keys).flatten
        ++ (D.hangul_ic_flush (dispatch_keys D s keys).2.ic.hic).1 := by
  have hrun := word_keys_run D hD keys s hword hcand hkeys
  rw [(flush_fields D (dispatch_keys D s keys).2).2.2.2.2, flatten_commit_opt,
    ← List.append_assoc, hrun]

/-- C11, at scenario E3 with the toy automaton: the keys a, b, c in word mode
to the empty IC give the hic commit strings [], [a], [b] and the flush string
[c]; the text committed is a b c, in one Commit sent by the flush. -/
theorem word_commit_conservation_witness :
    (commit_texts (nabi_ic_flush toyDeps (dispatch_keys toyDeps
        (toySt ⟨[], []⟩ [] none none "hanja") [(0x61, 0), (0x62, 0), (0x63, 0)]).2).out).flatten
      = (commit_texts (toySt ⟨[], []⟩ [] none none "hanja").out).flatten
        ++ (toySt ⟨[], []⟩ [] none none "hanja").ic.preedit.str
        ++ (process_commit_strings toyDeps (toySt ⟨[], []⟩ [] none none "hanja")
            [(0x61, 0), (0x62, 0), (0x63, 0)]).flatten
        ++ (toyDeps.hangul_ic_flush (dispatch_keys toyDeps
            (toySt ⟨[], []⟩ [] none none "hanja")
            [(0x61, 0), (0x62, 0), (0x63, 0)]).2.ic.hic).1
    ∧ process_commit_strings toyDeps (toySt ⟨[], []⟩ [] none none "hanja")
        [(0x61, 0), (0x62, 0), (0x63, 0)] = [[], [0x61], [0x62]]
    ∧ commit_texts (nabi_ic_flush toyDeps (dispatch_keys toyDeps
        (toySt ⟨[], []⟩ [] none none "hanja") [(0x61, 0), (0x62, 0), (0x63, 0)]).2).out
      = [[0x61, 0x62, 0x63]] :=
  ⟨word_commit_conservation toyDeps toyDeps_contract (toySt ⟨[], []⟩ [] none none "hanja")
      [(0x61, 0), (0x62, 0), (0x63, 0)] rfl rfl (by decide),
    by decide, by decide⟩

/-- C14: backspace ordering, for an automaton whose backspace removes one jamo
and is rejected exactly when the automaton is empty.  On an IC with no
candidate window BackSpace, with no Ctrl/Alt/Mod3/Mod4/Mod5, is pressed
repeatedly.  With N the jamo of hic plus the scalars of the buffer, each of the
first N presses is consumed; the jamo of hic go first, then the buffer from its
end; after N presses hic and the buffer are empty.  Every further press
is passed through: nothing but hic is touched, hic stays empty, and the state
is the very same when a rejected backspace leaves hic as it was. -/
theorem backspace_reaches_empty (D : Deps H C) (jamo_count : H → Nat)
    (hB : BackspaceContract D jamo_count) (s : St H C) (state : Nat)
    (hcand : s.ic.candidate = none)
    (hoff : D.nabi_server_is_off_key XK_BackSpace state = false)
    (hkey : D.nabi_server_is_candidate_key XK_BackSpace state = false)
    (hmod : hasBits state (ControlMask ||| Mod1Mask ||| Mod3Mask ||| Mod4Mask ||| Mod5Mask)
      = false) :
    (∀ k, k ≤ jamo_count s.ic.hic + s.ic.preedit.str.length →
      (dispatch_keys D s (List.replicate k (XK_BackSpace, state))).1 = List.replicate k true
      ∧ jamo_count (dispatch_keys D s (List.replicate k (XK_BackSpace, state))).2.ic.hic
          = jamo_count s.ic.hic - k
      ∧ (dispatch_keys D s (List.replicate k (XK_BackSpace, state))).2.ic.preedit.str
          = s.ic.preedit.str.take (s.ic.preedit.str.length - (k - jamo_count s.ic.hic)))
    ∧ D.hangul_ic_is_empty (dispatch_keys D s (List.replicate
        (jamo_count s.ic.hic + s.ic.preedit.str.length) (XK_BackSpace, state))).2.ic.hic = true
    ∧ (dispatch_keys D s (List.replicate
        (jamo_count s.ic.hic + s.ic.preedit.str.length) (XK_BackSpace, state))).2.ic.preedit.str
        = []
    ∧ ∀ m,
      (dispatch_keys D (dispatch_keys D s (List.replicate
          (jamo_count s.ic.hic + s.ic.preedit.str.length) (XK_BackSpace, state))).2
        (List.replicate m (XK_BackSpace, state))).1 = List.replicate m false
      ∧ (dispatch_keys D (dispatch_keys D s (List.replicate
          (jamo_count s.ic.hic + s.ic.preedit.str.length) (XK_BackSpace, state))).2
        (List.replicate m (XK_BackSpace, state))).2
        = (dispatch_keys D s (List.replicate
            (jamo_count s.ic.hic + s.ic.preedit.str.length) (XK_BackSpace, state))).2.set_hic
          (dispatch_keys D (dispatch_keys D s (List.replicate
              (jamo_count s.ic.hic + s.ic.preedit.str.length) (XK_BackSpace, state))).2
            (List.replicate m (XK_BackSpace, state))).2.ic.hic
      ∧ D.hangul_ic_is_empty (dispatch_keys D (dispatch_keys D s (List.replicate
          (jamo_count s.ic.hic + s.ic.preedit.str.length) (XK_BackSpace, state))).2
        (List.replicate m (XK_BackSpace, state))).2.ic.hic = true
      ∧ ((∀ h, jamo_count h = 0 → (D.hangul_ic_backspace h).2 = h) →
          (dispatch_keys D (dispatch_keys D s (List.replicate
              (jamo_count s.ic.hic + s.ic.preedit.str.length) (XK_BackSpace, state))).2
            (List.replicate m (XK_BackSpace, state))).2
          = (dispatch_keys D s (List.replicate
              (jamo_count s.ic.hic + s.ic.preedit.str.length) (XK_BackSpace, state))).2) := by
  have hrun := fun k => backspace_run D jamo_count hB state hoff hkey hmod k s hcand
  obtain ⟨-, hcd, hcount, hstr⟩ := hrun _ (Nat.le_refl _)
  have hz : jamo_count (dispatch_keys D s (List.replicate
      (jamo_count s.ic.hic + s.ic.preedit.str.length) (XK_BackSpace, state))).2.ic.hic = 0 := by
    rw [hcount]
    omega
  have hnil : (dispatch_keys D s (List.replicate
      (jamo_count s.ic.hic + s.ic.preedit.str.length) (XK_BackSpace, state))).2.ic.preedit.str
      = [] := by
    rw [hstr]
    have hl : s.ic.preedit.str.length
        - (jamo_count s.ic.hic + s.ic.preedit.str.length - jamo_count s.ic.hic) = 0 := by omega
    rw [hl, List.take_zero]
  refine ⟨fun k hk => ⟨(hrun k hk).1, (hrun k hk).2.2.1, (hrun k hk).2.2.2⟩,
    (hB.empty_iff _).mpr hz, hnil, fun m => ?_⟩
  obtain ⟨p1, p2, p3, p4⟩ := backspace_pass D jamo_count hB state hoff hkey hmod m _ hcd hz hnil
  exact ⟨p1, p2, (hB.empty_iff _).mpr p3, p4⟩

/-- C14, at a concrete input: the toy automaton composes one scalar and the
buffer holds two syllables; three BackSpaces are consumed and empty the IC,
the fourth and fifth are passed through. -/
theorem backspace_reaches_empty_witness :
    (dispatch_keys toyDeps (toySt ⟨[0x61], []⟩ [0xac00, 0xb098] none none "hanja")
        (List.replicate 3 (XK_BackSpace, 0))).1 = [true, true, true]
    ∧ (dispatch_keys toyDeps (toySt ⟨[0x61], []⟩ [0xac00, 0xb098] none none "hanja")
        (List.replicate 5 (XK_BackSpace, 0))).1 = [true, true, true, false, false]
    ∧ (dispatch_keys toyDeps (toySt ⟨[0x61], []⟩ [0xac00, 0xb098] none none "hanja")
        (List.replicate (toy_jamo_count ⟨[0x61], []⟩ + 2) (XK_BackSpace, 0))).2.ic.preedit.str
        = [] :=
  ⟨by decide, by decide,
    (backspace_reaches_empty toyDeps toy_jamo_count toy_backspace_contract
      (toySt ⟨[0x61], []⟩ [0xac00, 0xb098] none none "hanja") 0 rfl (by decide) (by decide)
      (by decide)).2.2.1⟩

end Conservation

end Nabi

/-! ## The iterator in bounds and the syllable starts -/

namespace Nabi

section IteratorBounds

/-- What the loop of `ustr_syllable_iter_prev` returns when started at an index
`i` at or after `begin`: an index between `begin` and `i` that is `begin` or
has a syllable boundary before it, with no boundary after it up to `i`. -/
theorem iter_prev_loop_spec (J : JamoClass) (buf : List Nat) (b : Nat) :
    ∀ i, b ≤ i →
      b ≤ ustr_syllable_iter_prev_loop J buf b i
      ∧ ustr_syllable_iter_prev_loop J buf b i ≤ i
      ∧ (ustr_syllable_iter_prev_loop J buf b i = b
          ∨ is_syllable_boundary J
              (buf.getD (ustr_syllable_iter_prev_loop J buf b i - 1) 0)
              (buf.getD (ustr_syllable_iter_prev_loop J buf b i) 0) = true)
      ∧ ∀ j, ustr_syllable_iter_prev_loop J buf b i < j → j ≤ i →
          is_syllable_boundary J (buf.getD (j - 1) 0) (buf.getD j 0) = false
  | 0, h => by
    have hb : b = 0 := by omega
    subst hb
    refine ⟨Nat.le_refl _, Nat.le_refl _, Or.inl rfl, ?_⟩
    intro j h1 h2
    simp only [ustr_syllable_iter_prev_loop] at h1
    omega
  | i + 1, h => by
    unfold ustr_syllable_iter_prev_loop
    by_cases hi : i + 1 > b
    · rw [if_pos hi]
      cases hbd : is_syllable_boundary J (buf.getD i 0) (buf.getD (i + 1) 0) with
      | true =>
        simp only [if_true]
        refine ⟨h, Nat.le_refl _, Or.inr ?_, ?_⟩
        · simpa using hbd
        · intro j h1 h2
          omega
      | false =>
        simp only [Bool.false_eq_true, if_false]
        obtain ⟨h1, h2, h3, h4⟩ := iter_prev_loop_spec J buf b i (by omega)
        refine ⟨h1, by omega, h3, ?_⟩
        intro j hj1 hj2
        by_cases hje : j = i + 1
        · subst hje
          simpa using hbd
        · exact h4 j hj1 (by omega)
    · rw [if_neg hi]
      have hb : b = i + 1 := by omega
      refine ⟨h, Nat.le_refl _, Or.inl hb.symm, ?_⟩
      intro j h1 h2
      omega

/-- What `ustr_syllable_iter_prev` returns for a position at or after `begin`. -/
theorem iter_prev_spec (J : JamoClass) (buf : List Nat) (iter b : Nat) (h : b ≤ iter) :
    b ≤ ustr_syllable_iter_prev J buf iter b
    ∧ ustr_syllable_iter_prev J buf iter b ≤ iter
    ∧ (b < iter → ustr_syllable_iter_prev J buf iter b < iter)
    ∧ (ustr_syllable_iter_prev J buf iter b = b
        ∨ is_syllable_boundary J
            (buf.getD (ustr_syllable_iter_prev J buf iter b - 1) 0)
            (buf.getD (ustr_syllable_iter_prev J buf iter b) 0) = true)
    ∧ ∀ j, ustr_syllable_iter_prev J buf iter b < j → j < iter →
        is_syllable_boundary J (buf.getD (j - 1) 0) (buf.getD j 0) = false := by
  unfold ustr_syllable_iter_prev
  by_cases hi : iter > b
  · rw [if_pos hi]
    obtain ⟨h1, h2, h3, h4⟩ := iter_prev_loop_spec J buf b (iter - 1) (by omega)
    exact ⟨h1, by omega, fun _ => by omega, h3, fun j hj1 hj2 => h4 j hj1 (by omega)⟩
  · rw [if_neg hi]
    obtain ⟨h1, h2, h3, h4⟩ := iter_prev_loop_spec J buf b iter h
    exact ⟨h1, h2, fun hlt => absurd hlt hi, h3, fun j hj1 hj2 => h4 j hj1 (by omega)⟩

/-- The instrumented loop returns what the loop returns, and reads only
indices between `begin` and its starting index. -/
theorem iter_prev_loop_reads_spec (J : JamoClass) (buf : List Nat) (b : Nat) :
    ∀ i, (ustr_syllable_iter_prev_loop_reads J buf b i).1 = ustr_syllable_iter_prev_loop J buf b i
      ∧ ∀ j ∈ (ustr_syllable_iter_prev_loop_reads J buf b i).2, b ≤ j ∧ j ≤ i
  | 0 => by simp [ustr_syllable_iter_prev_loop_reads, ustr_syllable_iter_prev_loop]
  | i + 1 => by
    unfold ustr_syllable_iter_prev_loop_reads ustr_syllable_iter_prev_loop
    by_cases hi : i + 1 > b
    · rw [if_pos hi, if_pos hi]
      cases hbd : is_syllable_boundary J (buf.getD i 0) (buf.getD (i + 1) 0) with
      | true =>
        simp only [if_true, true_and]
        intro j hj
        simp only [List.mem_cons, List.mem_singleton, List.not_mem_nil, or_false] at hj
        omega
      | false =>
        simp only [Bool.false_eq_true, if_false]
        obtain ⟨h1, h2⟩ := iter_prev_loop_reads_spec J buf b i
        refine ⟨h1, ?_⟩
        intro j hj
        simp only [List.mem_cons] at hj
        rcases hj with hj | hj | hj
        · omega
        · omega
        · have := h2 j hj
          omega
    · rw [if_neg hi, if_neg hi]
      simp

end IteratorBounds

section SyllableStarts

theorem syllables_before_succ (J : JamoClass) (buf : List Nat) (p : Nat) :
    syllables_before J buf (p + 1)
      = syllables_before J buf p + (if is_syllable_start J buf p = true then 1 else 0) := by
  unfold syllables_before
  rw [List.range_succ, List.filter_append, List.length_append]
  by_cases h : is_syllable_start J buf p = true
  · simp [h]
  · simp [h]

/-- A stretch with no syllable start adds no syllable. -/
theorem syllables_before_stretch (J : JamoClass) (buf : List Nat) (r : Nat) :
    ∀ d, (∀ j, r ≤ j → j < r + d → is_syllable_start J buf j = false) →
      syllables_before J buf (r + d) = syllables_before J buf r
  | 0, _ => rfl
  | d + 1, h => by
    rw [← Nat.add_assoc, syllables_before_succ, h (r + d) (by omega) (by omega),
      syllables_before_stretch J buf r d (fun j h1 h2 => h j h1 (by omega))]
    simp

/-- One iterator step from a position after the start goes back over exactly
one syllable, to a syllable start. -/
theorem syllables_before_step (J : JamoClass) (buf : List Nat) (p : Nat) (hp : 0 < p) :
    is_syllable_start J buf (ustr_syllable_iter_prev J buf p 0) = true
    ∧ syllables_before J buf p
        = syllables_before J buf (ustr_syllable_iter_prev J buf p 0) + 1 := by
  obtain ⟨-, -, h3, h4, h5⟩ := iter_prev_spec J buf p 0 (Nat.zero_le _)
  have hlt := h3 hp
  have hstart : is_syllable_start J buf (ustr_syllable_iter_prev J buf p 0) = true := by
    unfold is_syllable_start
    rcases h4 with h | h
    · rw [h]
      rfl
    · rw [h]
      simp
  refine ⟨hstart, ?_⟩
  have hstretch := syllables_before_stretch J buf (ustr_syllable_iter_prev J buf p 0 + 1)
    (p - (ustr_syllable_iter_prev J buf p 0 + 1)) (by
      intro j h1 h2
      unfold is_syllable_start
      rw [h5 j (by omega) (by omega)]
      have : (j == 0) = false := by
        rw [beq_eq_false_iff_ne]
        omega
      rw [this]
      rfl)
  rw [show ustr_syllable_iter_prev J buf p 0 + 1 + (p - (ustr_syllable_iter_prev J buf p 0 + 1))
    = p by omega] at hstretch
  rw [hstretch, syllables_before_succ, hstart]
  simp

/-- The retraction loop on a prefix of the buffer, with `iter` at its end:
it stops at a prefix that holds `min k (syllables of the prefix)` syllables
less, and has taken as many from the counter. -/
theorem retract_preedit_loop_starts (J : JamoClass) (buf : UString) :
    ∀ (k p : Nat), p ≤ buf.length →
      (retract_preedit_loop J k (buf.take p) p).1
          = buf.take (retract_preedit_loop J k (buf.take p) p).2.1
      ∧ (retract_preedit_loop J k (buf.take p) p).2.1 ≤ p
      ∧ syllables_before J buf (retract_preedit_loop J k (buf.take p) p).2.1
          = syllables_before J buf p - min k (syllables_before J buf p)
      ∧ (retract_preedit_loop J k (buf.take p) p).2.2
          = k - min k (syllables_before J buf p)
      ∧ ((retract_preedit_loop J k (buf.take p) p).2.1 = p
          ∨ is_syllable_start J buf (retract_preedit_loop J k (buf.take p) p).2.1 = true)
  | 0, p, _ => by
    simp [retract_preedit_loop]
  | k + 1, p, hp => by
    unfold retract_preedit_loop
    have hlen : ustring_length (buf.take p) = p := by
      unfold ustring_length
      rw [List.length_take, Nat.min_eq_left hp]
    rw [hlen]
    by_cases h0 : p > 0
    · rw [if_pos h0]
      simp only []
      have hcongr : ustr_syllable_iter_prev J (buf.take p) p 0 = ustr_syllable_iter_prev J buf p 0 :=
        iter_prev_congr J (buf.take p) buf p (fun j hj => getD_take_of_lt buf p j hj)
      rw [hcongr]
      have hlt := iter_prev_lt J buf p h0
      have herase : ustring_erase (buf.take p) (ustr_syllable_iter_prev J buf p 0)
          (p - ustr_syllable_iter_prev J buf p 0)
          = buf.take (ustr_syllable_iter_prev J buf p 0) := by
        have := ustring_erase_to_end (buf.take p) (ustr_syllable_iter_prev J buf p 0)
          (by rw [List.length_take, Nat.min_eq_left hp]; omega)
        rw [hlen] at this
        rw [this, List.take_take, Nat.min_eq_left (by omega)]
      rw [herase]
      obtain ⟨i1, i2, i3, i4, i5⟩ := retract_preedit_loop_starts J buf k
        (ustr_syllable_iter_prev J buf p 0) (by omega)
      obtain ⟨hstart, hstep⟩ := syllables_before_step J buf p h0
      refine ⟨i1, by omega, ?_, ?_, ?_⟩
      · rw [i3, hstep]
        omega
      · rw [i4, hstep]
        omega
      · rcases i5 with h | h
        · rw [h]
          exact Or.inr hstart
        · exact Or.inr h
    · rw [if_neg h0]
      have hp0 : p = 0 := by omega
      subst hp0
      simp [syllables_before]

end SyllableStarts

end Nabi

/-! ## The lookup key of the candidate window -/

namespace Nabi

section LookupKey

variable {H C : Type}

theorem takeWhile_append_all {α : Type} (p : α → Bool) (l1 l2 : List α) :
    (l1 ++ l2).takeWhile p = if l1.all p = true then l1 ++ l2.takeWhile p else l1.takeWhile p := by
  induction l1 with
  | nil => simp
  | cons a t ih =>
    rw [List.cons_append, List.takeWhile_cons, List.takeWhile_cons, List.all_cons]
    cases hp : p a with
    | true =>
      simp only [if_true, Bool.true_and, ih]
      split_ifs <;> rfl
    | false => simp

/-- The substring after the last space, scalar by scalar from the front. -/
theorem after_last_space_cons (c : Nat) (rest : Text) :
    after_last_space (c :: rest)
      = if 0x20 ∈ rest then after_last_space rest
        else if c = 0x20 then rest else c :: rest := by
  unfold after_last_space
  rw [List.reverse_cons, takeWhile_append_all]
  by_cases hm : 0x20 ∈ rest
  · rw [if_pos hm, if_neg]
    simp only [List.all_eq_true, List.mem_reverse, bne_iff_ne, ne_eq, not_forall]
    exact ⟨0x20, hm, by simp⟩
  · have hall : (rest.reverse.all fun c => c != 0x20) = true := by
      simp only [List.all_eq_true, List.mem_reverse, bne_iff_ne, ne_eq]
      intro x hx hx2
      exact hm (hx2 ▸ hx)
    rw [if_neg hm, if_pos hall]
    by_cases hc : c = 0x20
    · rw [if_pos hc, hc]
      simp
    · rw [if_neg hc]
      have : (c != 0x20) = true := by simpa using hc
      simp [List.takeWhile_cons, this]

theorem after_last_space_no_space (key : Text) (h : 0x20 ∉ key) : after_last_space key = key := by
  induction key with
  | nil => rfl
  | cons c rest _ =>
    rw [after_last_space_cons]
    rw [List.mem_cons, not_or] at h
    rw [if_neg h.2, if_neg (fun hc => h.1 hc.symm)]

/-- The libc `strrchr` for the space, against the substring after the last
space. -/
theorem strrchr_space (key : Text) :
    (strrchr key 0x20 = none ∧ 0x20 ∉ key)
    ∨ (strrchr key 0x20 = some (0x20 :: after_last_space key)
        ∧ (0x20 :: after_last_space key) <:+ key) := by
  induction key with
  | nil => exact Or.inl ⟨rfl, by simp⟩
  | cons c rest ih =>
    unfold strrchr
    rcases ih with ⟨h1, h2⟩ | ⟨h1, h2⟩
    · rw [h1]
      by_cases hc : c = 0x20
      · refine Or.inr ?_
        simp only [if_pos hc]
        rw [after_last_space_cons, if_neg h2, if_pos hc, hc]
        exact ⟨rfl, List.suffix_refl _⟩
      · refine Or.inl ?_
        simp only [if_neg hc, true_and]
        rw [List.mem_cons, not_or]
        exact ⟨fun h => hc h.symm, h2⟩
    · rw [h1]
      refine Or.inr ?_
      have hm : 0x20 ∈ rest := h2.subset (List.mem_cons_self _ _)
      rw [after_last_space_cons, if_pos hm]
      exact ⟨rfl, h2.trans (List.suffix_cons _ _)⟩

theorem after_last_space_spec (key : Text) :
    0x20 ∉ after_last_space key ∧ after_last_space key <:+ key := by
  unfold after_last_space
  constructor
  · intro h
    rw [List.mem_reverse] at h
    have := List.mem_takeWhile_imp h
    simp at this
  · rw [← List.reverse_prefix, List.reverse_reverse]
    exact List.takeWhile_prefix _

/-- The key looked up is the key of the specification. -/
theorem popup_lookup_key_eq (key : Text) : popup_lookup_key key = lookup_key_spec key := by
  unfold popup_lookup_key lookup_key_spec
  rcases strrchr_space key with ⟨h1, h2⟩ | ⟨h1, -⟩
  · rw [h1, after_last_space_no_space key h2]
  · rw [h1]
    simp only []
    rw [List.dropWhile_cons]
    have : (c_isspace 0x20 || c_ispunct 0x20) = true := by decide
    rw [this]
    rfl

theorem lookup_key_spec_props (key : Text) :
    0x20 ∉ lookup_key_spec key ∧ lookup_key_spec key <:+ key
    ∧ ∀ c, (lookup_key_spec key).head? = some c → (c_isspace c || c_ispunct c) = false := by
  obtain ⟨h1, h2⟩ := after_last_space_spec key
  unfold lookup_key_spec
  refine ⟨fun h => h1 ((List.dropWhile_suffix _).subset h),
    (List.dropWhile_suffix _).trans h2, ?_⟩
  intro c hc
  have := List.head?_dropWhile_not (fun c => c_isspace c || c_ispunct c) (after_last_space key)
  rw [hc] at this
  simpa using this

/-- Looking up a key that is already trimmed looks up that key. -/
theorem popup_lookup_key_idem (key : Text) :
    popup_lookup_key (popup_lookup_key key) = popup_lookup_key key := by
  obtain ⟨h1, -, h3⟩ := lookup_key_spec_props key
  rw [popup_lookup_key_eq key]
  generalize lookup_key_spec key = t at h1 h3
  unfold popup_lookup_key
  rcases strrchr_space t with ⟨h, -⟩ | ⟨-, h⟩
  · rw [h]
    simp only []
    cases t with
    | nil => rfl
    | cons c rest =>
      rw [List.dropWhile_cons, h3 c rfl]
      rfl
  · exact absurd (h.subset (List.mem_cons_self _ _)) h1

/-- The function `nabi_ic_popup_candidate_window` in terms of the key it looks
up. -/
theorem popup_unfold (D : Deps H C) (s : St H C) (key : Text) :
    nabi_ic_popup_candidate_window D s key
      = if popup_lookup_key key = [] then
          (true, if s.ic.candidate.isSome then s.emit Event.CandidateDelete else s)
        else
          match D.g_utf8_normalize (popup_lookup_key key) with
          | none => (true, if s.ic.candidate.isSome then s.emit Event.CandidateDelete else s)
          | some normalized =>
            match (match D.symbol_table_match_suffix normalized with
                   | some l => some l
                   | none => D.hanja_table_match_suffix normalized) with
            | none => (true, if s.ic.candidate.isSome then s.emit Event.CandidateDelete else s)
            | some l =>
              if (if nabi_connection_need_check_charset s.connection then
                    l.filter (fun hanja => nabi_connection_is_valid_str D s.connection hanja.value)
                  else l).length > 0 then
                (true, (if s.ic.candidate.isSome then s.emit Event.CandidateDelete
                    else s).set_candidate
                  (some (D.nabi_candidate_new (popup_lookup_key key) 9 l
                    (if nabi_connection_need_check_charset s.connection then
                      l.filter (fun hanja =>
                        nabi_connection_is_valid_str D s.connection hanja.value)
                     else l)
                    (if s.ic.focus_window ≠ 0 then s.ic.focus_window
                     else if s.ic.client_window ≠ 0 then s.ic.client_window else 0))))
              else (true, if s.ic.candidate.isSome then s.emit Event.CandidateDelete else s) := by
  unfold nabi_ic_popup_candidate_window popup_lookup_key
  have hconn : (if s.ic.candidate.isSome then s.emit Event.CandidateDelete else s).connection
      = s.connection := by
    split_ifs <;> rfl
  simp only [hconn]

/-- With no candidate window held on entry, the candidate after
`nabi_ic_popup_candidate_window`: none when the key is empty, cannot be
normalised, has no match, or no match is valid in the charset; otherwise
the window made of the matches valid in the charset, in their order, nine to
a page. -/
theorem popup_candidate_filter (D : Deps H C) (s : St H C) (key : Text)
    (hcand : s.ic.candidate = none) :
    (nabi_ic_popup_candidate_window D s key).2.ic.candidate
      = if popup_lookup_key key = [] then none
        else
          match D.g_utf8_normalize (popup_lookup_key key) with
          | none => none
          | some normalized =>
            match (match D.symbol_table_match_suffix normalized with
                   | some l => some l
                   | none => D.hanja_table_match_suffix normalized) with
            | none => none
            | some l =>
              if (if nabi_connection_need_check_charset s.connection then
                    l.filter (fun hanja => nabi_connection_is_valid_str D s.connection hanja.value)
                  else l) = [] then none
              else
                some (D.nabi_candidate_new (popup_lookup_key key) 9 l
                  (if nabi_connection_need_check_charset s.connection then
                    l.filter (fun hanja =>
                      nabi_connection_is_valid_str D s.connection hanja.value)
                   else l)
                  (if s.ic.focus_window ≠ 0 then s.ic.focus_window
                   else if s.ic.client_window ≠ 0 then s.ic.client_window else 0)) := by
  rw [popup_unfold]
  have hs : (if s.ic.candidate.isSome then s.emit Event.CandidateDelete else s) = s := by
    rw [hcand]
    rfl
  rw [hs]
  by_cases hk : popup_lookup_key key = []
  · rw [if_pos hk, if_pos hk]
    exact hcand
  · rw [if_neg hk, if_neg hk]
    cases D.g_utf8_normalize (popup_lookup_key key) with
    | none => exact hcand
    | some normalized =>
      simp only []
      generalize (match D.symbol_table_match_suffix normalized with
        | some l => some l
        | none => D.hanja_table_match_suffix normalized) = list
      cases list with
      | none => exact hcand
      | some l =>
        simp only []
        generalize (if nabi_connection_need_check_charset s.connection then
            l.filter (fun hanja => nabi_connection_is_valid_str D s.connection hanja.value)
          else l) = valid
        cases valid with
        | nil => simpa using hcand
        | cons v vs => simp [St.set_candidate]

end LookupKey

end Nabi

/-! ## The IC list of a connection -/

namespace Nabi

section ConnectionICs

variable {H C : Type}

/-- The counter after `nabi_connection_create_ic`, for a counter in 1..65535:
one more, and 1 after 65535. -/
theorem card16_step (n : Nat) (h1 : 1 ≤ n) (h2 : n ≤ 65535) :
    (if card16_incr n = 0 then card16_incr (card16_incr n) else card16_incr n)
      = if n = 65535 then 1 else n + 1 := by
  unfold card16_incr
  by_cases h : n = 65535
  · subst h
    rfl
  · rw [if_neg h, if_neg (by omega)]
    omega

/-- What `nabi_connection_create_ic` does to the connection. -/
theorem create_ic_fields (X : ServerDeps H) (conn : NabiConnectionObj H C)
    (toplevels : List NabiToplevel) (data : List ICAttribute) :
    (nabi_connection_create_ic X conn toplevels data).2.2.ic.id = conn.next_new_ic_id
    ∧ (nabi_connection_create_ic X conn toplevels data).1.ic_list
        = (nabi_connection_create_ic X conn toplevels data).2.2 :: conn.ic_list
    ∧ (nabi_connection_create_ic X conn toplevels data).1.next_new_ic_id
        = (if card16_incr conn.next_new_ic_id = 0 then card16_incr (card16_incr conn.next_new_ic_id)
           else card16_incr conn.next_new_ic_id)
    ∧ ic_ids (nabi_connection_create_ic X conn toplevels data).1
        = conn.next_new_ic_id :: ic_ids conn :=
  ⟨rfl, rfl, rfl, rfl⟩

/-- What `nabi_connection_destroy_ic` does to the connection. -/
theorem destroy_ic_fields (conn : NabiConnectionObj H C) (toplevels : List NabiToplevel)
    (i : Nat) :
    (nabi_connection_destroy_ic conn toplevels i).1.next_new_ic_id = conn.next_new_ic_id
    ∧ (ic_ids (nabi_connection_destroy_ic conn toplevels i).1).Sublist (ic_ids conn) := by
  unfold nabi_connection_destroy_ic
  cases hi : conn.ic_list.get? i with
  | none => exact ⟨rfl, List.Sublist.refl _⟩
  | some ic =>
    refine ⟨rfl, ?_⟩
    unfold ic_ids
    exact (List.eraseIdx_sublist _ _).map _

/-- The counter of a connection stays in 1..65535. -/
theorem run_connection_calls_counter (X : ServerDeps H) (calls : List ConnectionCall) :
    ∀ st : NabiConnectionObj H C × List NabiToplevel,
      1 ≤ st.1.next_new_ic_id ∧ st.1.next_new_ic_id ≤ 65535 →
      1 ≤ (run_connection_calls X st calls).1.next_new_ic_id
      ∧ (run_connection_calls X st calls).1.next_new_ic_id ≤ 65535 := by
  induction calls with
  | nil => exact fun _ h => h
  | cons call rest ih =>
    intro st h
    cases call with
    | create_ic data =>
      simp only [run_connection_calls]
      apply ih
      show 1 ≤ (nabi_connection_create_ic X st.1 st.2 data).1.next_new_ic_id
        ∧ (nabi_connection_create_ic X st.1 st.2 data).1.next_new_ic_id ≤ 65535
      rw [(create_ic_fields X st.1 st.2 data).2.2.1, card16_step _ h.1 h.2]
      split_ifs <;> omega
    | destroy_ic i =>
      simp only [run_connection_calls]
      apply ih
      rw [(destroy_ic_fields st.1 st.2 i).1]
      exact h

/-- The lookup finds the first IC of the list with the id, and nothing when no
IC has it. -/
theorem ic_list_find_none (id : Nat) (l : List (ICRef H C)) (h : ∀ r ∈ l, r.ic.id ≠ id) :
    ic_list_find id l = none := by
  induction l with
  | nil => rfl
  | cons r rest ih =>
    unfold ic_list_find
    rw [if_neg (h r (List.mem_cons_self _ _))]
    exact ih (fun x hx => h x (List.mem_cons_of_mem _ hx))

end ConnectionICs

end Nabi

/-! ## The toplevel registry -/

namespace Nabi

section RegistryLemmas

variable {H C : Type}

theorem toplevel_find_cons (t : NabiToplevel) (l : List NabiToplevel) (id : Nat) :
    toplevel_find (t :: l) id = if t.id = id then some t else toplevel_find l id := by
  unfold toplevel_find
  rw [List.find?_cons]
  by_cases h : t.id = id
  · have hb : (t.id == id) = true := by simpa using h
    rw [hb, if_pos h]
  · have hb : (t.id == id) = false := by simpa using h
    rw [hb, if_neg h]

theorem toplevel_find_some {l : List NabiToplevel} {id : Nat} {t : NabiToplevel}
    (h : toplevel_find l id = some t) : t ∈ l ∧ t.id = id := by
  unfold toplevel_find at h
  exact ⟨List.mem_of_find?_eq_some h, by simpa using List.find?_some h⟩

theorem toplevel_find_none {l : List NabiToplevel} {id : Nat} :
    toplevel_find l id = none ↔ id ∉ l.map (fun t => t.id) := by
  unfold toplevel_find
  rw [List.find?_eq_none]
  simp

/-- Without two entries for a window, an entry is the one the lookup finds. -/
theorem toplevel_find_mem {l : List NabiToplevel} (hn : (l.map (fun t => t.id)).Nodup)
    {t : NabiToplevel} (ht : t ∈ l) : toplevel_find l t.id = some t := by
  induction l with
  | nil => simp at ht
  | cons a rest ih =>
    rw [List.map_cons, List.nodup_cons] at hn
    rw [toplevel_find_cons]
    rw [List.mem_cons] at ht
    rcases ht with rfl | ht
    · rw [if_pos rfl]
    · have hne : a.id ≠ t.id := by
        intro he
        exact hn.1 (he ▸ List.mem_map_of_mem (fun t => t.id) ht)
      rw [if_neg hne]
      exact ih hn.2 ht

theorem toplevel_update_ids (f : NabiToplevel → NabiToplevel) (hf : ∀ t, (f t).id = t.id)
    (id : Nat) (l : List NabiToplevel) :
    (toplevel_update f id l).map (fun t => t.id) = l.map (fun t => t.id) := by
  induction l with
  | nil => rfl
  | cons a rest ih =>
    unfold toplevel_update
    split_ifs
    · simp [hf]
    · simp [ih]

theorem toplevel_find_update (f : NabiToplevel → NabiToplevel) (hf : ∀ t, (f t).id = t.id)
    (w id : Nat) (l : List NabiToplevel) :
    toplevel_find (toplevel_update f w l) id
      = if id = w then (toplevel_find l w).map f else toplevel_find l id := by
  induction l with
  | nil => simp [toplevel_update, toplevel_find]
  | cons a rest ih =>
    unfold toplevel_update
    by_cases ha : a.id = w
    · rw [if_pos ha, toplevel_find_cons, toplevel_find_cons, toplevel_find_cons, hf, if_pos ha]
      by_cases hid : id = w
      · rw [if_pos hid, if_pos (ha.trans hid.symm)]
        rfl
      · rw [if_neg hid, if_neg (fun h => hid (h.symm.trans ha)),
          if_neg (fun h => hid (h.symm.trans ha))]
    · rw [if_neg ha, toplevel_find_cons, toplevel_find_cons, toplevel_find_cons, if_neg ha, ih]
      by_cases hid : id = w
      · rw [if_pos hid, if_pos hid, if_neg (fun h => ha (h.trans hid))]
      · rw [if_neg hid, if_neg hid]

theorem toplevel_update_mem (f : NabiToplevel → NabiToplevel) (w : Nat) (l : List NabiToplevel)
    (t1 : NabiToplevel) (h : t1 ∈ toplevel_update f w l) :
    t1 ∈ l ∨ ∃ t, toplevel_find l w = some t ∧ t1 = f t := by
  induction l with
  | nil => simp [toplevel_update] at h
  | cons a rest ih =>
    unfold toplevel_update at h
    by_cases ha : a.id = w
    · rw [if_pos ha, List.mem_cons] at h
      rcases h with h | h
      · exact Or.inr ⟨a, by rw [toplevel_find_cons, if_pos ha], h⟩
      · exact Or.inl (List.mem_cons_of_mem _ h)
    · rw [if_neg ha, List.mem_cons] at h
      rcases h with h | h
      · exact Or.inl (h ▸ List.mem_cons_self _ _)
      · rcases ih h with h1 | ⟨t, h1, h2⟩
        · exact Or.inl (List.mem_cons_of_mem _ h1)
        · exact Or.inr ⟨t, by rw [toplevel_find_cons, if_neg ha]; exact h1, h2⟩

theorem remove_toplevel_sublist (w : Nat) (l : List NabiToplevel) :
    (nabi_server_remove_toplevel w l).Sublist l := by
  induction l with
  | nil => exact List.Sublist.refl _
  | cons a rest ih =>
    unfold nabi_server_remove_toplevel
    split_ifs
    · exact List.sublist_cons_self _ _
    · exact ih.cons₂ _

theorem toplevel_find_remove (w id : Nat) (l : List NabiToplevel)
    (hn : (l.map (fun t => t.id)).Nodup) :
    toplevel_find (nabi_server_remove_toplevel w l) id
      = if id = w then none else toplevel_find l id := by
  induction l with
  | nil => simp [nabi_server_remove_toplevel, toplevel_find]
  | cons a rest ih =>
    rw [List.map_cons, List.nodup_cons] at hn
    unfold nabi_server_remove_toplevel
    by_cases ha : a.id = w
    · rw [if_pos ha, toplevel_find_cons]
      by_cases hid : id = w
      · rw [if_pos hid, toplevel_find_none, hid, ← ha]
        exact hn.1
      · rw [if_neg hid, if_neg (fun h => hid (h.symm.trans ha))]
    · rw [if_neg ha, toplevel_find_cons, toplevel_find_cons, ih hn.2]
      by_cases hid : id = w
      · rw [if_pos hid, if_pos hid, if_neg (fun h => ha (h.trans hid))]
      · rw [if_neg hid, if_neg hid]

/-- What `nabi_toplevel_unref` does to a consistent registry that has the
toplevel: the refcount kept for its window is one less, an entry of refcount 1
is gone, and no other entry is touched. -/
theorem toplevel_unref_spec (l : List NabiToplevel) (w : Nat)
    (hn : (l.map (fun t => t.id)).Nodup) (hp : ∀ t ∈ l, 1 ≤ t.ref)
    (t : NabiToplevel) (ht : toplevel_find l w = some t) :
    ((nabi_toplevel_unref l (some w)).map (fun t => t.id)).Nodup
    ∧ (∀ t1 ∈ nabi_toplevel_unref l (some w), 1 ≤ t1.ref)
    ∧ (∀ id, ref_of (nabi_toplevel_unref l (some w)) id
        = ref_of l id - (if id = w then 1 else 0))
    ∧ (∀ id, toplevel_find (nabi_toplevel_unref l (some w)) id
        = if id = w then (if t.ref = 1 then none else some { t with ref := t.ref - 1 })
          else toplevel_find l id) := by
  have htm := toplevel_find_some ht
  have htp := hp t htm.1
  unfold nabi_toplevel_unref
  simp only [ht]
  by_cases h1 : t.ref - 1 ≤ 0
  · have href : t.ref = 1 := by omega
    rw [if_pos h1]
    refine ⟨hn.sublist ((remove_toplevel_sublist w l).map _),
      fun t1 h => hp t1 ((remove_toplevel_sublist w l).subset h), ?_, ?_⟩
    · intro id
      unfold ref_of
      rw [toplevel_find_remove w id l hn]
      by_cases hid : id = w
      · rw [if_pos hid, if_pos hid, hid, ht]
        simp only []
        omega
      · rw [if_neg hid, if_neg hid]
        simp
    · intro id
      rw [toplevel_find_remove w id l hn, if_pos href]
  · have href : t.ref ≠ 1 := by omega
    rw [if_neg h1]
    have hf : ∀ x : NabiToplevel, ({ x with ref := x.ref - 1 } : NabiToplevel).id = x.id :=
      fun _ => rfl
    refine ⟨by rw [toplevel_update_ids _ hf]; exact hn, ?_, ?_, ?_⟩
    · intro t1 h
      rcases toplevel_update_mem _ w l t1 h with h2 | ⟨t2, h2, h3⟩
      · exact hp t1 h2
      · rw [ht] at h2
        cases h2
        rw [h3]
        show 1 ≤ t.ref - 1
        omega
    · intro id
      unfold ref_of
      rw [toplevel_find_update _ hf]
      by_cases hid : id = w
      · rw [if_pos hid, if_pos hid, hid, ht]
        rfl
      · rw [if_neg hid, if_neg hid]
        simp
    · intro id
      rw [toplevel_find_update _ hf, ht, if_neg href]
      rfl

/-- What the registry lookup does to a consistent registry: the refcount kept
for the window is one more, and every entry stays. -/
theorem get_toplevel_spec (mode : NabiInputMode) (l : List NabiToplevel) (w : Nat)
    (hn : (l.map (fun t => t.id)).Nodup) (hp : ∀ t ∈ l, 1 ≤ t.ref) :
    (nabi_server_get_toplevel mode l w).2 = w
    ∧ ((nabi_server_get_toplevel mode l w).1.map (fun t => t.id)).Nodup
    ∧ (∀ t1 ∈ (nabi_server_get_toplevel mode l w).1, 1 ≤ t1.ref)
    ∧ (∀ id, ref_of (nabi_server_get_toplevel mode l w).1 id
        = ref_of l id + (if id = w then 1 else 0))
    ∧ (∀ id, toplevel_find l id ≠ none →
        toplevel_find (nabi_server_get_toplevel mode l w).1 id ≠ none) := by
  unfold nabi_server_get_toplevel
  cases ht : toplevel_find l w with
  | none =>
    simp only []
    refine ⟨by first | rfl | trivial, ?_, ?_, ?_, ?_⟩
    · rw [List.map_cons, List.nodup_cons]
      exact ⟨toplevel_find_none.mp ht, hn⟩
    · intro t1 h
      rw [List.mem_cons] at h
      rcases h with h | h
      · rw [h]
        exact Int.le_refl 1
      · exact hp t1 h
    · intro id
      unfold ref_of
      rw [toplevel_find_cons]
      by_cases hid : id = w
      · have : (nabi_toplevel_new mode w).id = id := hid.symm
        rw [if_pos this, if_pos hid, hid, ht]
        rfl
      · have : ¬ (nabi_toplevel_new mode w).id = id := fun h => hid h.symm
        rw [if_neg this, if_neg hid]
        simp
    · intro id h
      rw [toplevel_find_cons]
      split_ifs
      · simp
      · exact h
  | some t =>
    simp only [nabi_toplevel_ref]
    have hf : ∀ x : NabiToplevel, ({ x with ref := x.ref + 1 } : NabiToplevel).id = x.id :=
      fun _ => rfl
    refine ⟨by first | rfl | trivial, by rw [toplevel_update_ids _ hf]; exact hn, ?_, ?_, ?_⟩
    · intro t1 h
      rcases toplevel_update_mem _ w l t1 h with h2 | ⟨t2, h2, h3⟩
      · exact hp t1 h2
      · rw [ht] at h2
        cases h2
        have := hp t (toplevel_find_some ht).1
        rw [h3]
        show 1 ≤ t.ref + 1
        omega
    · intro id
      unfold ref_of
      rw [toplevel_find_update _ hf]
      by_cases hid : id = w
      · rw [if_pos hid, if_pos hid, hid, ht]
        rfl
      · rw [if_neg hid, if_neg hid]
        simp
    · intro id h
      rw [toplevel_find_update _ hf]
      by_cases hid : id = w
      · rw [if_pos hid, ht]
        simp
      · rw [if_neg hid]
        exact h

end RegistryLemmas

end Nabi

/-! ## The registry and the live ICs -/

namespace Nabi

section RegistryInvariant

variable {H C : Type}

theorem referencing_cons (r : ICRef H C) (ics : List (ICRef H C)) (id : Nat) :
    (referencing (r :: ics) id : Int)
      = referencing ics id + (if r.toplevel = some id then 1 else 0) := by
  unfold referencing
  rw [List.countP_cons]
  by_cases h : r.toplevel = some id
  · simp [h]
  · simp [h]

/-- The IC at an index counts once for the toplevel it points to. -/
theorem referencing_eraseIdx (ics : List (ICRef H C)) (id : Nat) :
    ∀ (i : Nat) (r : ICRef H C), ics.get? i = some r →
      (referencing ics id : Int)
        = referencing (ics.eraseIdx i) id + (if r.toplevel = some id then 1 else 0) := by
  induction ics with
  | nil => intro i r h; simp at h
  | cons a rest ih =>
    intro i r h
    cases i with
    | zero =>
      simp only [List.get?_cons_zero, Option.some.injEq] at h
      rw [List.eraseIdx_cons_zero, referencing_cons, h]
    | succ n =>
      simp only [List.get?_cons_succ] at h
      rw [List.eraseIdx_cons_succ, referencing_cons, referencing_cons, ih n r h]
      omega

theorem referencing_set (ics : List (ICRef H C)) (id : Nat) (r1 : ICRef H C) :
    ∀ (i : Nat) (r : ICRef H C), ics.get? i = some r →
      (referencing (ics.set i r1) id : Int)
        = referencing (ics.eraseIdx i) id + (if r1.toplevel = some id then 1 else 0) := by
  induction ics with
  | nil => intro i r h; simp at h
  | cons a rest ih =>
    intro i r h
    cases i with
    | zero => rw [List.set_cons_zero, List.eraseIdx_cons_zero, referencing_cons]
    | succ n =>
      simp only [List.get?_cons_succ] at h
      rw [List.set_cons_succ, List.eraseIdx_cons_succ, referencing_cons, referencing_cons,
        ih n r h]
      omega

theorem registryOk_iff (w : ICWorld H C) :
    RegistryOk w ↔ RegistryOkWith w.toplevels w.ics none :=
  ⟨fun h => ⟨h.nodup, h.positive, fun id => by rw [h.counts id]; simp⟩,
    fun h => ⟨h.nodup, h.positive, fun id => by rw [h.counts id]; simp⟩⟩

/-- A held toplevel is in the registry. -/
theorem held_toplevel_found {l : List NabiToplevel} {others : List (ICRef H C)} {w : Nat}
    (h : RegistryOkWith l others (some w)) : ∃ t, toplevel_find l w = some t := by
  have hc := h.counts w
  rw [if_pos rfl] at hc
  unfold ref_of at hc
  cases hf : toplevel_find l w with
  | none =>
    rw [hf] at hc
    simp only [] at hc
    omega
  | some t => exact ⟨t, rfl⟩

/-- Releasing the held toplevel leaves a registry consistent with the other
ICs. -/
theorem unref_held_ok {l : List NabiToplevel} {others : List (ICRef H C)} {held : Option Nat}
    (h : RegistryOkWith l others held) :
    RegistryOkWith (if held ≠ none then nabi_toplevel_unref l held else l) others none := by
  cases held with
  | none =>
    rw [if_neg (by simp)]
    exact h
  | some w =>
    rw [if_pos (by simp)]
    obtain ⟨t, ht⟩ := held_toplevel_found h
    obtain ⟨h1, h2, h3, -⟩ := toplevel_unref_spec l w h.nodup h.positive t ht
    refine ⟨h1, h2, fun id => ?_⟩
    rw [h3 id, h.counts id]
    have e0 : (if (none : Option Nat) = some id then (1 : Int) else 0) = 0 := if_neg (by simp)
    by_cases hid : id = w
    · have e1 : (if id = w then (1 : Int) else 0) = 1 := if_pos hid
      have e2 : (if some w = some id then (1 : Int) else 0) = 1 := if_pos (by rw [hid])
      rw [e0, e1, e2]
      omega
    · have e1 : (if id = w then (1 : Int) else 0) = 0 := if_neg hid
      have e2 : (if some w = some id then (1 : Int) else 0) = 0 :=
        if_neg (fun he => hid (Option.some.inj he).symm)
      rw [e0, e1, e2]
      omega

/-- The function `nabi_ic_set_client_window` keeps the registry consistent. -/
theorem set_client_window_ok (X : ServerDeps H) (l : List NabiToplevel)
    (others : List (ICRef H C)) (r : ICRef H C) (client_window : Nat)
    (h : RegistryOkWith l others r.toplevel) :
    RegistryOkWith (nabi_ic_set_client_window X l r client_window).1 others
      (nabi_ic_set_client_window X l r client_window).2.toplevel := by
  have h1 := unref_held_ok h
  unfold nabi_ic_set_client_window
  simp only []
  generalize (if r.toplevel ≠ none then nabi_toplevel_unref l r.toplevel else l) = l1 at h1
  obtain ⟨g1, g2, g3, g4, -⟩ := get_toplevel_spec X.default_input_mode l1
    (toplevel_climb X.XQueryTree X.tree_depth client_window) h1.nodup h1.positive
  refine ⟨g2, g3, fun id => ?_⟩
  rw [g4 id, h1.counts id, g1]
  generalize toplevel_climb X.XQueryTree X.tree_depth client_window = w
  have e0 : (if (none : Option Nat) = some id then (1 : Int) else 0) = 0 := if_neg (by simp)
  by_cases hid : id = w
  · have e1 : (if id = w then (1 : Int) else 0) = 1 := if_pos hid
    have e2 : (if some w = some id then (1 : Int) else 0) = 1 := if_pos (by rw [hid])
    rw [e0, e1, e2]
    omega
  · have e1 : (if id = w then (1 : Int) else 0) = 0 := if_neg hid
    have e2 : (if some w = some id then (1 : Int) else 0) = 0 :=
      if_neg (fun he => hid (Option.some.inj he).symm)
    rw [e0, e1, e2]
    omega

/-- The function `nabi_ic_set_values` keeps the registry consistent. -/
theorem set_values_ok (X : ServerDeps H) (others : List (ICRef H C)) (data : List ICAttribute) :
    ∀ (l : List NabiToplevel) (r : ICRef H C), RegistryOkWith l others r.toplevel →
      RegistryOkWith (nabi_ic_set_values X l r data).1 others
        (nabi_ic_set_values X l r data).2.toplevel := by
  induction data with
  | nil => exact fun l r h => h
  | cons attr rest ih =>
    intro l r h
    cases attr with
    | InputStyle v => exact ih l _ h
    | ClientWindow w => exact ih _ _ (set_client_window_ok X l others r w h)
    | FocusWindow w => exact ih l _ h
    | Other => exact ih l r h

/-- Every call keeps the registry consistent with the live ICs. -/
theorem ic_call_ok (X : ServerDeps H) (w : ICWorld H C) (call : ICCall) (h : RegistryOk w) :
    RegistryOk (call.run X w) := by
  have h0 := (registryOk_iff w).mp h
  cases call with
  | create connection data =>
    have h1 := set_values_ok X w.ics data w.toplevels (nabi_ic_init_values X connection) h0
    refine ⟨h1.nodup, h1.positive, fun id => ?_⟩
    show ref_of (nabi_ic_set_values X w.toplevels (nabi_ic_init_values X connection) data).1 id
      = (referencing ((nabi_ic_set_values X w.toplevels (nabi_ic_init_values X connection)
          data).2 :: w.ics) id : Int)
    rw [h1.counts id, referencing_cons]
  | destroy i =>
    simp only [ICCall.run]
    cases hg : w.ics.get? i with
    | none => exact h
    | some r =>
      simp only []
      have h1 : RegistryOkWith w.toplevels (w.ics.eraseIdx i) r.toplevel :=
        ⟨h.nodup, h.positive, fun id => by rw [h.counts id, referencing_eraseIdx w.ics id i r hg]⟩
      exact (registryOk_iff _).mpr (unref_held_ok h1)
  | set_values i data =>
    simp only [ICCall.run]
    cases hg : w.ics.get? i with
    | none => exact h
    | some r =>
      simp only []
      have h1 : RegistryOkWith w.toplevels (w.ics.eraseIdx i) r.toplevel :=
        ⟨h.nodup, h.positive, fun id => by rw [h.counts id, referencing_eraseIdx w.ics id i r hg]⟩
      have h2 := set_values_ok X (w.ics.eraseIdx i) data w.toplevels r h1
      refine ⟨h2.nodup, h2.positive, fun id => ?_⟩
      show ref_of (nabi_ic_set_values X w.toplevels r data).1 id
        = (referencing (w.ics.set i (nabi_ic_set_values X w.toplevels r data).2) id : Int)
      rw [h2.counts id, referencing_set w.ics id _ i r hg]

theorem run_ic_calls_ok (X : ServerDeps H) (calls : List ICCall) :
    ∀ w : ICWorld H C, RegistryOk w → RegistryOk (run_ic_calls X w calls) := by
  induction calls with
  | nil => exact fun _ h => h
  | cons call rest ih => exact fun w h => ih _ (ic_call_ok X w call h)

/-- In a consistent world the registry holds exactly the toplevels that a live
IC points to, each with the number of those ICs as its refcount. -/
theorem registryOk_spec (w : ICWorld H C) (h : RegistryOk w) :
    (∀ id, id ∈ w.toplevels.map (fun t => t.id) ↔ ∃ r ∈ w.ics, r.toplevel = some id)
    ∧ ∀ t ∈ w.toplevels, t.ref = (referencing w.ics t.id : Int) := by
  have href : ∀ t ∈ w.toplevels, t.ref = (referencing w.ics t.id : Int) := by
    intro t ht
    rw [← h.counts t.id]
    unfold ref_of
    rw [toplevel_find_mem h.nodup ht]
  have hpos : ∀ id, 0 < referencing w.ics id ↔ ∃ r ∈ w.ics, r.toplevel = some id := by
    intro id
    unfold referencing
    rw [List.countP_pos_iff]
    simp
  refine ⟨fun id => ?_, href⟩
  rw [← hpos]
  constructor
  · intro hm
    rw [List.mem_map] at hm
    obtain ⟨t, ht, hid⟩ := hm
    have h1 := href t ht
    have h2 := h.positive t ht
    rw [hid] at h1
    omega
  · intro hp
    by_contra hm
    have h1 := h.counts id
    unfold ref_of at h1
    rw [toplevel_find_none.mpr hm] at h1
    simp only [] at h1
    omega

end RegistryInvariant

end Nabi

/-! ## Connection charset, colours and preedit feedback -/

namespace Nabi

section ConnectionCreate

variable {H C : Type}

/-- No encoding begins with both "UTF-8" and "UTF8": the test that guards
`g_iconv_open` in `nabi_connection_create` holds for every encoding. -/
theorem utf8_alias_test (encoding : Text) :
    (!strniequal encoding str_UTF_8 5 || !strniequal encoding str_UTF8 4) = true := by
  by_cases h5 : strniequal encoding str_UTF_8 5 = true
  · have h4 : strniequal encoding str_UTF8 4 = false := by
      unfold strniequal at h5 ⊢
      rw [decide_eq_true_eq] at h5
      rw [decide_eq_false_iff_not]
      intro h
      have h5t := congrArg (List.take 4) h5
      rw [← List.map_take, List.take_take] at h5t
      rw [show min 4 5 = 4 from rfl, h] at h5t
      revert h5t
      decide
    rw [h4]
    simp
  · simp [h5]

/-- The converter of a new connection: none for a NULL locale and for a locale
with no '.', and otherwise whatever `g_iconv_open` gives for the text after the
first '.', a UTF-8 alias or not. -/
theorem connection_create_cd (g_iconv_open : Text → Option Nat) (mode : NabiInputMode)
    (id : Nat) (locale : Option Text) :
    (nabi_connection_create g_iconv_open mode id locale : NabiConnectionObj H C).cd
      = (match locale with
         | none => none
         | some l =>
           match strchr l 0x2e with
           | none => none
           | some p => g_iconv_open (p.drop 1)) := by
  unfold nabi_connection_create
  cases locale with
  | none => rfl
  | some l =>
    cases hp : strchr l 0x2e with
    | none => simp [hp]
    | some p => simp only [hp, utf8_alias_test, if_true]

/-- With no converter nothing is checked and every string is valid. -/
theorem no_converter_valid (D : Deps H C) (conn : NabiConnection) (h : conn.cd = none)
    (str : Text) :
    nabi_connection_need_check_charset (some conn) = false
    ∧ nabi_connection_is_valid_str D (some conn) str = true := by
  simp [nabi_connection_need_check_charset, nabi_connection_is_valid_str, h]

/-- C21, evaluated at the locale "ko_KR.UTF-8" with an iconv that has a
converter for every encoding: the encoding part "UTF-8" passes the test
`!strniequal(encoding, "UTF-8", 5) || !strniequal(encoding, "UTF8", 4)`, the
converter is opened, and `nabi_connection_need_check_charset` returns TRUE.  A
locale with no '.' and a NULL locale open none. -/
theorem utf8_locale_opens_converter :
    (nabi_connection_create toy_g_iconv_open .DIRECT 1 (some locale_ko_KR_UTF_8) :
        NabiConnectionObj ToyHic (List Hanja)).cd = some 7
    ∧ nabi_connection_need_check_charset
        (some (nabi_connection_create toy_g_iconv_open .DIRECT 1 (some locale_ko_KR_UTF_8) :
          NabiConnectionObj ToyHic (List Hanja)).toNabiConnection) = true
    ∧ (nabi_connection_create toy_g_iconv_open .DIRECT 1 (some [0x43]) :
        NabiConnectionObj ToyHic (List Hanja)).cd = none
    ∧ (nabi_connection_create toy_g_iconv_open .DIRECT 1 none :
        NabiConnectionObj ToyHic (List Hanja)).cd = none := by
  decide

end ConnectionCreate

section Colours

/-- The foreground step of `load_colors`: when the configured colour is
allocated the foreground is its pixel, otherwise the pixel of the white
that is allocated next; here the background allocation succeeds. -/
theorem load_colors_fg {M : Type} (G : ColorDeps M) (fg bg : String) (m : M) (color : GdkColor)
    (server : ServerColors)
    (hbg : ∀ m1 c, (G.gdk_colormap_alloc_color m1 (G.gdk_color_parse bg c)).1 = true) :
    ((G.gdk_colormap_alloc_color m (G.gdk_color_parse fg color)).1 = true →
      (load_colors G fg bg m color server).1.preedit_fg
        = (G.gdk_colormap_alloc_color m (G.gdk_color_parse fg color)).2.1.pixel)
    ∧ ((G.gdk_colormap_alloc_color m (G.gdk_color_parse fg color)).1 = false →
      (load_colors G fg bg m color server).1.preedit_fg
        = (G.gdk_colormap_alloc_color
            (G.gdk_colormap_alloc_color m (G.gdk_color_parse fg color)).2.2
            { pixel := 1, red := 0xffff, green := 0xffff, blue := 0xffff }).2.1.pixel) := by
  constructor <;> intro h <;> simp [load_colors, h, hbg]

/-- The background step of `load_colors` when the allocation of the configured
background fails: the pixel of the black allocated next is written to the
foreground field, and the background field keeps the value it had on entry. -/
theorem load_colors_bg_failure {M : Type} (G : ColorDeps M) (fg bg : String) (m : M)
    (color : GdkColor) (server : ServerColors)
    (hbg : ∀ m1 c, (G.gdk_colormap_alloc_color m1 (G.gdk_color_parse bg c)).1 = false) :
    (load_colors G fg bg m color server).1.preedit_bg = server.preedit_bg
    ∧ ∃ m2, (load_colors G fg bg m color server).1.preedit_fg
        = (G.gdk_colormap_alloc_color m2 { pixel := 0, red := 0, green := 0, blue := 0 }).2.1.pixel := by
  by_cases h : (G.gdk_colormap_alloc_color m (G.gdk_color_parse fg color)).1 = true
  · exact ⟨by simp [load_colors, h, hbg], ⟨_, by simp [load_colors, h, hbg]; rfl⟩⟩
  · exact ⟨by simp [load_colors, h, hbg], ⟨_, by simp [load_colors, h, hbg]; rfl⟩⟩

/-- C29, evaluated on a colormap with one free cell, the server fields being 5
and 7 on entry: the foreground is allocated (pixel 101), the allocation of the
background fails, black is allocated (pixel 0) and written to the foreground
field; the background field is still 7. -/
theorem load_colors_bg_fallback :
    (load_colors toyColors "blue" "green" 1 ⟨0, 0, 0, 0⟩ ⟨5, 7⟩).1 = ⟨0, 7⟩
    ∧ (load_colors toyColors "blue" "green" 1 ⟨0, 0, 0, 0⟩ ⟨5, 7⟩).2.2
      = [ColorMessage.CantAllocate "blue", ColorMessage.UseDefault "#000000"]
    ∧ (load_colors toyColors "blue" "green" 0 ⟨0, 0, 0, 0⟩ ⟨5, 7⟩).1 = ⟨0, 7⟩
    ∧ (load_colors toyColors "blue" "green" 2 ⟨0, 0, 0, 0⟩ ⟨5, 7⟩).1 = ⟨102, 101⟩ := by
  decide

end Colours

section Feedback

variable {H C : Type}

/-- C27: for a Callbacks style IC with a preedit buffer of n scalars and a hic
preedit of h scalars, n + h > 0, `nabi_ic_preedit_update` sends exactly one
event, a PreeditDraw carrying the text buffer ++ hic preedit with caret n + h,
and its feedback array has n + h + 1 entries: XIMUnderline at the first n
indices, XIMReverse at the next h, and 0 at index n + h. -/
theorem preedit_draw_feedback (D : Deps H C) (s : St H C)
    (hcb : hasBits s.ic.input_style XIMPreeditCallbacks = true)
    (hlen : 0 < s.ic.preedit.str.length + (D.hangul_ic_get_preedit_string s.ic.hic).length) :
    ∃ feedback,
      (nabi_ic_preedit_update D s).out
        = s.out ++ [Event.PreeditDraw
            (s.ic.preedit.str.length + (D.hangul_ic_get_preedit_string s.ic.hic).length) 0
            s.ic.preedit.prev_length
            (some (s.ic.preedit.str ++ D.hangul_ic_get_preedit_string s.ic.hic)) feedback]
      ∧ feedback.length
          = s.ic.preedit.str.length + (D.hangul_ic_get_preedit_string s.ic.hic).length + 1
      ∧ (∀ i, i < s.ic.preedit.str.length → feedback.get? i = some XIMUnderline)
      ∧ (∀ i, s.ic.preedit.str.length ≤ i →
          i < s.ic.preedit.str.length + (D.hangul_ic_get_preedit_string s.ic.hic).length →
          feedback.get? i = some XIMReverse)
      ∧ feedback.get?
          (s.ic.preedit.str.length + (D.hangul_ic_get_preedit_string s.ic.hic).length) = some 0 := by
  refine ⟨nabi_ic_preedit_feedback_new s.ic.preedit.str.length
    (D.hangul_ic_get_preedit_string s.ic.hic).length, ?_, ?_, ?_, ?_, ?_⟩
  · unfold nabi_ic_preedit_update
    simp only [nabi_ic_get_hic_preedit_string]
    rw [if_neg (by omega)]
    simp only [hcb, if_true]
    rfl
  · simp [nabi_ic_preedit_feedback_new]
    omega
  · intro i hi
    simp [nabi_ic_preedit_feedback_new, List.getElem?_append, hi]
  · intro i h1 h2
    unfold nabi_ic_preedit_feedback_new
    rw [List.get?_eq_getElem?, List.getElem?_append_left (by simp; omega),
      List.getElem?_append_right (by simp; omega), List.getElem?_replicate]
    simp
    omega
  · unfold nabi_ic_preedit_feedback_new
    rw [List.get?_eq_getElem?, List.getElem?_append_right (by simp)]
    simp

/-- C27, at a concrete input: the buffer holds one syllable and the toy
automaton composes two scalars. -/
theorem preedit_draw_feedback_witness :
    (nabi_ic_preedit_update toyDeps (toySt ⟨[0x1100, 0x1161], []⟩ [0xac00] none none "hanja")).out
      = [Event.PreeditDraw 3 0 0 (some [0xac00, 0x1100, 0x1161])
          [XIMUnderline, XIMReverse, XIMReverse, 0]]
    ∧ ∃ feedback,
      (nabi_ic_preedit_update toyDeps
          (toySt ⟨[0x1100, 0x1161], []⟩ [0xac00] none none "hanja")).out
        = (toySt ⟨[0x1100, 0x1161], []⟩ [0xac00] none none "hanja").out
          ++ [Event.PreeditDraw 3 0 0 (some [0xac00, 0x1100, 0x1161]) feedback]
      ∧ feedback.length = 4 :=
  ⟨by decide,
    (preedit_draw_feedback toyDeps (toySt ⟨[0x1100, 0x1161], []⟩ [0xac00] none none "hanja")
      (by decide) (by decide)).imp (fun _ h => ⟨h.1, h.2.1⟩)⟩

end Feedback

end Nabi

/-! ## Retraction by syllables and the iterator bounds -/

namespace Nabi

section RetractionBySyllables

/-- C28: the retraction loop of `nabi_ic_insert_candidate` over the preedit
buffer, entered with the counter k and `iter` at the end of the buffer, is a
total function.  With s the number of syllables of the buffer, as delimited by
`is_syllable_boundary`, it leaves a prefix of the buffer that holds the first
s - min(k, s) syllables and ends at a syllable start of the original or at its
end, `iter` is at the end of what is left, and the counter is k - min(k, s). -/
theorem retract_whole_syllables (J : JamoClass) (buf : UString) (k : Nat) :
    (retract_preedit_loop J k buf (ustring_length buf)).1
        = buf.take (retract_preedit_loop J k buf (ustring_length buf)).1.length
    ∧ (retract_preedit_loop J k buf (ustring_length buf)).2.1
        = (retract_preedit_loop J k buf (ustring_length buf)).1.length
    ∧ syllables_before J buf (retract_preedit_loop J k buf (ustring_length buf)).1.length
        = syllables_before J buf buf.length - min k (syllables_before J buf buf.length)
    ∧ ((retract_preedit_loop J k buf (ustring_length buf)).1.length = buf.length
        ∨ is_syllable_start J buf (retract_preedit_loop J k buf (ustring_length buf)).1.length
            = true)
    ∧ (retract_preedit_loop J k buf (ustring_length buf)).2.2
        = k - min k (syllables_before J buf buf.length) := by
  obtain ⟨h1, h2, h3, h4, h5⟩ := retract_preedit_loop_starts J buf k buf.length (Nat.le_refl _)
  rw [List.take_length] at h1 h2 h3 h4 h5
  have hl : (retract_preedit_loop J k buf (ustring_length buf)).1.length
      = (retract_preedit_loop J k buf (ustring_length buf)).2.1 := by
    show (retract_preedit_loop J k buf buf.length).1.length
      = (retract_preedit_loop J k buf buf.length).2.1
    rw [h1, List.length_take, Nat.min_eq_left h2]
  rw [hl]
  exact ⟨h1, rfl, h3, h5, h4⟩

/-- C28, at a concrete input: the buffer holds the syllables U+1100 U+1161,
U+AC00 and U+1102 U+1161 U+11AB; with the counter 2 the last two are
removed and the counter is 0, with the counter 5 all three and 2 is left. -/
theorem retract_whole_syllables_witness :
    retract_preedit_loop unicodeJamo 2 [0x1100, 0x1161, 0xac00, 0x1102, 0x1161, 0x11ab] 6
      = ([0x1100, 0x1161], 2, 0)
    ∧ retract_preedit_loop unicodeJamo 5 [0x1100, 0x1161, 0xac00, 0x1102, 0x1161, 0x11ab] 6
      = ([], 0, 2)
    ∧ syllables_before unicodeJamo [0x1100, 0x1161, 0xac00, 0x1102, 0x1161, 0x11ab] 6 = 3
    ∧ (retract_preedit_loop unicodeJamo 2 [0x1100, 0x1161, 0xac00, 0x1102, 0x1161, 0x11ab]
        (ustring_length [0x1100, 0x1161, 0xac00, 0x1102, 0x1161, 0x11ab])).2.2
      = 2 - min 2 (syllables_before unicodeJamo
          [0x1100, 0x1161, 0xac00, 0x1102, 0x1161, 0x11ab]
          [0x1100, 0x1161, 0xac00, 0x1102, 0x1161, 0x11ab].length) :=
  ⟨by decide, by decide, by decide,
    (retract_whole_syllables unicodeJamo [0x1100, 0x1161, 0xac00, 0x1102, 0x1161, 0x11ab]
      2).2.2.2.2⟩

/-- C30: for a position `iter` of the array with begin ≤ iter ≤ end,
`ustr_syllable_iter_prev` returns r with begin ≤ r ≤ iter, r < iter when
iter > begin and r = begin when iter = begin; every index it reads lies in
[begin, end); r is begin or has a syllable boundary between the scalars
at r - 1 and r, and there is no boundary between the scalars at j - 1 and
j for r < j < iter. -/
theorem iter_prev_in_bounds (J : JamoClass) (buf : List Nat) (iter b : Nat)
    (hb : b ≤ iter) (he : iter ≤ buf.length) :
    b ≤ ustr_syllable_iter_prev J buf iter b
    ∧ ustr_syllable_iter_prev J buf iter b ≤ iter
    ∧ (b < iter → ustr_syllable_iter_prev J buf iter b < iter)
    ∧ (iter = b → ustr_syllable_iter_prev J buf iter b = b)
    ∧ (ustr_syllable_iter_prev_reads J buf iter b).1 = ustr_syllable_iter_prev J buf iter b
    ∧ (∀ j ∈ (ustr_syllable_iter_prev_reads J buf iter b).2, b ≤ j ∧ j < buf.length)
    ∧ (ustr_syllable_iter_prev J buf iter b = b
        ∨ is_syllable_boundary J
            (buf.getD (ustr_syllable_iter_prev J buf iter b - 1) 0)
            (buf.getD (ustr_syllable_iter_prev J buf iter b) 0) = true)
    ∧ ∀ j, ustr_syllable_iter_prev J buf iter b < j → j < iter →
        is_syllable_boundary J (buf.getD (j - 1) 0) (buf.getD j 0) = false := by
  obtain ⟨h1, h2, h3, h4, h5⟩ := iter_prev_spec J buf iter b hb
  refine ⟨h1, h2, h3, fun h => by omega, ?_, ?_, h4, h5⟩
  · unfold ustr_syllable_iter_prev_reads ustr_syllable_iter_prev
    exact (iter_prev_loop_reads_spec J buf b _).1
  · intro j hj
    unfold ustr_syllable_iter_prev_reads at hj
    by_cases hi : iter > b
    · rw [if_pos hi] at hj
      have := (iter_prev_loop_reads_spec J buf b (iter - 1)).2 j hj
      omega
    · rw [if_neg hi] at hj
      have hib : iter = b := by omega
      subst hib
      cases iter with
      | zero => simp [ustr_syllable_iter_prev_loop_reads] at hj
      | succ n => simp [ustr_syllable_iter_prev_loop_reads] at hj

/-- C30, at a concrete input: in the array U+AC00 U+1100 U+1161 U+11A8 the
step back from the end goes to index 1, reading the indices 2, 3, 1, 2, 0, 1,
and the step back from index 1 goes to the start, reading nothing. -/
theorem iter_prev_in_bounds_witness :
    ustr_syllable_iter_prev_reads unicodeJamo [0xac00, 0x1100, 0x1161, 0x11a8] 4 0
      = (1, [2, 3, 1, 2, 0, 1])
    ∧ ustr_syllable_iter_prev_reads unicodeJamo [0xac00, 0x1100, 0x1161, 0x11a8] 1 0 = (0, [])
    ∧ ∀ j ∈ (ustr_syllable_iter_prev_reads unicodeJamo [0xac00, 0x1100, 0x1161, 0x11a8] 4 0).2,
        0 ≤ j ∧ j < [0xac00, 0x1100, 0x1161, 0x11a8].length :=
  ⟨by decide, by decide,
    (iter_prev_in_bounds unicodeJamo [0xac00, 0x1100, 0x1161, 0x11a8] 4 0 (by decide)
      (by decide)).2.2.2.2.2.1⟩

end RetractionBySyllables

end Nabi

/-! ## Candidate lookup -/

namespace Nabi

section CandidateLookup

variable {H C : Type}

/-- C25: `nabi_ic_popup_candidate_window` returns True and does the lookup of
the specification on the trimmed key: the string that is normalised, looked up
in the tables and given to the candidate window is the substring after the
last space of the key, the whole key when it has no space, without its leading
ASCII whitespace and punctuation.  That string holds no space, is a suffix of
the key and does not start with whitespace or punctuation, and the function
does on the key what it does on that string.  When it is empty the function
returns True and the result is the same for all tables, the state with only
the old window deleted: nothing is looked up, and no candidate window is made.
The key that `nabi_ic_process_string_conversion_reply` passes is the client
text, then the preedit buffer, then the hic preedit, the client text being
the text of the reply. -/
theorem lookup_key_trimming (D : Deps H C) (s : St H C) (key : Text) :
    nabi_ic_popup_candidate_window D s key
      = (true,
          match candidate_lookup_spec D s key with
          | some c =>
            (if s.ic.candidate.isSome then s.emit Event.CandidateDelete else s).set_candidate
              (some c)
          | none => if s.ic.candidate.isSome then s.emit Event.CandidateDelete else s)
    ∧ 0x20 ∉ lookup_key_spec key
    ∧ lookup_key_spec key <:+ key
    ∧ (∀ c, (lookup_key_spec key).head? = some c → (c_isspace c || c_ispunct c) = false)
    ∧ nabi_ic_popup_candidate_window D s key
        = nabi_ic_popup_candidate_window D s (lookup_key_spec key)
    ∧ (lookup_key_spec key = [] →
        ∀ D1 : Deps H C, nabi_ic_popup_candidate_window D1 s key
          = (true, if s.ic.candidate.isSome then s.emit Event.CandidateDelete else s))
    ∧ (∀ text : Text,
        nabi_ic_process_string_conversion_reply D s (some text)
          = (nabi_ic_popup_candidate_window D (s.set_client_text (some text))
              (text ++ s.ic.preedit.str ++ D.hangul_ic_get_preedit_string s.ic.hic)).2
        ∧ (nabi_ic_process_string_conversion_reply D s (some text)).ic.client_text
            = some text) := by
  have hfun : ∀ (D1 : Deps H C) (s1 : St H C) (k : Text),
      nabi_ic_popup_candidate_window D1 s1 k
        = (true,
            match candidate_lookup_spec D1 s1 k with
            | some c =>
              (if s1.ic.candidate.isSome then s1.emit Event.CandidateDelete
                else s1).set_candidate (some c)
            | none => if s1.ic.candidate.isSome then s1.emit Event.CandidateDelete else s1) := by
    intro D1 s1 k
    unfold nabi_ic_popup_candidate_window candidate_lookup_spec
    have hconn : (if s1.ic.candidate.isSome then s1.emit Event.CandidateDelete
        else s1).connection = s1.connection := by
      split_ifs <;> rfl
    have hkey := popup_lookup_key_eq k
    unfold popup_lookup_key at hkey
    simp only [hconn]
    cases hstr : strrchr k 0x20
    all_goals (
      rw [hstr] at hkey
      simp only [] at hkey ⊢
      rw [hkey]
      by_cases hk : lookup_key_spec k = []
      · rw [if_pos hk, if_pos hk]
      · rw [if_neg hk, if_neg hk]
        cases D1.g_utf8_normalize (lookup_key_spec k) with
        | none => rfl
        | some normalized =>
          simp only []
          have hparent : (if s1.ic.focus_window ≠ 0 then s1.ic.focus_window
                else if s1.ic.client_window ≠ 0 then s1.ic.client_window else 0)
              = (if s1.ic.focus_window ≠ 0 then s1.ic.focus_window else s1.ic.client_window) := by
            by_cases hf : s1.ic.focus_window ≠ 0
            · rw [if_pos hf, if_pos hf]
            · rw [if_neg hf, if_neg hf]
              by_cases hc : s1.ic.client_window ≠ 0
              · rw [if_pos hc]
              · rw [if_neg hc]
                exact (not_not.mp hc).symm
          rw [hparent]
          have hlist : ∀ (l valid : List Hanja),
              (if valid.length > 0 then
                  (true, (if s1.ic.candidate.isSome then s1.emit Event.CandidateDelete
                      else s1).set_candidate
                    (some (D1.nabi_candidate_new (lookup_key_spec k) 9 l valid
                      (if s1.ic.focus_window ≠ 0 then s1.ic.focus_window else s1.ic.client_window))))
                else (true, if s1.ic.candidate.isSome then s1.emit Event.CandidateDelete else s1))
                = (true,
                    match (if valid = [] then none
                      else some (D1.nabi_candidate_new (lookup_key_spec k) 9 l valid
                        (if s1.ic.focus_window ≠ 0 then s1.ic.focus_window
                         else s1.ic.client_window))) with
                    | some c =>
                      (if s1.ic.candidate.isSome then s1.emit Event.CandidateDelete
                        else s1).set_candidate (some c)
                    | none => if s1.ic.candidate.isSome then s1.emit Event.CandidateDelete else s1) := by
            intro l valid
            cases valid with
            | nil =>
              have e1 : ¬ (([] : List Hanja).length > 0) := by simp
              simp only [if_neg e1, if_true]
            | cons v vs =>
              have e1 : (v :: vs).length > 0 := by simp
              have e2 : ¬ (v :: vs = []) := by simp
              simp only [if_pos e1, if_neg e2]
          cases hs : D1.symbol_table_match_suffix normalized with
          | some l =>
            simp only [Option.orElse]
            exact hlist l _
          | none =>
            simp only [Option.orElse]
            cases hh : D1.hanja_table_match_suffix normalized with
            | none => rfl
            | some l =>
              simp only []
              exact hlist l _)
  have hidem : lookup_key_spec (lookup_key_spec key) = lookup_key_spec key := by
    rw [← popup_lookup_key_eq (lookup_key_spec key), ← popup_lookup_key_eq key]
    exact popup_lookup_key_idem key
  obtain ⟨h1, h2, h3⟩ := lookup_key_spec_props key
  refine ⟨hfun D s key, h1, h2, h3, ?_, ?_, ?_⟩
  · rw [hfun D s key, hfun D s (lookup_key_spec key)]
    unfold candidate_lookup_spec
    rw [hidem]
  · intro hk D1
    rw [hfun D1 s key]
    unfold candidate_lookup_spec
    rw [if_pos hk]
  · intro text
    have hreply : nabi_ic_process_string_conversion_reply D s (some text)
        = (nabi_ic_popup_candidate_window D (s.set_client_text (some text))
            (text ++ s.ic.preedit.str ++ D.hangul_ic_get_preedit_string s.ic.hic)).2 := by
      unfold nabi_ic_process_string_conversion_reply
      cases hct : s.ic.client_text <;>
        simp [hct, St.set_client_text, ustring_append, ustring_clear, nabi_ic_get_preedit_string,
          List.append_assoc]
    refine ⟨hreply, ?_⟩
    rw [hreply, hfun]
    simp only []
    cases candidate_lookup_spec D (s.set_client_text (some text))
        (text ++ s.ic.preedit.str ++ D.hangul_ic_get_preedit_string s.ic.hic) with
    | none => split_ifs <;> rfl
    | some c => split_ifs <;> rfl

/-- C25, at a concrete input: the key "ab .,가" opens the window of the one
match of "가", as the lookup of the specification says; the key "ab .,x가" is
looked up as "x가", and a key that ends in a space and a comma is looked up as
the empty string. -/
theorem lookup_key_trimming_witness :
    (nabi_ic_popup_candidate_window toyDeps (toySt ⟨[], []⟩ [] none none "hanja")
        [0x61, 0x62, 0x20, 0x2e, 0x2c, 0xac00]).2.ic.candidate = some [⟨[0xac00], [0x5bb6]⟩]
    ∧ lookup_key_spec [0x61, 0x62, 0x20, 0x2e, 0x2c, 0x78, 0xac00] = [0x78, 0xac00]
    ∧ lookup_key_spec [0x61, 0x20, 0x62, 0x20, 0x2c] = []
    ∧ nabi_ic_popup_candidate_window toyDeps (toySt ⟨[], []⟩ [] none none "hanja")
        [0x61, 0x62, 0x20, 0x2e, 0x2c, 0xac00]
      = (true,
          match candidate_lookup_spec toyDeps (toySt ⟨[], []⟩ [] none none "hanja")
              [0x61, 0x62, 0x20, 0x2e, 0x2c, 0xac00] with
          | some c =>
            (if (toySt ⟨[], []⟩ [] none none "hanja").ic.candidate.isSome then
                (toySt ⟨[], []⟩ [] none none "hanja").emit Event.CandidateDelete
              else toySt ⟨[], []⟩ [] none none "hanja").set_candidate (some c)
          | none =>
            if (toySt ⟨[], []⟩ [] none none "hanja").ic.candidate.isSome then
              (toySt ⟨[], []⟩ [] none none "hanja").emit Event.CandidateDelete
            else toySt ⟨[], []⟩ [] none none "hanja") :=
  ⟨by decide, by decide, by decide,
    (lookup_key_trimming toyDeps (toySt ⟨[], []⟩ [] none none "hanja")
      [0x61, 0x62, 0x20, 0x2e, 0x2c, 0xac00]).1⟩

/-- C26, evaluated on an IC that holds a candidate window when the client
answers the string conversion request with the text "x", for which no table
has a match: the old window is deleted and `ic->candidate` is left as it
was, so the IC still holds the deleted candidate.  On an IC with no
candidate the same reply leaves none, and the key U+AC00 opens the window of
its one match. -/
theorem popup_keeps_deleted_candidate :
    (nabi_ic_process_string_conversion_reply toyDeps
        (toySt ⟨[], []⟩ [] (some [⟨[0xac00], [0x5bb6]⟩]) none "hanja") (some [0x78])).ic.candidate
      = some [⟨[0xac00], [0x5bb6]⟩]
    ∧ (nabi_ic_process_string_conversion_reply toyDeps
        (toySt ⟨[], []⟩ [] (some [⟨[0xac00], [0x5bb6]⟩]) none "hanja") (some [0x78])).out
      = [Event.CandidateDelete]
    ∧ (nabi_ic_process_string_conversion_reply toyDeps
        (toySt ⟨[], []⟩ [] none none "hanja") (some [0x78])).ic.candidate = none
    ∧ (nabi_ic_popup_candidate_window toyDeps
        (toySt ⟨[], []⟩ [] none none "hanja") [0xac00]).2.ic.candidate
      = some [⟨[0xac00], [0x5bb6]⟩] := by
  decide

end CandidateLookup

end Nabi

/-! ## IC ids -/

namespace Nabi

section ICIds

variable {H C : Type}

/-- C23: on the connection reached from a new one by any sequence of
creations and destructions, `nabi_connection_create_ic` returns an IC whose id
is the counter, not zero; the counter becomes one more, and 1 after 65535;
and `nabi_connection_get_ic` with that id, called next, returns that IC, the
first of the list.  `nabi_connection_get_ic` returns NULL for the id 0, for a
NULL connection, and for an id that no IC of the list has. -/
theorem create_lookup_round_trip (X : ServerDeps H) (g_iconv_open : Text → Option Nat)
    (mode : NabiInputMode) (id : Nat) (locale : Option Text) (toplevels : List NabiToplevel)
    (calls : List ConnectionCall) (data : List ICAttribute) :
    (nabi_connection_create_ic X (run_connection_calls X
        ((nabi_connection_create g_iconv_open mode id locale : NabiConnectionObj H C), toplevels)
        calls).1 (run_connection_calls X
        ((nabi_connection_create g_iconv_open mode id locale : NabiConnectionObj H C), toplevels)
        calls).2 data).2.2.ic.id ≠ 0
    ∧ (nabi_connection_create_ic X (run_connection_calls X
        ((nabi_connection_create g_iconv_open mode id locale : NabiConnectionObj H C), toplevels)
        calls).1 (run_connection_calls X
        ((nabi_connection_create g_iconv_open mode id locale : NabiConnectionObj H C), toplevels)
        calls).2 data).2.2.ic.id
      = (run_connection_calls X
        ((nabi_connection_create g_iconv_open mode id locale : NabiConnectionObj H C), toplevels)
        calls).1.next_new_ic_id
    ∧ (nabi_connection_create_ic X (run_connection_calls X
        ((nabi_connection_create g_iconv_open mode id locale : NabiConnectionObj H C), toplevels)
        calls).1 (run_connection_calls X
        ((nabi_connection_create g_iconv_open mode id locale : NabiConnectionObj H C), toplevels)
        calls).2 data).1.next_new_ic_id
      = (if (run_connection_calls X
            ((nabi_connection_create g_iconv_open mode id locale : NabiConnectionObj H C), toplevels)
            calls).1.next_new_ic_id = 65535 then 1
         else (run_connection_calls X
            ((nabi_connection_create g_iconv_open mode id locale : NabiConnectionObj H C), toplevels)
            calls).1.next_new_ic_id + 1)
    ∧ nabi_connection_get_ic (some (nabi_connection_create_ic X (run_connection_calls X
        ((nabi_connection_create g_iconv_open mode id locale : NabiConnectionObj H C), toplevels)
        calls).1 (run_connection_calls X
        ((nabi_connection_create g_iconv_open mode id locale : NabiConnectionObj H C), toplevels)
        calls).2 data).1)
        (nabi_connection_create_ic X (run_connection_calls X
        ((nabi_connection_create g_iconv_open mode id locale : NabiConnectionObj H C), toplevels)
        calls).1 (run_connection_calls X
        ((nabi_connection_create g_iconv_open mode id locale : NabiConnectionObj H C), toplevels)
        calls).2 data).2.2.ic.id
      = some (nabi_connection_create_ic X (run_connection_calls X
        ((nabi_connection_create g_iconv_open mode id locale : NabiConnectionObj H C), toplevels)
        calls).1 (run_connection_calls X
        ((nabi_connection_create g_iconv_open mode id locale : NabiConnectionObj H C), toplevels)
        calls).2 data).2.2
    ∧ (nabi_connection_create_ic X (run_connection_calls X
        ((nabi_connection_create g_iconv_open mode id locale : NabiConnectionObj H C), toplevels)
        calls).1 (run_connection_calls X
        ((nabi_connection_create g_iconv_open mode id locale : NabiConnectionObj H C), toplevels)
        calls).2 data).1.ic_list.head?
      = some (nabi_connection_create_ic X (run_connection_calls X
        ((nabi_connection_create g_iconv_open mode id locale : NabiConnectionObj H C), toplevels)
        calls).1 (run_connection_calls X
        ((nabi_connection_create g_iconv_open mode id locale : NabiConnectionObj H C), toplevels)
        calls).2 data).2.2
    ∧ (∀ conn : Option (NabiConnectionObj H C), nabi_connection_get_ic conn 0 = none)
    ∧ (∀ i, nabi_connection_get_ic (none : Option (NabiConnectionObj H C)) i = none)
    ∧ (∀ (conn : NabiConnectionObj H C) (i : Nat), (∀ r ∈ conn.ic_list, r.ic.id ≠ i) →
        nabi_connection_get_ic (some conn) i = none) := by
  obtain ⟨hlo, hhi⟩ := run_connection_calls_counter X calls
    ((nabi_connection_create g_iconv_open mode id locale : NabiConnectionObj H C), toplevels)
    ⟨by simp [nabi_connection_create], by simp [nabi_connection_create]⟩
  generalize run_connection_calls X
    ((nabi_connection_create g_iconv_open mode id locale : NabiConnectionObj H C), toplevels)
    calls = st at hlo hhi
  obtain ⟨h1, h2, h3, -⟩ := create_ic_fields X st.1 st.2 data
  refine ⟨?_, h1, ?_, ?_, ?_, ?_, ?_, ?_⟩
  · rw [h1]
    omega
  · rw [h3, card16_step _ hlo hhi]
  · unfold nabi_connection_get_ic
    simp only []
    rw [if_neg (by rw [h1]; omega), h2]
    unfold ic_list_find
    rw [if_pos rfl]
  · rw [h2]
    rfl
  · intro conn
    cases conn <;> simp [nabi_connection_get_ic]
  · intro i
    rfl
  · intro conn i hi
    unfold nabi_connection_get_ic
    simp only []
    split_ifs
    · rfl
    · exact ic_list_find_none i conn.ic_list hi

/-- C23, at a concrete input: after two creations and one destruction the
third IC gets the id 3 and is found by it; and a connection whose counter is
65535 gives the id 65535 and goes on with 1. -/
theorem create_lookup_round_trip_witness :
    (nabi_connection_get_ic (some (nabi_connection_create_ic toyServer
        (run_connection_calls toyServer (toyConnection, [])
          [.create_ic [], .create_ic [], .destroy_ic 0]).1 [] []).1) 3).map (fun r => r.ic.id)
      = some 3
    ∧ (nabi_connection_create_ic toyServer { toyConnection with next_new_ic_id := 65535 } []
        []).1.next_new_ic_id = 1
    ∧ (nabi_connection_create_ic toyServer (run_connection_calls toyServer
        ((nabi_connection_create toy_g_iconv_open .DIRECT 1 (some locale_ko_KR_eucKR) :
          NabiConnectionObj ToyHic (List Hanja)), [])
        [.create_ic [], .create_ic [], .destroy_ic 0]).1 (run_connection_calls toyServer
        ((nabi_connection_create toy_g_iconv_open .DIRECT 1 (some locale_ko_KR_eucKR) :
          NabiConnectionObj ToyHic (List Hanja)), [])
        [.create_ic [], .create_ic [], .destroy_ic 0]).2 []).2.2.ic.id ≠ 0 :=
  ⟨by decide, by decide,
    (create_lookup_round_trip toyServer toy_g_iconv_open .DIRECT 1 (some locale_ko_KR_eucKR) []
      [.create_ic [], .create_ic [], .destroy_ic 0] []).1⟩

end ICIds

end Nabi

/-! ## Toplevel refcount -/

namespace Nabi

section ToplevelRefcount

variable {H C : Type}

/-- C24: with the registry lookup that returns the entry of the window with
its refcount incremented, or makes one with refcount 1, after every sequence
of IC creations, IC destructions and value changes (window changes among
them) on a server that starts with no IC and no toplevel: the registry has
an entry for a window exactly when a live IC points to its toplevel, and the
refcount of every entry is the number of live ICs that point to it.
`nabi_toplevel_unref` on an entry removes it exactly when its refcount is 1,
so that it comes to zero, lowers it otherwise and touches no other entry,
and the registry lookup removes none. -/
theorem toplevel_refcount (X : ServerDeps H) (calls : List ICCall) :
    (∀ id, id ∈ (run_ic_calls X ({ toplevels := [], ics := [] } : ICWorld H C)
          calls).toplevels.map (fun t => t.id)
        ↔ ∃ r ∈ (run_ic_calls X ({ toplevels := [], ics := [] } : ICWorld H C) calls).ics,
            r.toplevel = some id)
    ∧ (∀ t ∈ (run_ic_calls X ({ toplevels := [], ics := [] } : ICWorld H C) calls).toplevels,
        t.ref = (referencing
          (run_ic_calls X ({ toplevels := [], ics := [] } : ICWorld H C) calls).ics t.id : Int))
    ∧ (∀ t ∈ (run_ic_calls X ({ toplevels := [], ics := [] } : ICWorld H C) calls).toplevels,
        ∀ id, toplevel_find (nabi_toplevel_unref
            (run_ic_calls X ({ toplevels := [], ics := [] } : ICWorld H C) calls).toplevels
            (some t.id)) id
          = if id = t.id then (if t.ref = 1 then none else some { t with ref := t.ref - 1 })
            else toplevel_find
              (run_ic_calls X ({ toplevels := [], ics := [] } : ICWorld H C) calls).toplevels id)
    ∧ (∀ w id, toplevel_find
          (run_ic_calls X ({ toplevels := [], ics := [] } : ICWorld H C) calls).toplevels id ≠ none →
        toplevel_find (nabi_server_get_toplevel X.default_input_mode
          (run_ic_calls X ({ toplevels := [], ics := [] } : ICWorld H C) calls).toplevels w).1 id
          ≠ none) := by
  have h0 : RegistryOk ({ toplevels := [], ics := [] } : ICWorld H C) :=
    ⟨List.nodup_nil, fun t ht => by simp at ht, fun id => rfl⟩
  have h := run_ic_calls_ok X calls _ h0
  generalize run_ic_calls X ({ toplevels := [], ics := [] } : ICWorld H C) calls = w at h
  obtain ⟨h1, h2⟩ := registryOk_spec w h
  refine ⟨h1, h2, ?_, ?_⟩
  · intro t ht id
    exact (toplevel_unref_spec w.toplevels t.id h.nodup h.positive t
      (toplevel_find_mem h.nodup ht)).2.2.2 id
  · intro x id hf
    exact (get_toplevel_spec X.default_input_mode w.toplevels x h.nodup h.positive).2.2.2.2 id hf

/-- C24, at a concrete input: on the toy server three ICs are created with
the client windows 11, 12 (under the toplevel 10) and 21 (under 20); the third
moves to the window 11, which evicts the toplevel 20, and the second is
destroyed: the registry holds the toplevel 10 with refcount 2. -/
theorem toplevel_refcount_witness :
    (run_ic_calls toyServer toyICWorld
        [.create (some 1) [.ClientWindow 11], .create (some 1) [.ClientWindow 12],
          .create (some 1) [.ClientWindow 21]]).toplevels
      = [⟨20, .DIRECT, 1⟩, ⟨10, .DIRECT, 2⟩]
    ∧ (run_ic_calls toyServer toyICWorld
        [.create (some 1) [.ClientWindow 11], .create (some 1) [.ClientWindow 12],
          .create (some 1) [.ClientWindow 21], .set_values 0 [.ClientWindow 11],
          .destroy 1]).toplevels
      = [⟨10, .DIRECT, 2⟩]
    ∧ ∀ t ∈ (run_ic_calls toyServer ({ toplevels := [], ics := [] } : ICWorld ToyHic (List Hanja))
        [.create (some 1) [.ClientWindow 11], .create (some 1) [.ClientWindow 12],
          .create (some 1) [.ClientWindow 21], .set_values 0 [.ClientWindow 11],
          .destroy 1]).toplevels,
        t.ref = (referencing
          (run_ic_calls toyServer ({ toplevels := [], ics := [] } : ICWorld ToyHic (List Hanja))
            [.create (some 1) [.ClientWindow 11], .create (some 1) [.ClientWindow 12],
              .create (some 1) [.ClientWindow 21], .set_values 0 [.ClientWindow 11],
              .destroy 1]).ics t.id : Int) :=
  ⟨by decide, by decide,
    (toplevel_refcount toyServer
      [.create (some 1) [.ClientWindow 11], .create (some 1) [.ClientWindow 12],
        .create (some 1) [.ClientWindow 21], .set_values 0 [.ClientWindow 11],
        .destroy 1]).2.1⟩

end ToplevelRefcount

end Nabi
